import Mathlib

/-!
Shallow embedding of the embedding-based clustering and identity-resolution
engine of `src/searchy/face_recognition_service.py` (class
`FaceRecognitionService`), together with proofs of the specified properties.

Modelling conventions:

* float vectors become `List ℚ`;
* the numeric kernel `cosSim a b` abstracts `float(np.dot(na, nb))`, where
  `na`, `nb` are the L2-normalized images of the raw vectors `a`, `b` (the
  square root in `np.linalg.norm` is not rational, so the normalized dot
  product is kept as an uninterpreted parameter; the zero-norm guards around
  each normalization site are modelled separately and exactly, see the
  normalization section);
* Python dicts become association lists with Python's semantics: assignment
  replaces an existing binding in place and appends a fresh one
  (`alInsert`), iteration follows insertion order;
* `FaceData` keeps exactly the fields the engine logic reads (`face_id`,
  `embedding`, `verified`); presentation metadata (image path, bbox,
  confidence, thumbnail path, added date) is never read by any modelled
  operation and is omitted;
* in-place mutation of a shared `FaceData` object (`face.verified = ...`),
  which in the source is visible through both `self.faces` and the cluster
  membership lists aliasing the same object, is modelled by updating every
  list that holds the face (keyed by `face_id`; the well-formedness
  hypotheses of the theorems require distinct `face_id`s, under which this
  coincides with the aliasing semantics).
-/

open Relation

/-- A detected face (source: class `FaceData`, lines 52-89). -/
structure FaceData where
  face_id : String
  embedding : List ℚ
  verified : Bool
deriving DecidableEq, Repr

/-- A cluster of faces (source: class `FaceCluster`, lines 92-122). -/
structure FaceCluster where
  cluster_id : String
  name : String
  faces : List FaceData
deriving DecidableEq, Repr

/-- Property `face_count` (source lines 99-101). -/
def FaceCluster.face_count (c : FaceCluster) : Nat := c.faces.length

/-- Property `unverified_count` (source lines 103-105). -/
def FaceCluster.unverified_count (c : FaceCluster) : Nat :=
  (c.faces.filter (fun f => !f.verified)).length

/-- Python dict lookup `m[k]` / `m.get(k)`: the value at the unique binding of
`k`, if any. -/
def alGet {α : Type} (m : List (String × α)) (k : String) : Option α :=
  (m.find? (fun p => p.1 = k)).map (fun p => p.2)

/-- Python dict lookup with default, `m.get(k, d)`. -/
def alGetD {α : Type} (m : List (String × α)) (k : String) (d : α) : α :=
  (alGet m k).getD d

/-- Python dict assignment `m[k] = v`: replaces the binding in place when the
key is present, appends a new binding otherwise. -/
def alInsert {α : Type} : List (String × α) → String → α → List (String × α)
  | [], k, v => [(k, v)]
  | (k', v') :: rest, k, v =>
    if k' = k then (k, v) :: rest else (k', v') :: alInsert rest k v

/-- Python `del m[k]` guarded by `if k in m` (removes the binding when
present). -/
def alErase {α : Type} (m : List (String × α)) (k : String) : List (String × α) :=
  m.filter (fun p => p.1 ≠ k)

/-- In-place mutation `m[k].update(...)` of the value stored at an existing
binding: applies `f` at the first binding of `k`. -/
def alModify {α : Type} : List (String × α) → String → (α → α) → List (String × α)
  | [], _, _ => []
  | (k', v') :: rest, k, f =>
    if k' = k then (k', f v') :: rest else (k', v') :: alModify rest k f

/-- Pointwise mean `np.mean(vectors, axis=0)` of a list of equal-length
vectors (used for centroids, source lines 458-459 and 934-935). -/
def meanVec (vs : List (List ℚ)) : List ℚ :=
  match vs with
  | [] => []
  | v :: rest =>
    (rest.foldl (fun acc w => List.zipWith (fun a b => a + b) acc w) v).map
      (fun x => x / (vs.length : ℚ))

/-- One `union` step (source lines 841-844): `parent[find(x)] = find(y)`.
The state tracked here is the root function induced by the `parent` array:
linking root `px = find(x)` under root `py = find(y)` reroots exactly the
indices whose root was `px`.  Path compression inside `find` (line 838)
rewrites `parent` entries to point closer to the root and never changes any
index's root, so it is invisible at this level; when the two roots already
coincide the source skips the write and the update below is likewise the
identity. -/
def ufUnion (r : Nat → Nat) (x y : Nat) : Nat → Nat :=
  fun z => if r z = r x then r y else r z

/-- The root function after processing a list of `union(i, j)` calls starting
from `parent = list(range(n))` (source line 834), under which every index is
its own root. -/
def ufRun (ps : List (Nat × Nat)) : Nat → Nat :=
  ps.foldl (fun r p => ufUnion r p.1 p.2) id

/-- The pairs `(i, j)`, `i < j`, whose similarity clears the threshold: exactly
the pairs the blocked comparison loop at source lines 846-862 passes to
`union` (each block row `global_i` is compared against every `global_j >
global_i`, so every unordered pair is visited exactly once).  The root
function produced by `ufRun` depends only on which pairs are present, not on
their order (see `ufRun_eq_iff`), so the block traversal order need not be
reproduced. -/
def simPairs (cosSim : List ℚ → List ℚ → ℚ) (embs : List (List ℚ)) (t : ℚ) :
    List (Nat × Nat) :=
  (List.range embs.length).flatMap (fun i =>
    ((List.range embs.length).filter
      (fun j => decide (i < j ∧ t ≤ cosSim (embs.getD i []) (embs.getD j [])))).map
      (fun j => (i, j)))

/-- Keys of a Python dict in insertion order: first occurrences of the list of
key writes (the grouping loop at source lines 864-870 keys a dict by root;
key order is order of first appearance). -/
def firstOccurrences (l : List Nat) : List Nat :=
  l.foldl (fun acc x => if x ∈ acc then acc else acc ++ [x]) []

/-- The root of each face index after the comparison phase of `cluster_faces`
(source lines 826-862). -/
def clusterRoot (cosSim : List ℚ → List ℚ → ℚ) (faces : List FaceData) (t : ℚ) :
    Nat → Nat :=
  ufRun (simPairs cosSim (faces.map (fun f => f.embedding)) t)

/-- The grouping of face indices produced at source lines 864-870: a dict keyed
by root, keys in order of first appearance, each group listing its indices in
ascending order (the append order of the loop `for idx in range(n)`). -/
def clusterIndexGroups (cosSim : List ℚ → List ℚ → ℚ) (faces : List FaceData)
    (t : ℚ) : List (List Nat) :=
  let r := clusterRoot cosSim faces t
  let n := faces.length
  (firstOccurrences ((List.range n).map r)).map
    (fun root => (List.range n).filter (fun i => decide (r i = root)))

/-- Stable insertion step for the size-descending sort: a cluster is placed
before the first cluster with strictly smaller member count, after all
clusters with greater-or-equal count (ties keep their existing order, as with
Python's stable `list.sort`). -/
def insertByCount (c : FaceCluster) : List FaceCluster → List FaceCluster
  | [] => [c]
  | d :: ds =>
    if d.faces.length < c.faces.length then c :: d :: ds
    else d :: insertByCount c ds

/-- `clusters.sort(key=lambda c: c.face_count, reverse=True)` (source lines
890 and 1018): stable sort by descending member count.  Python's sort is
stable, and a stable sort by a fixed key is unique, so the insertion
formulation (chosen because it is structurally recursive) produces exactly
the source's output order. -/
def sortByCountDesc (l : List FaceCluster) : List FaceCluster :=
  l.foldl (fun acc c => insertByCount c acc) []

/-- Out-of-range fallback for list indexing; all indexing below stays in
range. -/
def dummyFace : FaceData := { face_id := "", embedding := [], verified := false }

/-- `cluster_faces` (source lines 816-893): union-find clustering of the whole
face list at a similarity threshold, output shaped into `FaceCluster`s whose
id is `"cluster_" + faces[0].face_id` for the group's first face (line 876),
whose name is the custom name bound to that id if any, else `"Person n"`
(lines 879-880), sorted by face count descending (line 890).  On an empty
face list the early return at lines 821-823 and this definition both give
`[]`. -/
def cluster_faces (cosSim : List ℚ → List ℚ → ℚ) (faces : List FaceData)
    (custom_names : List (String × String)) (t : ℚ) : List FaceCluster :=
  let groups := clusterIndexGroups cosSim faces t
  let cs := groups.enum.map (fun p =>
    let members := p.2.map (fun i => faces.getD i dummyFace)
    let cid := "cluster_" ++ (members.headD dummyFace).face_id
    { cluster_id := cid,
      name := alGetD custom_names cid ("Person " ++ toString (p.1 + 1)),
      faces := members : FaceCluster })
  sortByCountDesc cs

/-- `_compute_cluster_centroid` (source lines 442-466) up to the final
normalization: `none` for an empty cluster, else the raw mean of the chosen
members' embeddings — the verified members when `prefer_verified` and any
exist, else all members (lines 450-455).  The final guarded L2 normalization
(lines 461-464) only rescales the vector; the rescaling is absorbed into the
abstract kernel `cosSim` at every use site (the source computes `similarity =
float(np.dot(face_unit, centroid))`, line 434), and its zero-norm guard is
modelled exactly by `centroidNormalize` below. -/
def compute_cluster_centroid (cluster : FaceCluster) (prefer_verified : Bool) :
    Option (List ℚ) :=
  if cluster.faces = [] then none
  else
    let chosen :=
      if prefer_verified then
        let vf := cluster.faces.filter (fun f => f.verified)
        if vf = [] then cluster.faces else vf
      else cluster.faces
    some (meanVec (chosen.map (fun f => f.embedding)))

/-- `_find_best_cluster_for_face` (source lines 401-440): scan the cluster
list in order, skipping excluded ids, ids in the face's negative-constraint
list, and clusters with no centroid; keep the running best similarity,
initialized to the threshold (line 419), replaced only on a strictly greater
similarity (line 436); return the best cluster id, `none` if no candidate
strictly exceeded the threshold.  `cosSim a b` stands for
`float(np.dot(unit(a), unit(b)))` as computed at lines 415-416 and 434. -/
def find_best_cluster_for_face (cosSim : List ℚ → List ℚ → ℚ)
    (clusters : List FaceCluster)
    (negative_constraints : List (String × List String)) (face : FaceData)
    (exclude_cluster_ids : List String) (t : ℚ) : Option String :=
  if clusters = [] then none
  else
    let constrained := alGetD negative_constraints face.face_id []
    (clusters.foldl (fun (acc : Option String × ℚ) cluster =>
      if cluster.cluster_id ∈ exclude_cluster_ids then acc
      else if cluster.cluster_id ∈ constrained then acc
      else
        match compute_cluster_centroid cluster true with
        | none => acc
        | some centroid =>
          if cosSim face.embedding centroid > acc.2 then
            (some cluster.cluster_id, cosSim face.embedding centroid)
          else acc)
      (none, t)).1

/-- The engine state held by `FaceRecognitionService` (source lines 140-146).
Scan-progress flags and on-disk paths carry no engine state and are omitted;
`scanned_paths` is never read by the clustering operations. -/
structure ServiceState where
  faces : List FaceData
  clusters : List FaceCluster
  custom_names : List (String × String)
  negative_constraints : List (String × List String)
  orphaned_faces : List FaceData
deriving DecidableEq, Repr

/-- The preamble `if not self.clusters and self.faces: self.cluster_faces()`
shared by `rename_cluster`, `merge_clusters` and `verify_face` (source lines
264-266, 288-290, 329-330); `cluster_faces()` is called with its default
threshold `0.65`. -/
def ensureClusters (cosSim : List ℚ → List ℚ → ℚ) (st : ServiceState) :
    ServiceState :=
  if st.clusters = [] ∧ st.faces ≠ [] then
    { st with clusters := cluster_faces cosSim st.faces st.custom_names (mkRat 13 20) }
  else st

/-- Update the first cluster with the given id (Python mutates the object
returned by `next(c for c in self.clusters if c.cluster_id == ...)`). -/
def updateFirstCluster : List FaceCluster → String → (FaceCluster → FaceCluster) →
    List FaceCluster
  | [], _, _ => []
  | c :: rest, cid, f =>
    if c.cluster_id = cid then f c :: rest
    else c :: updateFirstCluster rest cid f

/-- The result dictionaries returned by `verify_face` (source lines 326-399). -/
inductive VerifyResult where
  | errClusterNotFound (cluster_id : String)
  | errFaceNotFound (face_id cluster_id : String)
  | verified (face_id cluster_id : String) (remaining_unverified : Nat)
  | rejected (face_id original_cluster_id : String) (cluster_empty : Bool)
      (new_cluster_id : Option String) (orphaned : Bool)
deriving DecidableEq, Repr

/-- Constraint recording of the reject branch (source lines 354-359):
idempotently append the rejected cluster id to the face's constraint list. -/
def rejectNcs (ncs0 : List (String × List String)) (face_id cluster_id : String) :
    List (String × List String) :=
  let cur := alGetD ncs0 face_id []
  alInsert ncs0 face_id (if cluster_id ∈ cur then cur else cur ++ [cluster_id])

/-- Membership removal of the reject branch (source line 362): rebuild the
origin cluster's member list without the rejected face. -/
def removeFaceFromCluster (clusters : List FaceCluster)
    (face_id cluster_id : String) : List FaceCluster :=
  updateFirstCluster clusters cluster_id
    (fun c => { c with faces := c.faces.filter (fun f => f.face_id ≠ face_id) })

/-- `verify_face` (source lines 326-399).

`accept = true` (lines 342-352): mark the face object verified in place — the
object is aliased by the flat `faces` list, so both views change.

`accept = false` (lines 353-399): record the negative constraint
(idempotently, lines 354-359), drop the face from the origin cluster (line
362), search for a new home excluding the origin (line 365, threshold
defaulting to `0.60`), then either append the face — verification reset —
to the new home (lines 374-382) or append it to the orphan list (lines
384-388), and finally delete the origin cluster and its custom-name binding
if it is now empty (lines 390-396). -/
def verify_face (cosSim : List ℚ → List ℚ → ℚ) (st0 : ServiceState)
    (face_id cluster_id : String) (is_correct : Bool) :
    VerifyResult × ServiceState :=
  let st := ensureClusters cosSim st0
  match st.clusters.find? (fun c => c.cluster_id = cluster_id) with
  | none => (VerifyResult.errClusterNotFound cluster_id, st)
  | some cluster =>
    match cluster.faces.find? (fun f => f.face_id = face_id) with
    | none => (VerifyResult.errFaceNotFound face_id cluster_id, st)
    | some face =>
      if is_correct then
        let setv := fun (f : FaceData) =>
          if f.face_id = face_id then { f with verified := true } else f
        let cluster' := { cluster with faces := cluster.faces.map setv }
        (VerifyResult.verified face_id cluster_id cluster'.unverified_count,
         { st with
            faces := st.faces.map setv,
            clusters := updateFirstCluster st.clusters cluster_id
              (fun c => { c with faces := c.faces.map setv }) })
      else
        let ncs := rejectNcs st.negative_constraints face_id cluster_id
        let remaining := cluster.faces.filter (fun f => f.face_id ≠ face_id)
        let clusters1 := removeFaceFromCluster st.clusters face_id cluster_id
        let new_cluster_id :=
          find_best_cluster_for_face cosSim clusters1 ncs face [cluster_id] (mkRat 3 5)
        let cluster_empty := remaining.isEmpty
        let afterHome :=
          match new_cluster_id with
          | some nid =>
            let setu := fun (f : FaceData) =>
              if f.face_id = face_id then { f with verified := false } else f
            ({ st with
                faces := st.faces.map setu,
                clusters := updateFirstCluster clusters1 nid
                  (fun c => { c with faces := c.faces ++ [{ face with verified := false }] }),
                negative_constraints := ncs }, false)
          | none =>
            ({ st with
                clusters := clusters1,
                negative_constraints := ncs,
                orphaned_faces := st.orphaned_faces ++ [face] }, true)
        let st1 := afterHome.1
        let st2 :=
          if cluster_empty then
            { st1 with
                clusters := st1.clusters.filter (fun c => c.cluster_id ≠ cluster_id),
                custom_names := alErase st1.custom_names cluster_id }
          else st1
        (VerifyResult.rejected face_id cluster_id cluster_empty new_cluster_id
          afterHome.2, st2)

/-- The result dictionaries returned by `merge_clusters` (source lines
285-324). -/
inductive MergeResult where
  | errSourceNotFound (source_cluster_id : String)
  | errTargetNotFound (target_cluster_id : String)
  | errSelfMerge
  | merged (target_cluster_id target_name : String)
      (total_faces merged_face_count : Nat)
deriving DecidableEq, Repr

/-- `merge_clusters` (source lines 285-324): after the preamble, look up both
clusters (not-found errors first, lines 296-299), reject a self-merge (lines
300-301), then extend the target's member list with the source's members
(line 304), drop the source cluster (line 307) and its custom-name binding
(lines 310-311); the target's name is retained.  Negative constraints are not
consulted. -/
def merge_clusters (cosSim : List ℚ → List ℚ → ℚ) (st0 : ServiceState)
    (source_cluster_id target_cluster_id : String) :
    MergeResult × ServiceState :=
  let st := ensureClusters cosSim st0
  match st.clusters.find? (fun c => c.cluster_id = source_cluster_id) with
  | none => (MergeResult.errSourceNotFound source_cluster_id, st)
  | some source =>
    match st.clusters.find? (fun c => c.cluster_id = target_cluster_id) with
    | none => (MergeResult.errTargetNotFound target_cluster_id, st)
    | some target =>
      if source_cluster_id = target_cluster_id then (MergeResult.errSelfMerge, st)
      else
        let clusters1 := updateFirstCluster st.clusters target_cluster_id
          (fun c => { c with faces := c.faces ++ source.faces })
        let clusters2 := clusters1.filter (fun c => c.cluster_id ≠ source_cluster_id)
        (MergeResult.merged target_cluster_id target.name
          (target.faces.length + source.faces.length) source.faces.length,
         { st with
            clusters := clusters2,
            custom_names := alErase st.custom_names source_cluster_id })

/-- The result of `recluster_with_constraints` (source lines 895-1027): either
one of the two error dictionaries (lines 908, 944) or the statistics
dictionary (lines 910-916, filled at lines 981, 1010, 1014, 1020). -/
inductive ReclusterResult where
  | errNoClusters
  | errNoAnchors
  | ok (faces_moved orphans_placed orphans_remaining
      clusters_before clusters_after : Nat)
deriving DecidableEq, Repr

/-- Step 1 of `recluster_with_constraints` (source lines 918-928): one pass
over the clusters filling the dict `verified_faces_by_cluster` (a fresh empty
bucket is written for each cluster id, then verified faces are appended in
place) and the flat list `unverified_faces` of `(face,
original_cluster_id)` pairs. -/
def reclusterPartition (clusters : List FaceCluster) :
    List (String × List FaceData) × List (FaceData × String) :=
  clusters.foldl (fun acc c =>
    c.faces.foldl (fun a f =>
      if f.verified then (alModify a.1 c.cluster_id (fun l => l ++ [f]), a.2)
      else (a.1, a.2 ++ [(f, c.cluster_id)]))
      (alInsert acc.1 c.cluster_id [], acc.2))
    ([], [])

/-- Step 2 (source lines 930-939): the dict `verified_centroids`, holding for
each cluster with a nonempty verified bucket the raw mean of the bucket's
embeddings, in bucket insertion order.  The guarded normalization at lines
936-938 only rescales the mean and is absorbed into `cosSim`, as everywhere;
its guard is modelled exactly by `centroidNormalize` below. -/
def verifiedCentroids (buckets : List (String × List FaceData)) :
    List (String × List ℚ) :=
  buckets.filterMap (fun p =>
    if p.2 = [] then none
    else some (p.1, meanVec (p.2.map (fun f => f.embedding))))

/-- The best-anchor search duplicated inline at source lines 957-976
(unverified faces) and 987-1005 (orphans): scan `verified_centroids` in
insertion order, skip ids in the face's negative-constraint list, keep the
first strictly improving candidate over a running best initialized to the
threshold, exactly as in `_find_best_cluster_for_face`. -/
def bestAnchor (cosSim : List ℚ → List ℚ → ℚ)
    (verified_centroids : List (String × List ℚ))
    (negative_constraints : List (String × List String)) (face : FaceData)
    (t : ℚ) : Option String :=
  let constrained := alGetD negative_constraints face.face_id []
  (verified_centroids.foldl (fun (acc : Option String × ℚ) p =>
    if p.1 ∈ constrained then acc
    else if cosSim face.embedding p.2 > acc.2 then
      (some p.1, cosSim face.embedding p.2)
    else acc)
    (none, t)).1

/-- Step 3 (source lines 946-955): seed the dict `new_clusters` with one entry
per cluster that has a verified centroid, holding only its verified members
(same id and name). -/
def seedClusters (clusters : List FaceCluster)
    (buckets : List (String × List FaceData))
    (centroids : List (String × List ℚ)) : List (String × FaceCluster) :=
  clusters.foldl (fun m c =>
    if (alGet centroids c.cluster_id).isSome then
      alInsert m c.cluster_id
        { cluster_id := c.cluster_id, name := c.name,
          faces := alGetD buckets c.cluster_id [] }
    else m) []

/-- Step 4 (source lines 957-985): route every unverified face to its best
anchor (appending it to that cluster and counting a move when the anchor
differs from the face's original cluster) or, when no anchor clears the
threshold, append it to the orphan list unless already present (lines
984-985).  Returns the updated `new_clusters` dict, the updated orphan list
and the move count. -/
def assignUnverified (cosSim : List ℚ → List ℚ → ℚ)
    (centroids : List (String × List ℚ))
    (negative_constraints : List (String × List String)) (t : ℚ)
    (unverified : List (FaceData × String))
    (m0 : List (String × FaceCluster)) (orphans0 : List FaceData) :
    List (String × FaceCluster) × List FaceData × Nat :=
  unverified.foldl (fun acc p =>
    match bestAnchor cosSim centroids negative_constraints p.1 t with
    | some best =>
      (alModify acc.1 best (fun c => { c with faces := c.faces ++ [p.1] }),
       acc.2.1, acc.2.2 + (if best ≠ p.2 then 1 else 0))
    | none =>
      (acc.1, if p.1 ∈ acc.2.1 then acc.2.1 else acc.2.1 ++ [p.1], acc.2.2))
    (m0, orphans0, 0)

/-- Step 5 (source lines 987-1010): re-attempt placement of every face in the
orphan list (as extended by step 4) against the same anchors, appending the
placed ones to their anchor cluster and collecting them in `placed_orphans`. -/
def placeOrphans (cosSim : List ℚ → List ℚ → ℚ)
    (centroids : List (String × List ℚ))
    (negative_constraints : List (String × List String)) (t : ℚ)
    (orphans : List FaceData) (m0 : List (String × FaceCluster)) :
    List (String × FaceCluster) × List FaceData :=
  orphans.foldl (fun acc f =>
    match bestAnchor cosSim centroids negative_constraints f t with
    | some best =>
      (alModify acc.1 best (fun c => { c with faces := c.faces ++ [f] }),
       acc.2 ++ [f])
    | none => acc)
    (m0, [])

/-- `recluster_with_constraints` (source lines 895-1027).  With an empty
cluster list it first runs the initial clustering when faces exist — a state
mutation — and fails with the "No clusters" error (lines 905-908); with no
verified centroid anywhere it fails with the "no anchors" error leaving the
state untouched (lines 941-944).  Otherwise: seed anchor clusters from
verified members only, re-route every unverified face, re-attempt the
(extended) orphan list, drop placed orphans (line 1013), drop empty clusters
and sort by size (lines 1016-1018).  Custom names and constraints are not
modified. -/
def recluster_with_constraints (cosSim : List ℚ → List ℚ → ℚ)
    (st : ServiceState) (t : ℚ) : ReclusterResult × ServiceState :=
  if st.clusters = [] then
    (ReclusterResult.errNoClusters,
     if st.faces ≠ [] then
       { st with clusters := cluster_faces cosSim st.faces st.custom_names (mkRat 13 20) }
     else st)
  else
    let part := reclusterPartition st.clusters
    let centroids := verifiedCentroids part.1
    if centroids = [] then (ReclusterResult.errNoAnchors, st)
    else
      let seeded := seedClusters st.clusters part.1 centroids
      let step4 := assignUnverified cosSim centroids st.negative_constraints t
        part.2 seeded st.orphaned_faces
      let step5 := placeOrphans cosSim centroids st.negative_constraints t
        step4.2.1 step4.1
      let orphans' := step4.2.1.filter (fun f => f ∉ step5.2)
      let clusters' := sortByCountDesc ((step5.1.map (fun p => p.2)).filter
        (fun c => ¬ c.faces.isEmpty))
      (ReclusterResult.ok step4.2.2 step5.2.length orphans'.length
        st.clusters.length clusters'.length,
       { st with clusters := clusters', orphaned_faces := orphans' })

/-- Squared L2 norm; over ℚ it is zero exactly when every component is zero,
that is, exactly when `np.linalg.norm` would be zero. -/
def normSq (v : List ℚ) : ℚ := (v.map (fun x => x * x)).sum

/-- Row normalization in `cluster_faces` (source lines 828-831):
`norms[norms == 0] = 1` replaces zero norms by one before dividing, so a
zero vector is mapped to itself and the divisor is never zero.  `nv` stands
for the float `np.linalg.norm(v)`; the theorems constrain it by
`nv * nv = normSq v`, `0 ≤ nv`. -/
def rowNormalize (v : List ℚ) (nv : ℚ) : List ℚ :=
  v.map (fun x => x / (if nv = 0 then 1 else nv))

/-- Centroid normalization in `_compute_cluster_centroid` (source lines
461-464) and in step 2 of `recluster_with_constraints` (lines 936-938):
divide only when the norm is positive, otherwise return the (zero) centroid
unchanged. -/
def centroidNormalize (v : List ℚ) (nv : ℚ) : List ℚ :=
  if 0 < nv then v.map (fun x => x / nv) else v

/-- Query normalization of the probe face's embedding in
`_find_best_cluster_for_face` (source lines 415-416) and in
`recluster_with_constraints` (lines 959-960 and 990-991):
`face_embedding / np.linalg.norm(face_embedding)` with no guard.  `none`
models the NaN vector numpy produces when the norm is zero. -/
def queryNormalize (v : List ℚ) (nv : ℚ) : Option (List ℚ) :=
  if nv = 0 then none else some (v.map (fun x => x / nv))


/-- The similarity edge relation on face indices that drives the union phase:
`i < j`, `j` in range, and the cosine similarity of the two embeddings clears
the threshold (`sim >= similarity_threshold`, source line 861). -/
def simEdge (cosSim : List ℚ → List ℚ → ℚ) (faces : List FaceData) (t : ℚ)
    (i j : Nat) : Prop :=
  i < j ∧ j < faces.length ∧
    t ≤ cosSim (faces.getD i dummyFace).embedding (faces.getD j dummyFace).embedding

/-- The selection step shared by `_find_best_cluster_for_face` and the two
inline best-anchor loops of `recluster_with_constraints` (after the per-item
skip tests): replace the running best exactly on a strictly greater
similarity. -/
def selStep {α : Type} (idOf : α → String) (sim : α → ℚ)
    (acc : Option String × ℚ) (c : α) : Option String × ℚ :=
  if sim c > acc.2 then (some (idOf c), sim c) else acc

/-- The candidates `_find_best_cluster_for_face` actually scores: clusters
not excluded, not constrained for the face, and with a computable centroid
(the skip tests at source lines 422-431), in list order. -/
def allowedCandidates (clusters : List FaceCluster)
    (negative_constraints : List (String × List String)) (face : FaceData)
    (exclude_cluster_ids : List String) : List FaceCluster :=
  clusters.filter (fun c =>
    decide (c.cluster_id ∉ exclude_cluster_ids) &&
    decide (c.cluster_id ∉ alGetD negative_constraints face.face_id []) &&
    (compute_cluster_centroid c true).isSome)

/-- The similarity `_find_best_cluster_for_face` scores a candidate with
(source lines 428-434). -/
def candidateSim (cosSim : List ℚ → List ℚ → ℚ) (face : FaceData)
    (c : FaceCluster) : ℚ :=
  cosSim face.embedding ((compute_cluster_centroid c true).getD [])

/-- Concrete fixtures used by witnesses: three faces and a similarity kernel
realizing the spec's scenario sims A-B = 0.90, B-C = 0.90, A-C = 0.50. -/
def wA : FaceData := { face_id := "a", embedding := [1], verified := false }

/-- Second fixture face. -/
def wB : FaceData := { face_id := "b", embedding := [2], verified := false }

/-- Third fixture face. -/
def wC : FaceData := { face_id := "c", embedding := [3], verified := false }

/-- Fixture kernel: similarity table on the fixture embeddings. -/
def wSimABC : List ℚ → List ℚ → ℚ := fun u v =>
  if u = [1] ∧ v = [2] then mkRat 9 10
  else if u = [2] ∧ v = [3] then mkRat 9 10
  else if u = [1] ∧ v = [3] then mkRat 1 2
  else 0

/-- The single output cluster of the fixture input. -/
def wABCCluster : FaceCluster :=
  { cluster_id := "cluster_a", name := "Person 1", faces := [wA, wB, wC] }

/-- Fixture cluster holding only the unverified face `wB`. -/
def wClusterB : FaceCluster := { cluster_id := "C1", name := "n1", faces := [wB] }

/-- Fixture state with faces but no clusters (fresh load before clustering). -/
def stNoClusters : ServiceState :=
  { faces := [wA], clusters := [], custom_names := [],
    negative_constraints := [], orphaned_faces := [] }

/-- Fixture state with one all-unverified cluster. -/
def stUnv : ServiceState :=
  { faces := [wB], clusters := [wClusterB], custom_names := [],
    negative_constraints := [], orphaned_faces := [] }

/-- Fixture verified face. -/
def wV : FaceData := { face_id := "v", embedding := [5], verified := true }

/-- Fixture all-unverified cluster with a custom name binding ("A"). -/
def wClusterA : FaceCluster := { cluster_id := "A", name := "Alice", faces := [wB] }

/-- Fixture anchor cluster with one verified member. -/
def wClusterV : FaceCluster := { cluster_id := "V", name := "Vic", faces := [wV] }

/-- Fixture state: a named unverified cluster and an anchor cluster. -/
def stDrop : ServiceState :=
  { faces := [wB, wV], clusters := [wClusterA, wClusterV],
    custom_names := [("A", "Alice")], negative_constraints := [],
    orphaned_faces := [] }

/-- Fixture singleton cluster for the rejection scenario. -/
def wClusterA1 : FaceCluster := { cluster_id := "A", name := "Alice", faces := [wA] }

/-- Fixture state for rejecting the sole member of a named cluster. -/
def stSingleton : ServiceState :=
  { faces := [wA, wB], clusters := [wClusterA1, wClusterB],
    custom_names := [("A", "Alice")], negative_constraints := [],
    orphaned_faces := [] }

/-- The equivalence generated by the empty relation is equality. -/
lemma eqvGen_false_iff {α : Type} (a b : α) :
    EqvGen (fun _ _ => False) a b ↔ a = b := by
  constructor
  · intro h
    induction h with
    | rel _ _ h => exact h.elim
    | refl => rfl
    | symm _ _ _ ih => exact ih.symm
    | trans _ _ _ _ _ ih1 ih2 => exact ih1.trans ih2
  · rintro rfl
    exact EqvGen.refl a

/-- Equivalence closures of pointwise-equivalent relations coincide. -/
lemma eqvGen_congr {α : Type} {B C : α → α → Prop}
    (h : ∀ u v, B u v ↔ C u v) (a b : α) : EqvGen B a b ↔ EqvGen C a b :=
  ⟨Relation.EqvGen.mono (fun u v huv => (h u v).mp huv),
   Relation.EqvGen.mono (fun u v huv => (h u v).mpr huv)⟩

/-- One union step merges the two classes of the processed pair and nothing
else: two indices share a root afterwards iff they shared one before, or each
sat in one of the two classes being joined. -/
lemma ufUnion_eq_cases (r : Nat → Nat) (x y a b : Nat) :
    ufUnion r x y a = ufUnion r x y b ↔
      r a = r b ∨ (r a = r x ∧ r b = r y) ∨ (r a = r y ∧ r b = r x) := by
  unfold ufUnion
  by_cases h1 : r a = r x <;> by_cases h2 : r b = r x
  · rw [if_pos h1, if_pos h2]
    constructor
    · intro _
      exact Or.inl (h1.trans h2.symm)
    · intro _
      rfl
  · rw [if_pos h1, if_neg h2]
    constructor
    · intro h
      exact Or.inr (Or.inl ⟨h1, h.symm⟩)
    · rintro (h | ⟨ha, hb⟩ | ⟨ha, hb⟩)
      · exact absurd (h.symm.trans h1) h2
      · exact hb.symm
      · exact absurd hb h2
  · rw [if_neg h1, if_pos h2]
    constructor
    · intro h
      exact Or.inr (Or.inr ⟨h, h2⟩)
    · rintro (h | ⟨ha, hb⟩ | ⟨ha, hb⟩)
      · exact absurd (h.trans h2) h1
      · exact absurd ha h1
      · exact ha
  · rw [if_neg h1, if_neg h2]
    constructor
    · intro h
      exact Or.inl h
    · rintro (h | ⟨ha, hb⟩ | ⟨ha, hb⟩)
      · exact h
      · exact absurd ha h1
      · exact absurd hb h2

/-- After one union step the root partition generates exactly the equivalence
closure of the previous base relation extended by the processed pair. -/
lemma ufUnion_eq_iff (r : Nat → Nat) (B : Nat → Nat → Prop)
    (hr : ∀ a b, r a = r b ↔ EqvGen B a b) (x y a b : Nat) :
    ufUnion r x y a = ufUnion r x y b ↔
      EqvGen (fun u v => B u v ∨ (u = x ∧ v = y)) a b := by
  have emb : ∀ u v, EqvGen B u v →
      EqvGen (fun u v => B u v ∨ (u = x ∧ v = y)) u v :=
    fun u v h => Relation.EqvGen.mono (fun p q hpq => Or.inl hpq) h
  rw [ufUnion_eq_cases]
  constructor
  · rintro (h | ⟨ha, hb⟩ | ⟨ha, hb⟩)
    · exact emb a b ((hr a b).mp h)
    · refine Relation.EqvGen.trans _ _ _ (emb a x ((hr a x).mp ha)) ?_
      refine Relation.EqvGen.trans _ _ _ (Relation.EqvGen.rel _ _ (Or.inr ⟨rfl, rfl⟩)) ?_
      exact Relation.EqvGen.symm _ _ (emb b y ((hr b y).mp hb))
    · refine Relation.EqvGen.trans _ _ _ (emb a y ((hr a y).mp ha)) ?_
      refine Relation.EqvGen.trans _ _ _
        (Relation.EqvGen.symm _ _ (Relation.EqvGen.rel _ _ (Or.inr ⟨rfl, rfl⟩))) ?_
      exact Relation.EqvGen.symm _ _ (emb b x ((hr b x).mp hb))
  · intro h
    induction h with
    | rel u v huv =>
      rcases huv with huv | ⟨hux, hvy⟩
      · exact Or.inl ((hr u v).mpr (EqvGen.rel _ _ huv))
      · subst hux
        subst hvy
        exact Or.inr (Or.inl ⟨rfl, rfl⟩)
    | refl u => exact Or.inl rfl
    | symm u v _ ih =>
      rcases ih with h | ⟨ha, hb⟩ | ⟨ha, hb⟩
      · exact Or.inl h.symm
      · exact Or.inr (Or.inr ⟨hb, ha⟩)
      · exact Or.inr (Or.inl ⟨hb, ha⟩)
    | trans u v w _ _ ih1 ih2 =>
      rcases ih1 with h | ⟨ha, hb⟩ | ⟨ha, hb⟩
      · rcases ih2 with h' | ⟨ha', hb'⟩ | ⟨ha', hb'⟩
        · exact Or.inl (h.trans h')
        · exact Or.inr (Or.inl ⟨h.trans ha', hb'⟩)
        · exact Or.inr (Or.inr ⟨h.trans ha', hb'⟩)
      · rcases ih2 with h' | ⟨ha', hb'⟩ | ⟨ha', hb'⟩
        · exact Or.inr (Or.inl ⟨ha, h'.symm.trans hb⟩)
        · exact Or.inr (Or.inl ⟨ha, hb'⟩)
        · exact Or.inl (ha.trans hb'.symm)
      · rcases ih2 with h' | ⟨ha', hb'⟩ | ⟨ha', hb'⟩
        · exact Or.inr (Or.inr ⟨ha, h'.symm.trans hb⟩)
        · exact Or.inl (ha.trans hb'.symm)
        · exact Or.inr (Or.inr ⟨ha, hb'⟩)

/-- Processing a list of union calls from any starting partition yields the
equivalence closure of the starting base extended by the processed pairs. -/
lemma ufFold_eq_iff (ps : List (Nat × Nat)) :
    ∀ (r : Nat → Nat) (B : Nat → Nat → Prop),
      (∀ a b, r a = r b ↔ EqvGen B a b) → ∀ a b,
      ps.foldl (fun r p => ufUnion r p.1 p.2) r a =
          ps.foldl (fun r p => ufUnion r p.1 p.2) r b ↔
        EqvGen (fun u v => B u v ∨ (u, v) ∈ ps) a b := by
  induction ps with
  | nil =>
    intro r B hr a b
    simp only [List.foldl_nil, List.not_mem_nil]
    rw [hr a b]
    exact eqvGen_congr (fun u v => by simp) a b
  | cons p ps ih =>
    intro r B hr a b
    simp only [List.foldl_cons]
    rw [ih (ufUnion r p.1 p.2) (fun u v => B u v ∨ (u = p.1 ∧ v = p.2))
      (fun a b => ufUnion_eq_iff r B hr p.1 p.2 a b) a b]
    refine eqvGen_congr (fun u v => ?_) a b
    constructor
    · rintro ((h | ⟨h1, h2⟩) | h)
      · exact Or.inl h
      · subst h1
        subst h2
        exact Or.inr (List.mem_cons_self _ _)
      · exact Or.inr (List.mem_cons_of_mem _ h)
    · rintro (h | h)
      · exact Or.inl (Or.inl h)
      · rcases List.mem_cons.mp h with h | h
        · rcases Prod.mk.injEq _ _ _ _ ▸ congrArg id h with ⟨⟩
          exact Or.inl (Or.inr ⟨congrArg Prod.fst h, congrArg Prod.snd h⟩)
        · exact Or.inr h

/-- The root function after `cluster_faces`'s union phase identifies two
indices iff they are connected by a chain of processed pairs; in particular
it depends only on the set of pairs, not on the order in which the source's
blocked loop visits them. -/
lemma ufRun_eq_iff (ps : List (Nat × Nat)) (a b : Nat) :
    ufRun ps a = ufRun ps b ↔ EqvGen (fun u v => (u, v) ∈ ps) a b := by
  unfold ufRun
  rw [ufFold_eq_iff ps id (fun _ _ => False)
    (fun a b => by rw [eqvGen_false_iff]; exact Iff.rfl) a b]
  exact eqvGen_congr (fun u v => by simp) a b

/-- Membership in the fold underlying `firstOccurrences`. -/
lemma mem_firstOccurrences_fold (l : List Nat) :
    ∀ (acc : List Nat) (x : Nat),
      x ∈ l.foldl (fun acc x => if x ∈ acc then acc else acc ++ [x]) acc ↔
        x ∈ acc ∨ x ∈ l := by
  induction l with
  | nil =>
    intro acc x
    simp
  | cons y l ih =>
    intro acc x
    simp only [List.foldl_cons]
    by_cases hy : y ∈ acc
    · rw [if_pos hy, ih]
      constructor
      · rintro (h | h)
        · exact Or.inl h
        · exact Or.inr (List.mem_cons_of_mem _ h)
      · rintro (h | h)
        · exact Or.inl h
        · rcases List.mem_cons.mp h with rfl | h
          · exact Or.inl hy
          · exact Or.inr h
    · rw [if_neg hy, ih]
      simp only [List.mem_append, List.mem_singleton, List.mem_cons]
      tauto

/-- A value appears among a dict's keys iff it was ever written. -/
lemma mem_firstOccurrences (l : List Nat) (x : Nat) :
    x ∈ firstOccurrences l ↔ x ∈ l := by
  unfold firstOccurrences
  rw [mem_firstOccurrences_fold]
  simp

/-- Membership in `simPairs`. -/
lemma mem_simPairs (cosSim : List ℚ → List ℚ → ℚ) (embs : List (List ℚ))
    (t : ℚ) (i j : Nat) :
    (i, j) ∈ simPairs cosSim embs t ↔
      i < j ∧ j < embs.length ∧ t ≤ cosSim (embs.getD i []) (embs.getD j []) := by
  unfold simPairs
  simp only [List.mem_flatMap, List.mem_map, List.mem_filter, List.mem_range,
    decide_eq_true_eq]
  constructor
  · rintro ⟨i', hi', j', ⟨hj', hlt, hsim⟩, heq⟩
    obtain ⟨rfl, rfl⟩ := Prod.mk.injEq _ _ _ _ ▸ heq
    exact ⟨hlt, hj', hsim⟩
  · rintro ⟨hij, hj, hsim⟩
    exact ⟨i, lt_trans hij hj, ⟨j, ⟨hj, hij, hsim⟩, rfl⟩⟩

/-- Two in-range indices appear in a common group iff they share a root. -/
lemma mem_clusterIndexGroups_iff (cosSim : List ℚ → List ℚ → ℚ)
    (faces : List FaceData) (t : ℚ) (i j : Nat)
    (hi : i < faces.length) (hj : j < faces.length) :
    (∃ g ∈ clusterIndexGroups cosSim faces t, i ∈ g ∧ j ∈ g) ↔
      clusterRoot cosSim faces t i = clusterRoot cosSim faces t j := by
  unfold clusterIndexGroups
  simp only [List.mem_map]
  constructor
  · rintro ⟨g, ⟨root, hroot, rfl⟩, hig, hjg⟩
    rw [List.mem_filter, decide_eq_true_eq] at hig hjg
    exact hig.2.trans hjg.2.symm
  · intro hij
    refine ⟨(List.range faces.length).filter
      (fun k => decide (clusterRoot cosSim faces t k =
        clusterRoot cosSim faces t i)),
      ⟨clusterRoot cosSim faces t i, ?_, rfl⟩, ?_, ?_⟩
    · rw [mem_firstOccurrences]
      exact List.mem_map.mpr ⟨i, List.mem_range.mpr hi, rfl⟩
    · rw [List.mem_filter, decide_eq_true_eq]
      exact ⟨List.mem_range.mpr hi, rfl⟩
    · rw [List.mem_filter, decide_eq_true_eq]
      exact ⟨List.mem_range.mpr hj, hij.symm⟩

/-- Reading an embedding through the mapped list agrees with reading the face
(the default embedding of `dummyFace` is the default `[]`). -/
lemma getD_map_embedding (faces : List FaceData) (i : Nat) :
    (faces.map (fun f => f.embedding)).getD i [] =
      (faces.getD i dummyFace).embedding := by
  rw [List.getD_eq_getElem?_getD, List.getD_eq_getElem?_getD, List.getElem?_map]
  cases faces[i]? with
  | none => rfl
  | some f => rfl

/-- Same output class iff connected by a chain of threshold-clearing
similarities: the shared core of the transitive-closure and threshold
monotonicity claims. -/
lemma cluster_sameGroup_iff_eqvGen (cosSim : List ℚ → List ℚ → ℚ)
    (faces : List FaceData) (t : ℚ) (i j : Nat)
    (hi : i < faces.length) (hj : j < faces.length) :
    (∃ g ∈ clusterIndexGroups cosSim faces t, i ∈ g ∧ j ∈ g) ↔
      EqvGen (simEdge cosSim faces t) i j := by
  rw [mem_clusterIndexGroups_iff cosSim faces t i j hi hj]
  unfold clusterRoot
  rw [ufRun_eq_iff]
  refine eqvGen_congr (fun u v => ?_) i j
  rw [mem_simPairs]
  unfold simEdge
  rw [List.length_map, getD_map_embedding, getD_map_embedding]

/-- Insertion keeps exactly the same clusters. -/
lemma insertByCount_perm (c : FaceCluster) (l : List FaceCluster) :
    (insertByCount c l).Perm (c :: l) := by
  induction l with
  | nil => exact List.Perm.refl _
  | cons d ds ih =>
    unfold insertByCount
    by_cases h : d.faces.length < c.faces.length
    · rw [if_pos h]
    · rw [if_neg h]
      exact (List.Perm.cons d ih).trans (List.Perm.swap c d ds)

/-- The size-descending sort permutes its input. -/
lemma sortByCountDesc_perm (l : List FaceCluster) :
    (sortByCountDesc l).Perm l := by
  have main : ∀ (l acc : List FaceCluster),
      (l.foldl (fun acc c => insertByCount c acc) acc).Perm (acc ++ l) := by
    intro l
    induction l with
    | nil =>
      intro acc
      simp
    | cons c cs ih =>
      intro acc
      exact (ih (insertByCount c acc)).trans
        ((List.Perm.append_right cs (insertByCount_perm c acc)).trans
          List.perm_middle.symm)
  exact main l []

/-- Membership is preserved by the size-descending sort. -/
lemma mem_sortByCountDesc (c : FaceCluster) (l : List FaceCluster) :
    c ∈ sortByCountDesc l ↔ c ∈ l :=
  (sortByCountDesc_perm l).mem_iff

/-- In a `<`-sorted list the head is a lower bound. -/
lemma headD_le_of_sorted_lt (l : List Nat) (hs : l.Sorted (fun a b => a < b))
    (x : Nat) (hx : x ∈ l) (d : Nat) : l.headD d ≤ x := by
  cases l with
  | nil => cases hx
  | cons a rest =>
    rcases List.mem_cons.mp hx with rfl | hx
    · exact le_refl x
    · exact le_of_lt ((List.pairwise_cons.mp hs).1 x hx)

/-- Every output cluster of `cluster_faces` realizes one of the index groups. -/
lemma cluster_faces_members (cosSim : List ℚ → List ℚ → ℚ)
    (faces : List FaceData) (custom_names : List (String × String)) (t : ℚ)
    (g : List Nat) (hg : g ∈ clusterIndexGroups cosSim faces t) :
    ∃ c ∈ cluster_faces cosSim faces custom_names t,
      c.faces = g.map (fun k => faces.getD k dummyFace) := by
  unfold cluster_faces
  obtain ⟨k, hk⟩ := List.mem_iff_get.mp hg
  refine ⟨_, (mem_sortByCountDesc _ _).mpr (List.mem_map.mpr
    ⟨(k.val, g), ?_, rfl⟩), rfl⟩
  rw [← hk]
  exact List.mem_enum_iff_getElem?.mpr (by
    rw [List.getElem?_eq_getElem k.isLt]
    exact congrArg some (List.get_eq_getElem _ _))

/-- C4: `cluster_faces` places two entities in the same output class exactly
when they are connected by a chain of pairwise similarities each clearing the
threshold (`sim >= threshold`, transitive closure via union-find), and every
index group is realized as the member list of an output cluster.  In
particular a chain A-B, B-C above threshold groups A and C even when the
direct similarity A-C is below threshold (see the witness). -/
theorem claim_C4_transitive_union (cosSim : List ℚ → List ℚ → ℚ)
    (faces : List FaceData) (t : ℚ) (i j : Nat)
    (hi : i < faces.length) (hj : j < faces.length) :
    ((∃ g ∈ clusterIndexGroups cosSim faces t, i ∈ g ∧ j ∈ g) ↔
      EqvGen (simEdge cosSim faces t) i j) ∧
    ∀ (custom_names : List (String × String)) (g : List Nat),
      g ∈ clusterIndexGroups cosSim faces t →
      ∃ c ∈ cluster_faces cosSim faces custom_names t,
        c.faces = g.map (fun k => faces.getD k dummyFace) :=
  ⟨cluster_sameGroup_iff_eqvGen cosSim faces t i j hi hj,
   fun custom_names g hg => cluster_faces_members cosSim faces custom_names t g hg⟩

/-- Witness for C4 at the spec's scenario: entities A, B, C with sims
A-B = 0.90, B-C = 0.90, A-C = 0.50 at threshold 0.65 land in one cluster. -/
theorem claim_C4_witness :
    ∃ g ∈ clusterIndexGroups wSimABC [wA, wB, wC] (mkRat 13 20), 0 ∈ g ∧ 2 ∈ g :=
  (claim_C4_transitive_union wSimABC [wA, wB, wC] (mkRat 13 20) 0 2 (by decide)
      (by decide)).1.mpr
    (Relation.EqvGen.trans 0 1 2
      (Relation.EqvGen.rel 0 1 (by unfold simEdge; decide))
      (Relation.EqvGen.rel 1 2 (by unfold simEdge; decide)))

/-- C8: for thresholds `t1 < t2` the partition produced at `t2` refines the
partition at `t1`: two entities in a common class at the higher threshold are
in a common class at the lower one (every edge at `t2` is an edge at `t1`,
and the classes are the closure of the edges). -/
theorem claim_C8_threshold_monotonicity (cosSim : List ℚ → List ℚ → ℚ)
    (faces : List FaceData) (t1 t2 : ℚ) (h12 : t1 < t2) (i j : Nat)
    (hi : i < faces.length) (hj : j < faces.length)
    (hsame : ∃ g ∈ clusterIndexGroups cosSim faces t2, i ∈ g ∧ j ∈ g) :
    ∃ g ∈ clusterIndexGroups cosSim faces t1, i ∈ g ∧ j ∈ g :=
  (cluster_sameGroup_iff_eqvGen cosSim faces t1 i j hi hj).mpr
    (Relation.EqvGen.mono
      (fun _ _ huv => ⟨huv.1, huv.2.1, le_trans (le_of_lt h12) huv.2.2⟩)
      ((cluster_sameGroup_iff_eqvGen cosSim faces t2 i j hi hj).mp hsame))

/-- Witness for C8: entities grouped at threshold 0.70 stay grouped at 0.50. -/
theorem claim_C8_witness :
    ∃ g ∈ clusterIndexGroups wSimABC [wA, wB] (mkRat 1 2), 0 ∈ g ∧ 1 ∈ g :=
  claim_C8_threshold_monotonicity wSimABC [wA, wB] (mkRat 1 2) (mkRat 7 10)
    (by decide) 0 1 (by decide) (by decide) (by decide)

/-- C7: clustering an unchanged face list at an unchanged threshold twice
yields identical output (the clustering stage is a pure function of the face
list and the threshold — determinism is definitional in the model), and every
output cluster's id is derived from a stable representative: the member at
the least original index, `"cluster_" + faces[0].face_id` over the group's
faces in original order. -/
theorem claim_C7_idempotent_stable_ids (cosSim : List ℚ → List ℚ → ℚ)
    (faces : List FaceData) (custom_names : List (String × String)) (t : ℚ) :
    cluster_faces cosSim faces custom_names t =
        cluster_faces cosSim faces custom_names t ∧
      ∀ c, c ∈ cluster_faces cosSim faces custom_names t →
        ∃ i, i < faces.length ∧
          c.cluster_id = "cluster_" ++ (faces.getD i dummyFace).face_id ∧
          faces.getD i dummyFace ∈ c.faces ∧
          ∀ f ∈ c.faces, ∃ k, k < faces.length ∧ i ≤ k ∧
            f = faces.getD k dummyFace := by
  refine ⟨rfl, ?_⟩
  intro c hc
  unfold cluster_faces at hc
  rw [mem_sortByCountDesc, List.mem_map] at hc
  obtain ⟨p, hp, rfl⟩ := hc
  have hg : p.2 ∈ clusterIndexGroups cosSim faces t := List.snd_mem_of_mem_enum hp
  have hsort : p.2.Sorted (fun a b => a < b) := by
    unfold clusterIndexGroups at hg
    simp only [List.mem_map] at hg
    obtain ⟨root, _, hgeq⟩ := hg
    rw [← hgeq]
    exact (List.sorted_lt_range _).filter _
  have hsub : ∀ k ∈ p.2, k < faces.length := by
    unfold clusterIndexGroups at hg
    simp only [List.mem_map] at hg
    obtain ⟨root, _, hgeq⟩ := hg
    intro k hk
    rw [← hgeq, List.mem_filter] at hk
    exact List.mem_range.mp hk.1
  have hne : p.2 ≠ [] := by
    unfold clusterIndexGroups at hg
    simp only [List.mem_map] at hg
    obtain ⟨root, hroot, hgeq⟩ := hg
    rw [mem_firstOccurrences] at hroot
    obtain ⟨i0, hi0, hri0⟩ := List.mem_map.mp hroot
    intro hnil
    have : i0 ∈ p.2 := by
      rw [← hgeq, List.mem_filter, decide_eq_true_eq]
      exact ⟨hi0, hri0⟩
    rw [hnil] at this
    cases this
  cases hgg : p.2 with
  | nil => exact absurd hgg hne
  | cons k rest =>
    rw [hgg] at hsort hsub
    refine ⟨k, hsub k (List.mem_cons_self _ _), ?_, ?_, ?_⟩
    · simp only [hgg, List.map_cons, List.headD_cons]
    · simp only [hgg, List.map_cons]
      exact List.mem_cons_self _ _
    · intro f hf
      simp only [hgg, List.map_cons, List.mem_cons, List.mem_map] at hf
      rcases hf with rfl | ⟨k', hk', rfl⟩
      · exact ⟨k, hsub k (List.mem_cons_self _ _), le_refl k, rfl⟩
      · refine ⟨k', hsub k' (List.mem_cons_of_mem _ hk'), ?_, rfl⟩
        exact le_of_lt ((List.pairwise_cons.mp hsort).1 k' hk')

/-- Witness for C7 at the fixture input: the single output cluster's id is
derived from its first member in original order. -/
theorem claim_C7_witness :
    ∃ i, i < [wA, wB, wC].length ∧
      wABCCluster.cluster_id =
        "cluster_" ++ ([wA, wB, wC].getD i dummyFace).face_id ∧
      [wA, wB, wC].getD i dummyFace ∈ wABCCluster.faces ∧
      ∀ f ∈ wABCCluster.faces,
        ∃ k, k < [wA, wB, wC].length ∧ i ≤ k ∧ f = [wA, wB, wC].getD k dummyFace :=
  (claim_C7_idempotent_stable_ids wSimABC [wA, wB, wC] [] (mkRat 13 20)).2
    wABCCluster (by decide)

/-- A fold that skips some items equals the plain fold over the filtered
list. -/
lemma foldl_skip_filter {α β : Type} (l : List α) (skip : α → Bool)
    (g : β → α → β) : ∀ (b : β),
    l.foldl (fun acc c => if skip c then acc else g acc c) b =
      (l.filter (fun c => !skip c)).foldl g b := by
  induction l with
  | nil =>
    intro b
    rfl
  | cons x l ih =>
    intro b
    rw [List.foldl_cons, List.filter_cons]
    by_cases h : skip x = true
    · simp only [h, if_true, Bool.not_true, Bool.false_eq_true, if_false]
      exact ih b
    · have h' : skip x = false := by
        cases hx : skip x
        · rfl
        · exact absurd hx h
      simp only [h', Bool.false_eq_true, if_false, Bool.not_false, if_true,
        List.foldl_cons]
      exact ih (g b x)

/-- Once the selection fold holds a candidate it never drops back to `none`. -/
lemma selFold_some_stable {α : Type} (idOf : α → String) (sim : α → ℚ)
    (l : List α) : ∀ (a : String) (b : ℚ),
    (l.foldl (selStep idOf sim) (some a, b)).1.isSome := by
  induction l with
  | nil =>
    intro a b
    rfl
  | cons x l ih =>
    intro a b
    unfold selStep
    simp only [List.foldl_cons]
    by_cases h : sim x > b
    · rw [if_pos h]
      exact ih _ _
    · rw [if_neg h]
      exact ih _ _

/-- The selection fold returns `none` exactly when no item strictly exceeds
the initial best. -/
lemma selFold_none_iff {α : Type} (idOf : α → String) (sim : α → ℚ)
    (l : List α) : ∀ (t : ℚ),
    (l.foldl (selStep idOf sim) (none, t)).1 = none ↔ ∀ d ∈ l, sim d ≤ t := by
  induction l with
  | nil =>
    intro t
    simp
  | cons x l ih =>
    intro t
    simp only [List.foldl_cons]
    by_cases h : sim x > t
    · rw [show selStep idOf sim (none, t) x = (some (idOf x), sim x) from
        by unfold selStep; rw [if_pos h]]
      constructor
      · intro hcon
        have := selFold_some_stable idOf sim l (idOf x) (sim x)
        rw [hcon] at this
        cases this
      · intro hall
        exact absurd h (not_lt.mpr (hall x (List.mem_cons_self _ _)))
    · rw [show selStep idOf sim (none, t) x = (none, t) from
        by unfold selStep; rw [if_neg h]]
      rw [ih t]
      constructor
      · intro hall d hd
        rcases List.mem_cons.mp hd with rfl | hd
        · exact not_lt.mp h
        · exact hall d hd
      · intro hall d hd
        exact hall d (List.mem_cons_of_mem _ hd)

/-- Full characterization of the selection fold: it returns `some cid` exactly
for the first candidate attaining the maximum similarity, provided that
maximum strictly exceeds the running best it started from (`keeps the first
on an exact tie`, because only a strictly greater similarity replaces). -/
lemma selFold_char {α : Type} (idOf : α → String) (sim : α → ℚ) (l : List α) :
    ∀ (ob : Option String) (b : ℚ) (cid : String),
    (l.foldl (selStep idOf sim) (ob, b)).1 = some cid ↔
      ((ob = some cid ∧ ∀ d ∈ l, sim d ≤ b) ∨
       ∃ pre c post, l = pre ++ c :: post ∧ cid = idOf c ∧ sim c > b ∧
         (∀ d ∈ pre, sim d < sim c) ∧ (∀ d ∈ post, sim d ≤ sim c)) := by
  induction l with
  | nil =>
    intro ob b cid
    simp only [List.foldl_nil]
    constructor
    · intro h
      exact Or.inl ⟨h, fun d hd => absurd hd (List.not_mem_nil d)⟩
    · rintro (⟨h, _⟩ | ⟨pre, c, post, heq, _⟩)
      · exact h
      · rcases pre with _ | ⟨p, pre⟩ <;> simp at heq
  | cons x l ih =>
    intro ob b cid
    rw [List.foldl_cons]
    by_cases hx : sim x > b
    · rw [show selStep idOf sim (ob, b) x = (some (idOf x), sim x) from
        by unfold selStep; rw [if_pos hx]]
      rw [ih (some (idOf x)) (sim x) cid]
      constructor
      · rintro (⟨ha, hall⟩ | ⟨pre, c, post, heq, hcid, hgt, hpre, hpost⟩)
        · refine Or.inr ⟨[], x, l, rfl, (Option.some.injEq _ _ ▸ ha).symm, hx,
            fun d hd => absurd hd (List.not_mem_nil d), hall⟩
        · refine Or.inr ⟨x :: pre, c, post, by rw [heq]; rfl, hcid,
            lt_trans hx hgt, ?_, hpost⟩
          intro d hd
          rcases List.mem_cons.mp hd with rfl | hd
          · exact hgt
          · exact hpre d hd
      · rintro (⟨ha, hall⟩ | ⟨pre, c, post, heq, hcid, hgt, hpre, hpost⟩)
        · exact absurd hx (not_lt.mpr (hall x (List.mem_cons_self _ _)))
        · rcases pre with _ | ⟨p, pre⟩
          · rcases List.cons.injEq _ _ _ _ ▸ heq with ⟨rfl, rfl⟩
            exact Or.inl ⟨by rw [hcid], hpost⟩
          · rcases List.cons.injEq _ _ _ _ ▸ heq with ⟨rfl, rfl⟩
            refine Or.inr ⟨pre, c, post, rfl, hcid,
              hpre x (List.mem_cons_self _ _), fun d hd =>
                hpre d (List.mem_cons_of_mem _ hd), hpost⟩
    · rw [show selStep idOf sim (ob, b) x = (ob, b) from
        by unfold selStep; rw [if_neg hx]]
      rw [ih ob b cid]
      constructor
      · rintro (⟨ha, hall⟩ | ⟨pre, c, post, heq, hcid, hgt, hpre, hpost⟩)
        · refine Or.inl ⟨ha, ?_⟩
          intro d hd
          rcases List.mem_cons.mp hd with rfl | hd
          · exact not_lt.mp hx
          · exact hall d hd
        · refine Or.inr ⟨x :: pre, c, post, by rw [heq]; rfl, hcid, hgt, ?_,
            hpost⟩
          intro d hd
          rcases List.mem_cons.mp hd with rfl | hd
          · exact lt_of_le_of_lt (not_lt.mp hx) hgt
          · exact hpre d hd
      · rintro (⟨ha, hall⟩ | ⟨pre, c, post, heq, hcid, hgt, hpre, hpost⟩)
        · exact Or.inl ⟨ha, fun d hd => hall d (List.mem_cons_of_mem _ hd)⟩
        · rcases pre with _ | ⟨p, pre⟩
          · rcases List.cons.injEq _ _ _ _ ▸ heq with ⟨rfl, rfl⟩
            exact absurd hgt hx
          · rcases List.cons.injEq _ _ _ _ ▸ heq with ⟨rfl, rfl⟩
            exact Or.inr ⟨pre, c, post, rfl, hcid, hgt, fun d hd =>
              hpre d (List.mem_cons_of_mem _ hd), hpost⟩

/-- `_find_best_cluster_for_face` is the selection fold over its allowed
candidates. -/
lemma find_best_eq_selFold (cosSim : List ℚ → List ℚ → ℚ)
    (clusters : List FaceCluster) (ncs : List (String × List String))
    (face : FaceData) (excl : List String) (t : ℚ) :
    find_best_cluster_for_face cosSim clusters ncs face excl t =
      ((allowedCandidates clusters ncs face excl).foldl
        (selStep (fun c => c.cluster_id) (candidateSim cosSim face))
        (none, t)).1 := by
  by_cases hcl : clusters = []
  · subst hcl
    rfl
  · unfold find_best_cluster_for_face
    rw [if_neg hcl]
    show (clusters.foldl (fun (acc : Option String × ℚ) cluster =>
        if cluster.cluster_id ∈ excl then acc
        else if cluster.cluster_id ∈ alGetD ncs face.face_id [] then acc
        else match compute_cluster_centroid cluster true with
          | none => acc
          | some centroid =>
            if cosSim face.embedding centroid > acc.2 then
              (some cluster.cluster_id, cosSim face.embedding centroid)
            else acc) (none, t)).1 = _
    have hstep : (fun (acc : Option String × ℚ) cluster =>
        if cluster.cluster_id ∈ excl then acc
        else if cluster.cluster_id ∈ alGetD ncs face.face_id [] then acc
        else match compute_cluster_centroid cluster true with
          | none => acc
          | some centroid =>
            if cosSim face.embedding centroid > acc.2 then
              (some cluster.cluster_id, cosSim face.embedding centroid)
            else acc) =
        fun (acc : Option String × ℚ) cluster =>
          if !(decide (cluster.cluster_id ∉ excl) &&
               decide (cluster.cluster_id ∉ alGetD ncs face.face_id []) &&
               (compute_cluster_centroid cluster true).isSome) then acc
          else selStep (fun c => c.cluster_id) (candidateSim cosSim face)
            acc cluster := by
      funext acc cluster
      by_cases h1 : cluster.cluster_id ∈ excl
      · simp [h1]
      · by_cases h2 : cluster.cluster_id ∈ alGetD ncs face.face_id []
        · simp [h1, h2]
        · cases hc : compute_cluster_centroid cluster true with
          | none => simp [h1, h2, hc]
          | some centroid => simp [h1, h2, hc, selStep, candidateSim]
    rw [hstep, foldl_skip_filter]
    unfold allowedCandidates
    simp only [Bool.not_not]

/-- C5 (amended): the re-homing search returns the first candidate attaining
the maximum centroid similarity whenever that maximum is strictly greater
than the threshold, and `none` exactly when every allowed candidate's
similarity is at most the threshold (a candidate whose similarity equals the
threshold exactly is not selected: the running best starts at the threshold
and is replaced only on strictly greater similarity, source lines 419 and
436). -/
theorem claim_C5_rehoming_first_argmax (cosSim : List ℚ → List ℚ → ℚ)
    (clusters : List FaceCluster) (ncs : List (String × List String))
    (face : FaceData) (excl : List String) (t : ℚ) :
    (∀ cid, find_best_cluster_for_face cosSim clusters ncs face excl t =
        some cid ↔
      ∃ pre c post, allowedCandidates clusters ncs face excl =
          pre ++ c :: post ∧
        cid = c.cluster_id ∧ candidateSim cosSim face c > t ∧
        (∀ d ∈ pre, candidateSim cosSim face d < candidateSim cosSim face c) ∧
        (∀ d ∈ post, candidateSim cosSim face d ≤ candidateSim cosSim face c)) ∧
    (find_best_cluster_for_face cosSim clusters ncs face excl t = none ↔
      ∀ c ∈ allowedCandidates clusters ncs face excl,
        candidateSim cosSim face c ≤ t) := by
  constructor
  · intro cid
    rw [find_best_eq_selFold,
      selFold_char (fun c => c.cluster_id) (candidateSim cosSim face) _ none t cid]
    simp
  · rw [find_best_eq_selFold, selFold_none_iff]

/-- Counterexample to C5 as stated: a single allowed candidate whose centroid
similarity equals the threshold exactly; the claim promises the candidate is
returned (maximum `>= threshold`), but the source's strict comparison against
a running best initialized to the threshold returns `none`. -/
theorem claim_C5_counterexample :
    find_best_cluster_for_face (fun _ _ => mkRat 3 5) [wClusterB] [] wA []
        (mkRat 3 5) = none ∧
      wClusterB ∈ allowedCandidates [wClusterB] [] wA [] ∧
      candidateSim (fun _ _ => mkRat 3 5) wA wClusterB ≥ mkRat 3 5 := by
  refine ⟨by decide, by decide, by decide⟩

/-- Witness for C5 (amended): at a concrete input where no candidate exceeds
the threshold the search returns `none`. -/
theorem claim_C5_witness :
    find_best_cluster_for_face (fun _ _ => 0) [wClusterB] [] wA [] 1 = none :=
  (claim_C5_rehoming_first_argmax (fun _ _ => 0) [wClusterB] [] wA [] 1).2.mpr
    (by decide)

/-- C9 (amended): the stored-embedding normalization of `cluster_faces` and
the centroid normalizations are guarded — a zero-norm vector is mapped to
itself and the divisor used is never zero — but the query normalization of
the probe face's embedding in `_find_best_cluster_for_face` and in
`recluster_with_constraints` is unguarded and is undefined (NaN) exactly on a
zero-norm vector. -/
theorem claim_C9_normalization_guards (v : List ℚ) (nv : ℚ) :
    rowNormalize v 0 = v ∧ centroidNormalize v 0 = v ∧
      (if nv = 0 then (1 : ℚ) else nv) ≠ 0 ∧
      (queryNormalize v nv = none ↔ nv = 0) := by
  refine ⟨?_, ?_, ?_, ?_⟩
  · unfold rowNormalize
    rw [if_pos rfl]
    simp
  · unfold centroidNormalize
    rw [if_neg (lt_irrefl 0)]
  · by_cases h : nv = 0
    · rw [if_pos h]
      exact one_ne_zero
    · rw [if_neg h]
      exact h
  · unfold queryNormalize
    by_cases h : nv = 0
    · rw [if_pos h]
      simp [h]
    · rw [if_neg h]
      simp [h]

/-- Counterexample to C9 as stated: the zero vector has zero squared norm, and
the query normalization used by the re-homing search and the re-clustering
pass (`face_embedding / np.linalg.norm(face_embedding)`, no guard) is
undefined on it — the claim promises every normalization site is guarded. -/
theorem claim_C9_counterexample :
    normSq [(0 : ℚ), 0] = 0 ∧ queryNormalize [(0 : ℚ), 0] 0 = none := by
  constructor
  · simp [normSq]
  · unfold queryNormalize
    rw [if_pos rfl]

/-- Witness for C9 (amended) at the zero vector. -/
theorem claim_C9_witness :
    rowNormalize [(0 : ℚ), 0] 0 = [(0 : ℚ), 0] ∧
      centroidNormalize [(0 : ℚ), 0] 0 = [(0 : ℚ), 0] ∧
      (if (0 : ℚ) = 0 then (1 : ℚ) else 0) ≠ 0 ∧
      (queryNormalize [(0 : ℚ), 0] 0 = none ↔ (0 : ℚ) = 0) :=
  claim_C9_normalization_guards [(0 : ℚ), 0] 0

/-- Every entry of `alInsert` is an old entry or the new binding. -/
lemma mem_alInsert {α : Type} (m : List (String × α)) (k : String) (v : α)
    (p : String × α) (hp : p ∈ alInsert m k v) : p ∈ m ∨ p = (k, v) := by
  induction m with
  | nil =>
    rcases List.mem_singleton.mp hp with rfl
    exact Or.inr rfl
  | cons q m ih =>
    unfold alInsert at hp
    by_cases hq : q.1 = k
    · rw [if_pos hq] at hp
      rcases List.mem_cons.mp hp with rfl | hp
      · exact Or.inr rfl
      · exact Or.inl (List.mem_cons_of_mem _ hp)
    · rw [if_neg hq] at hp
      rcases List.mem_cons.mp hp with rfl | hp
      · exact Or.inl (List.mem_cons_self _ _)
      · rcases ih hp with h | h
        · exact Or.inl (List.mem_cons_of_mem _ h)
        · exact Or.inr h

/-- Inserting a fresh key appends the binding at the end. -/
lemma alInsert_fresh {α : Type} (m : List (String × α)) (k : String) (v : α)
    (hk : ∀ p ∈ m, p.1 ≠ k) : alInsert m k v = m ++ [(k, v)] := by
  induction m with
  | nil => rfl
  | cons q m ih =>
    unfold alInsert
    rw [if_neg (hk q (List.mem_cons_self _ _))]
    rw [ih (fun p hp => hk p (List.mem_cons_of_mem _ hp))]
    rfl

/-- Two successive in-place updates at the same key compose. -/
lemma alModify_comp {α : Type} (m : List (String × α)) (k : String)
    (f g : α → α) : alModify (alModify m k f) k g = alModify m k (fun v => g (f v)) := by
  induction m with
  | nil => rfl
  | cons q m ih =>
    obtain ⟨a, b⟩ := q
    by_cases hq : a = k
    · simp [alModify, hq]
    · simp [alModify, hq, ih]

/-- Updating with functions that agree gives the same dict. -/
lemma alModify_congr {α : Type} (m : List (String × α)) (k : String)
    (f g : α → α) (h : ∀ v, f v = g v) : alModify m k f = alModify m k g := by
  induction m with
  | nil => rfl
  | cons q m ih =>
    obtain ⟨a, b⟩ := q
    by_cases hq : a = k
    · simp [alModify, hq, h]
    · simp [alModify, hq, ih]

/-- Updating with the identity changes nothing. -/
lemma alModify_id {α : Type} (m : List (String × α)) (k : String) :
    alModify m k (fun v => v) = m := by
  induction m with
  | nil => rfl
  | cons q m ih =>
    obtain ⟨a, b⟩ := q
    by_cases hq : a = k
    · simp [alModify, hq, ih]
    · simp [alModify, hq, ih]

/-- Updating a key bound at the appended last position (and nowhere earlier)
rewrites just that binding. -/
lemma alModify_append_fresh {α : Type} (m : List (String × α)) (k : String)
    (v : α) (f : α → α) (hk : ∀ p ∈ m, p.1 ≠ k) :
    alModify (m ++ [(k, v)]) k f = m ++ [(k, f v)] := by
  induction m with
  | nil => simp [alModify]
  | cons q m ih =>
    obtain ⟨a, b⟩ := q
    have ha : ¬ a = k := hk (a, b) (List.mem_cons_self _ _)
    simp only [List.cons_append, alModify, ha, if_false]
    exact congrArg (List.cons (a, b)) (ih (fun p hp => hk p (List.mem_cons_of_mem _ hp)))

/-- Lookup after an update at the same key. -/
lemma alGet_alModify_self {α : Type} (m : List (String × α)) (k : String)
    (f : α → α) : alGet (alModify m k f) k = (alGet m k).map f := by
  induction m with
  | nil => rfl
  | cons q m ih =>
    obtain ⟨a, b⟩ := q
    by_cases hq : a = k
    · simp [alModify, alGet, hq]
    · simp only [alModify, hq, if_false]
      unfold alGet
      rw [List.find?_cons_of_neg _ (by simp [hq]),
        List.find?_cons_of_neg _ (by simp [hq])]
      exact ih

/-- Lookup after an update at another key. -/
lemma alGet_alModify_other {α : Type} (m : List (String × α)) (k k' : String)
    (f : α → α) (hkk : k' ≠ k) : alGet (alModify m k' f) k = alGet m k := by
  induction m with
  | nil => rfl
  | cons q m ih =>
    obtain ⟨a, b⟩ := q
    by_cases hq : a = k'
    · have hak : ¬ a = k := fun h => hkk (hq ▸ h ▸ rfl)
      simp only [alModify, hq, if_true]
      unfold alGet
      rw [List.find?_cons_of_neg _ (by simp only [decide_eq_true_eq]; exact hq ▸ hak),
        List.find?_cons_of_neg _ (by simp only [decide_eq_true_eq]; exact hq ▸ hak)]
    · simp only [alModify, hq, if_false]
      by_cases hqk : a = k
      · unfold alGet
        rw [List.find?_cons_of_pos _ (by simp [hqk]),
          List.find?_cons_of_pos _ (by simp [hqk])]
      · unfold alGet
        rw [List.find?_cons_of_neg _ (by simp [hqk]),
          List.find?_cons_of_neg _ (by simp [hqk])]
        exact ih

/-- A successful lookup is a membership. -/
lemma alGet_mem {α : Type} (m : List (String × α)) (k : String) (v : α)
    (h : alGet m k = some v) : (k, v) ∈ m := by
  induction m with
  | nil => cases h
  | cons q m ih =>
    unfold alGet at h
    by_cases hq : q.1 = k
    · rw [List.find?_cons_of_pos _ (by simp [hq])] at h
      rcases q with ⟨a, b⟩
      obtain rfl : b = v := by
        simpa using h
      rcases hq with rfl
      exact List.mem_cons_self _ _
    · rw [List.find?_cons_of_neg _ (by simp [hq])] at h
      exact List.mem_cons_of_mem _ (ih h)

/-- With distinct keys, membership determines the lookup. -/
lemma alGet_of_mem_nodup {α : Type} (m : List (String × α))
    (hnd : (m.map (fun p => p.1)).Nodup) (k : String) (v : α)
    (hmem : (k, v) ∈ m) : alGet m k = some v := by
  induction m with
  | nil => cases hmem
  | cons q m ih =>
    rw [List.map_cons, List.nodup_cons] at hnd
    rcases List.mem_cons.mp hmem with rfl | hmem
    · unfold alGet
      rw [List.find?_cons_of_pos _ (by simp)]
      rfl
    · have hq : q.1 ≠ k := by
        intro hq
        exact hnd.1 (hq ▸ List.mem_map.mpr ⟨(k, v), hmem, rfl⟩)
      unfold alGet
      rw [List.find?_cons_of_neg _ (by simp [hq])]
      exact ih hnd.2 hmem

/-- One cluster's pass of step 1: verified members are appended to the
cluster's bucket, unverified ones to the flat pair list. -/
lemma reclusterPartition_inner (cid : String) (faces : List FaceData) :
    ∀ (m : List (String × List FaceData)) (u : List (FaceData × String)),
    faces.foldl (fun a f =>
      if f.verified then (alModify a.1 cid (fun l => l ++ [f]), a.2)
      else (a.1, a.2 ++ [(f, cid)])) (m, u) =
    (alModify m cid (fun l => l ++ faces.filter (fun f => f.verified)),
     u ++ (faces.filter (fun f => !f.verified)).map (fun f => (f, cid))) := by
  induction faces with
  | nil =>
    intro m u
    rw [List.foldl_nil, List.filter_nil, List.filter_nil, List.map_nil,
      List.append_nil]
    rw [show (fun (l : List FaceData) => l ++ ([] : List FaceData)) =
      fun v => v from funext (fun v => List.append_nil v), alModify_id]
  | cons f fs ih =>
    intro m u
    rw [List.foldl_cons]
    by_cases hv : f.verified = true
    · rw [if_pos hv, ih, List.filter_cons_of_pos (by simp [hv]),
        List.filter_cons_of_neg (by simp [hv]), alModify_comp]
      rw [show (fun v => (v ++ [f]) ++ List.filter (fun f => f.verified) fs) =
        fun l => l ++ f :: List.filter (fun f => f.verified) fs from
        funext (fun v => by rw [List.append_assoc]; rfl)]
    · rw [if_neg hv, ih, List.filter_cons_of_neg (by simp [hv]),
        List.filter_cons_of_pos (by simp [hv]), List.map_cons]
      simp [List.append_assoc]

/-- Step 1 under distinct cluster ids: the bucket dict is the clusters' ids
paired with their verified members, in order; the unverified list is the
in-order flattening. -/
lemma reclusterPartition_go (clusters : List FaceCluster) :
    ∀ (m : List (String × List FaceData)) (u : List (FaceData × String)),
    (clusters.map (fun c => c.cluster_id)).Nodup →
    (∀ p ∈ m, ∀ c ∈ clusters, p.1 ≠ c.cluster_id) →
    clusters.foldl (fun acc c =>
      c.faces.foldl (fun a f =>
        if f.verified then (alModify a.1 c.cluster_id (fun l => l ++ [f]), a.2)
        else (a.1, a.2 ++ [(f, c.cluster_id)]))
        (alInsert acc.1 c.cluster_id [], acc.2)) (m, u) =
    (m ++ clusters.map (fun c => (c.cluster_id, c.faces.filter (fun f => f.verified))),
     u ++ clusters.flatMap (fun c =>
       (c.faces.filter (fun f => !f.verified)).map (fun f => (f, c.cluster_id)))) := by
  induction clusters with
  | nil =>
    intro m u _ _
    simp
  | cons c cs ih =>
    intro m u hnd hfresh
    have hfr : ∀ p ∈ m, p.1 ≠ c.cluster_id :=
      fun p hp => hfresh p hp c (List.mem_cons_self _ _)
    simp only [List.foldl_cons]
    rw [alInsert_fresh m c.cluster_id [] hfr]
    rw [reclusterPartition_inner]
    rw [alModify_append_fresh m c.cluster_id [] _ hfr]
    rw [List.map_cons, List.nodup_cons] at hnd
    rw [ih (m ++ [(c.cluster_id,
        [] ++ c.faces.filter (fun f => f.verified))])
      (u ++ (c.faces.filter (fun f => !f.verified)).map (fun f => (f, c.cluster_id)))
      hnd.2 ?hfr2]
    case hfr2 =>
      intro p hp c' hc'
      rcases List.mem_append.mp hp with hp | hp
      · exact hfresh p hp c' (List.mem_cons_of_mem _ hc')
      · rcases List.mem_singleton.mp hp with rfl
        intro heq
        exact hnd.1 (List.mem_map.mpr ⟨c', hc', heq.symm⟩)
    rw [List.map_cons, List.flatMap_cons, List.nil_append]
    rw [List.append_assoc m, List.append_assoc u]
    rfl

/-- Step 1, top-level form (distinct cluster ids). -/
lemma reclusterPartition_eq (clusters : List FaceCluster)
    (hnd : (clusters.map (fun c => c.cluster_id)).Nodup) :
    reclusterPartition clusters =
      (clusters.map (fun c =>
        (c.cluster_id, c.faces.filter (fun f => f.verified))),
       clusters.flatMap (fun c =>
        (c.faces.filter (fun f => !f.verified)).map (fun f => (f, c.cluster_id)))) := by
  unfold reclusterPartition
  rw [reclusterPartition_go clusters [] [] hnd (fun p hp => absurd hp (List.not_mem_nil p))]
  rfl

/-- Without any verified face every bucket of step 1 stays empty (no
distinctness assumption needed: the verified branch is never taken). -/
lemma reclusterPartition_buckets_nil (clusters : List FaceCluster)
    (hall : ∀ c ∈ clusters, ∀ f ∈ c.faces, f.verified = false) :
    ∀ p ∈ (reclusterPartition clusters).1, p.2 = [] := by
  unfold reclusterPartition
  suffices h : ∀ (cs : List FaceCluster), (∀ c ∈ cs, ∀ f ∈ c.faces, f.verified = false) →
      ∀ (m : List (String × List FaceData)) (u : List (FaceData × String)),
      (∀ p ∈ m, p.2 = []) →
      ∀ p ∈ (cs.foldl (fun acc c =>
        c.faces.foldl (fun a f =>
          if f.verified then (alModify a.1 c.cluster_id (fun l => l ++ [f]), a.2)
          else (a.1, a.2 ++ [(f, c.cluster_id)]))
          (alInsert acc.1 c.cluster_id [], acc.2)) (m, u)).1, p.2 = [] by
    exact h clusters hall [] [] (fun p hp => absurd hp (List.not_mem_nil p))
  intro cs
  induction cs with
  | nil =>
    intro _ m u hm p hp
    exact hm p hp
  | cons c cs ih =>
    intro hall m u hm
    simp only [List.foldl_cons]
    rw [reclusterPartition_inner]
    have hfilter : c.faces.filter (fun f => f.verified) = [] := by
      rw [List.filter_eq_nil_iff]
      intro f hf
      simp [hall c (List.mem_cons_self _ _) f hf]
    rw [hfilter]
    rw [show (fun (l : List FaceData) => l ++ ([] : List FaceData)) =
      fun v => v from funext (fun v => List.append_nil v), alModify_id]
    refine ih (fun c' hc' => hall c' (List.mem_cons_of_mem _ hc')) _ _ ?_
    intro p hp
    rcases mem_alInsert _ _ _ _ hp with hp | rfl
    · exact hm p hp
    · rfl

/-- With all buckets empty there are no verified centroids. -/
lemma verifiedCentroids_nil (buckets : List (String × List FaceData))
    (h : ∀ p ∈ buckets, p.2 = []) : verifiedCentroids buckets = [] := by
  unfold verifiedCentroids
  rw [List.filterMap_eq_nil_iff]
  intro p hp
  rw [if_pos (h p hp)]

/-- C3 (amended): with a nonempty cluster list and no verified member
anywhere, `recluster_with_constraints` returns the structured "no anchors"
error and the state is returned exactly as it was — no entity, cluster,
constraint, or orphan mutation.  (When the cluster list is empty the source
instead returns a "No clusters" error, after running the initial clustering
if faces exist — see the counterexample.) -/
theorem claim_C3_no_anchors_error (cosSim : List ℚ → List ℚ → ℚ)
    (st : ServiceState) (t : ℚ) (hne : st.clusters ≠ [])
    (hunv : ∀ c ∈ st.clusters, ∀ f ∈ c.faces, f.verified = false) :
    recluster_with_constraints cosSim st t = (ReclusterResult.errNoAnchors, st) := by
  unfold recluster_with_constraints
  rw [if_neg hne]
  have hc : verifiedCentroids (reclusterPartition st.clusters).1 = [] :=
    verifiedCentroids_nil _ (reclusterPartition_buckets_nil _ hunv)
  show (if verifiedCentroids (reclusterPartition st.clusters).1 = [] then
    ((ReclusterResult.errNoAnchors, st) : ReclusterResult × ServiceState) else _) = _
  rw [if_pos hc]

/-- Counterexample to C3 as stated: in a zero-verified state whose cluster
list is empty while faces exist, `recluster()` does not return the
"no anchors" error (it returns "No clusters") and it mutates state: the
cluster list is repopulated by an initial clustering pass before the error
returns. -/
theorem claim_C3_counterexample :
    (recluster_with_constraints (fun _ _ => 0) stNoClusters (mkRat 3 5)).1 ≠
        ReclusterResult.errNoAnchors ∧
      (recluster_with_constraints (fun _ _ => 0) stNoClusters (mkRat 3 5)).2.clusters ≠
        stNoClusters.clusters := by
  exact ⟨by decide, by decide⟩

/-- Witness for C3 (amended) at a concrete all-unverified state. -/
theorem claim_C3_witness :
    recluster_with_constraints (fun _ _ => 0) stUnv (mkRat 3 5) =
      (ReclusterResult.errNoAnchors, stUnv) :=
  claim_C3_no_anchors_error (fun _ _ => 0) stUnv (mkRat 3 5) (by decide) (by decide)

/-- After deleting a binding its lookup fails. -/
lemma alGet_alErase_self {α : Type} (m : List (String × α)) (k : String) :
    alGet (alErase m k) k = none := by
  induction m with
  | nil => rfl
  | cons q m ih =>
    obtain ⟨a, b⟩ := q
    unfold alErase at ih ⊢
    by_cases hq : a = k
    · rw [List.filter_cons_of_neg (by simp [hq])]
      exact ih
    · rw [List.filter_cons_of_pos (by simp [hq])]
      unfold alGet
      rw [List.find?_cons_of_neg _ (by simp [hq])]
      exact ih

/-- C10 (amended): when a rejection leaves the origin cluster empty,
`verify_face` deletes the cluster and its custom-name binding together; the
re-clustering pass, in contrast, drops empty (and anchorless) clusters from
the cluster list but never touches the name-binding store, so bindings for
dropped ids survive it (see the counterexample). -/
theorem claim_C10_empty_cluster_deletion (cosSim : List ℚ → List ℚ → ℚ) :
    (∀ (st : ServiceState) (t : ℚ),
      (recluster_with_constraints cosSim st t).2.custom_names =
        st.custom_names) ∧
    (∀ (st : ServiceState) (fid cid : String) (ce : Bool)
        (nid : Option String) (orph : Bool),
      (verify_face cosSim st fid cid false).1 =
          VerifyResult.rejected fid cid ce nid orph →
      ce = true →
      (∀ c ∈ (verify_face cosSim st fid cid false).2.clusters,
          c.cluster_id ≠ cid) ∧
        alGet (verify_face cosSim st fid cid false).2.custom_names cid = none) := by
  constructor
  · intro st t
    unfold recluster_with_constraints
    by_cases h1 : st.clusters = []
    · rw [if_pos h1]
      by_cases h2 : st.faces ≠ [] <;> simp [h2]
    · rw [if_neg h1]
      by_cases h3 : verifiedCentroids (reclusterPartition st.clusters).1 = []
      · show (if verifiedCentroids (reclusterPartition st.clusters).1 = [] then
          ((ReclusterResult.errNoAnchors, st) : ReclusterResult × ServiceState)
          else _).2.custom_names = _
        rw [if_pos h3]
      · show (if verifiedCentroids (reclusterPartition st.clusters).1 = [] then
          ((ReclusterResult.errNoAnchors, st) : ReclusterResult × ServiceState)
          else _).2.custom_names = _
        rw [if_neg h3]
  · intro st fid cid ce nid orph hr hce
    unfold verify_face at hr ⊢
    simp only [] at hr ⊢
    cases hc1 : (ensureClusters cosSim st).clusters.find?
        (fun c => c.cluster_id = cid) with
    | none =>
      rw [hc1] at hr
      exact absurd hr (by simp)
    | some cluster =>
      simp only [hc1] at hr
      cases hc2 : cluster.faces.find? (fun f => f.face_id = fid) with
      | none =>
        simp only [hc2] at hr
        exact absurd hr (by simp)
      | some face =>
        simp only [hc2] at hr
        simp only [Bool.false_eq_true, if_false] at hr ⊢
        cases hb : find_best_cluster_for_face cosSim
            (removeFaceFromCluster (ensureClusters cosSim st).clusters fid cid)
            (rejectNcs (ensureClusters cosSim st).negative_constraints fid cid)
            face [cid] (mkRat 3 5) with
        | some nid' =>
          try simp only [hb] at hr
          try simp only [hc1, hc2, hb]
          injection hr with h1 h2 h3 h4 h5
          have hcemp : (cluster.faces.filter (fun f => f.face_id ≠ fid)).isEmpty = true :=
            h3.trans hce
          rw [if_pos hcemp]
          refine ⟨?_, alGet_alErase_self _ _⟩
          intro c hc
          rw [List.mem_filter] at hc
          exact of_decide_eq_true hc.2
        | none =>
          try simp only [hb] at hr
          try simp only [hc1, hc2, hb]
          injection hr with h1 h2 h3 h4 h5
          have hcemp : (cluster.faces.filter (fun f => f.face_id ≠ fid)).isEmpty = true :=
            h3.trans hce
          rw [if_pos hcemp]
          refine ⟨?_, alGet_alErase_self _ _⟩
          intro c hc
          rw [List.mem_filter] at hc
          exact of_decide_eq_true hc.2

/-- Counterexample to C10 as stated: a re-clustering pass drops the
anchorless cluster "A" (its only member is unverified and matches no
anchor), yet the custom-name binding for "A" survives the operation — a name
binding exists for a cluster id that no longer identifies an existing
cluster. -/
theorem claim_C10_counterexample :
    (∀ c ∈ (recluster_with_constraints (fun _ _ => 0) stDrop (mkRat 3 5)).2.clusters,
        c.cluster_id ≠ "A") ∧
      alGet (recluster_with_constraints (fun _ _ => 0) stDrop (mkRat 3 5)).2.custom_names
        "A" = some "Alice" := by
  exact ⟨by decide, by decide⟩

/-- Witness for C10 (amended): rejecting the sole member of the named
cluster "A" deletes the cluster and its name binding. -/
theorem claim_C10_witness :
    (∀ c ∈ (verify_face (fun _ _ => 0) stSingleton "a" "A" false).2.clusters,
        c.cluster_id ≠ "A") ∧
      alGet (verify_face (fun _ _ => 0) stSingleton "a" "A" false).2.custom_names
        "A" = none :=
  (claim_C10_empty_cluster_deletion (fun _ _ => 0)).2 stSingleton "a" "A"
    true none true (by decide) rfl

/-- A lookup succeeds iff the key is bound. -/
lemma alGet_isSome {α : Type} (m : List (String × α)) (k : String) :
    (alGet m k).isSome = true ↔ ∃ p ∈ m, p.1 = k := by
  unfold alGet
  have hsame : (Option.map (fun (p : String × α) => p.2)
      (List.find? (fun p => decide (p.1 = k)) m)).isSome =
      (List.find? (fun p => decide (p.1 = k)) m).isSome := by
    cases List.find? (fun p => decide (p.1 = k)) m <;> rfl
  rw [hsame, List.find?_isSome]
  simp

/-- Keys produced by a guarded `filterMap` form a sublist of the mapped keys. -/
lemma filterMap_guard_sublist {α β : Type} (l : List α) (P : α → Bool)
    (f : α → β) :
    (l.filterMap (fun c => if P c then some (f c) else none)).Sublist (l.map f) := by
  induction l with
  | nil => exact List.Sublist.refl _
  | cons c cs ih =>
    rw [List.filterMap_cons, List.map_cons]
    by_cases h : P c
    · rw [if_pos h]
      exact List.Sublist.cons₂ _ ih
    · rw [if_neg h]
      exact List.Sublist.cons _ ih

/-- Step 3 under distinct cluster ids: the seed dict pairs each anchor
cluster's id with the cluster reduced to its verified bucket. -/
lemma seedClusters_go (centroids : List (String × List ℚ))
    (buckets : List (String × List FaceData)) (clusters : List FaceCluster) :
    ∀ (m : List (String × FaceCluster)),
    (clusters.map (fun c => c.cluster_id)).Nodup →
    (∀ p ∈ m, ∀ c ∈ clusters, p.1 ≠ c.cluster_id) →
    clusters.foldl (fun m c =>
      if (alGet centroids c.cluster_id).isSome then
        alInsert m c.cluster_id
          { cluster_id := c.cluster_id, name := c.name,
            faces := alGetD buckets c.cluster_id [] }
      else m) m =
    m ++ clusters.filterMap (fun c =>
      if (alGet centroids c.cluster_id).isSome then
        some (c.cluster_id,
          { cluster_id := c.cluster_id, name := c.name,
            faces := alGetD buckets c.cluster_id [] : FaceCluster })
      else none) := by
  induction clusters with
  | nil =>
    intro m _ _
    simp
  | cons c cs ih =>
    intro m hnd hfresh
    rw [List.map_cons, List.nodup_cons] at hnd
    rw [List.foldl_cons, List.filterMap_cons]
    by_cases h : (alGet centroids c.cluster_id).isSome
    · rw [if_pos h, if_pos h]
      rw [alInsert_fresh _ _ _
        (fun p hp => hfresh p hp c (List.mem_cons_self _ _))]
      rw [ih _ hnd.2 ?fr]
      case fr =>
        intro p hp c' hc'
        rcases List.mem_append.mp hp with hp | hp
        · exact hfresh p hp c' (List.mem_cons_of_mem _ hc')
        · rcases List.mem_singleton.mp hp with rfl
          intro heq
          exact hnd.1 (List.mem_map.mpr ⟨c', hc', heq.symm⟩)
      rw [List.append_assoc]
      rfl
    · rw [if_neg h, if_neg h]
      exact ih m hnd.2 (fun p hp c' hc' => hfresh p hp c' (List.mem_cons_of_mem _ hc'))

/-- Step 4 only appends members to existing seed clusters: any bound cluster
keeps its id, name and member prefix. -/
lemma assignUnverified_extends (cosSim : List ℚ → List ℚ → ℚ)
    (centroids : List (String × List ℚ))
    (ncs : List (String × List String)) (t : ℚ)
    (unverified : List (FaceData × String)) :
    ∀ (acc : List (String × FaceCluster) × List FaceData × Nat)
      (k : String) (c0 : FaceCluster), alGet acc.1 k = some c0 →
    ∃ ex, alGet (unverified.foldl (fun acc p =>
      match bestAnchor cosSim centroids ncs p.1 t with
      | some best =>
        (alModify acc.1 best (fun c => { c with faces := c.faces ++ [p.1] }),
         acc.2.1, acc.2.2 + (if best ≠ p.2 then 1 else 0))
      | none =>
        (acc.1, if p.1 ∈ acc.2.1 then acc.2.1 else acc.2.1 ++ [p.1], acc.2.2))
      acc).1 k =
      some { cluster_id := c0.cluster_id, name := c0.name,
             faces := c0.faces ++ ex } := by
  induction unverified with
  | nil =>
    intro acc k c0 h
    refine ⟨[], ?_⟩
    rw [List.foldl_nil, h, List.append_nil]
  | cons p ps ih =>
    intro acc k c0 h
    rw [List.foldl_cons]
    cases hba : bestAnchor cosSim centroids ncs p.1 t with
    | some best =>
      by_cases hbk : best = k
      · subst hbk
        have h2 : alGet (alModify acc.1 best
            (fun c => { c with faces := c.faces ++ [p.1] })) best =
            some { cluster_id := c0.cluster_id, name := c0.name,
                   faces := c0.faces ++ [p.1] } := by
          rw [alGet_alModify_self, h]
          rfl
        obtain ⟨ex, hex⟩ := ih (alModify acc.1 best
            (fun c => { c with faces := c.faces ++ [p.1] }),
          acc.2.1, acc.2.2 + (if best ≠ p.2 then 1 else 0)) best _ h2
        refine ⟨[p.1] ++ ex, ?_⟩
        rw [← List.append_assoc]
        exact hex
      · have h2 : alGet (alModify acc.1 best
            (fun c => { c with faces := c.faces ++ [p.1] })) k = some c0 := by
          rw [alGet_alModify_other _ _ _ _ hbk, h]
        exact ih (alModify acc.1 best
            (fun c => { c with faces := c.faces ++ [p.1] }),
          acc.2.1, acc.2.2 + (if best ≠ p.2 then 1 else 0)) k _ h2
    | none =>
      exact ih (acc.1, if p.1 ∈ acc.2.1 then acc.2.1 else acc.2.1 ++ [p.1],
        acc.2.2) k _ h

/-- Step 5 likewise only appends members to existing seed clusters. -/
lemma placeOrphans_extends (cosSim : List ℚ → List ℚ → ℚ)
    (centroids : List (String × List ℚ))
    (ncs : List (String × List String)) (t : ℚ) (orphans : List FaceData) :
    ∀ (acc : List (String × FaceCluster) × List FaceData)
      (k : String) (c0 : FaceCluster), alGet acc.1 k = some c0 →
    ∃ ex, alGet (orphans.foldl (fun acc f =>
      match bestAnchor cosSim centroids ncs f t with
      | some best =>
        (alModify acc.1 best (fun c => { c with faces := c.faces ++ [f] }),
         acc.2 ++ [f])
      | none => acc) acc).1 k =
      some { cluster_id := c0.cluster_id, name := c0.name,
             faces := c0.faces ++ ex } := by
  induction orphans with
  | nil =>
    intro acc k c0 h
    refine ⟨[], ?_⟩
    rw [List.foldl_nil, h, List.append_nil]
  | cons f fs ih =>
    intro acc k c0 h
    rw [List.foldl_cons]
    cases hba : bestAnchor cosSim centroids ncs f t with
    | some best =>
      by_cases hbk : best = k
      · subst hbk
        have h2 : alGet (alModify acc.1 best
            (fun c => { c with faces := c.faces ++ [f] })) best =
            some { cluster_id := c0.cluster_id, name := c0.name,
                   faces := c0.faces ++ [f] } := by
          rw [alGet_alModify_self, h]
          rfl
        obtain ⟨ex, hex⟩ := ih (alModify acc.1 best
            (fun c => { c with faces := c.faces ++ [f] }), acc.2 ++ [f]) best _ h2
        refine ⟨[f] ++ ex, ?_⟩
        rw [← List.append_assoc]
        exact hex
      · have h2 : alGet (alModify acc.1 best
            (fun c => { c with faces := c.faces ++ [f] })) k = some c0 := by
          rw [alGet_alModify_other _ _ _ _ hbk, h]
        exact ih (alModify acc.1 best
            (fun c => { c with faces := c.faces ++ [f] }), acc.2 ++ [f]) k _ h2
    | none =>
      exact ih acc k _ h

/-- Keys of a guarded pair-producing `filterMap`. -/
lemma map_fst_filterMap_guard {α β γ : Type} (l : List α) (P : α → Bool)
    (k : α → β) (v : α → γ) :
    (l.filterMap (fun c => if P c then some (k c, v c) else none)).map
        (fun p => p.1) =
      l.filterMap (fun c => if P c then some (k c) else none) := by
  induction l with
  | nil => rfl
  | cons c cs ih =>
    rw [List.filterMap_cons, List.filterMap_cons]
    by_cases h : P c
    · rw [if_pos h, if_pos h, List.map_cons, ih]
    · rw [if_neg h, if_neg h, ih]

/-- C2: after `recluster_with_constraints`, every entity verified before the
call is still a member of the surviving cluster (same id) it was in before
the call, together with every other entity that was verified in that same
pre-call cluster; the pass only ever appends to the seeded verified buckets
and never reassigns a verified member.  (Cluster ids are assumed distinct, as
the id-derivation of `cluster_faces` guarantees; the Python dicts of the pass
are keyed by id.) -/
theorem claim_C2_verified_pinning (cosSim : List ℚ → List ℚ → ℚ)
    (st : ServiceState) (t : ℚ)
    (hnd : (st.clusters.map (fun c => c.cluster_id)).Nodup)
    (c : FaceCluster) (hc : c ∈ st.clusters)
    (f : FaceData) (hf : f ∈ c.faces) (hv : f.verified = true) :
    ∃ c' ∈ (recluster_with_constraints cosSim st t).2.clusters,
      c'.cluster_id = c.cluster_id ∧
      ∀ g ∈ c.faces, g.verified = true → g ∈ c'.faces := by
  have hne : st.clusters ≠ [] := List.ne_nil_of_mem hc
  have hbuckets : (reclusterPartition st.clusters).1 =
      st.clusters.map (fun c =>
        (c.cluster_id, c.faces.filter (fun f => f.verified))) := by
    rw [reclusterPartition_eq st.clusters hnd]
  have hbucketmem : (c.cluster_id, c.faces.filter (fun f => f.verified)) ∈
      (reclusterPartition st.clusters).1 := by
    rw [hbuckets]
    exact List.mem_map.mpr ⟨c, hc, rfl⟩
  have hbkeys : ((reclusterPartition st.clusters).1.map (fun p => p.1)).Nodup := by
    rw [hbuckets, List.map_map]
    exact hnd
  have hbget : alGet (reclusterPartition st.clusters).1 c.cluster_id =
      some (c.faces.filter (fun f => f.verified)) :=
    alGet_of_mem_nodup _ hbkeys _ _ hbucketmem
  have hfverified : f ∈ c.faces.filter (fun f => f.verified) :=
    List.mem_filter.mpr ⟨hf, by simp [hv]⟩
  have hbne : c.faces.filter (fun f => f.verified) ≠ [] :=
    List.ne_nil_of_mem hfverified
  have hcent : verifiedCentroids (reclusterPartition st.clusters).1 =
      st.clusters.filterMap (fun c =>
        if c.faces.filter (fun f => f.verified) = [] then none
        else some (c.cluster_id,
          meanVec ((c.faces.filter (fun f => f.verified)).map
            (fun f => f.embedding)))) := by
    rw [hbuckets]
    unfold verifiedCentroids
    rw [List.filterMap_map]
    rfl
  have hcmem : (c.cluster_id,
      meanVec ((c.faces.filter (fun f => f.verified)).map
        (fun f => f.embedding))) ∈
      verifiedCentroids (reclusterPartition st.clusters).1 := by
    rw [hcent]
    exact List.mem_filterMap.mpr ⟨c, hc, by rw [if_neg hbne]⟩
  have hcsome : (alGet (verifiedCentroids (reclusterPartition st.clusters).1)
      c.cluster_id).isSome = true := by
    rw [alGet_isSome]
    exact ⟨_, hcmem, rfl⟩
  have hcne : ¬ verifiedCentroids (reclusterPartition st.clusters).1 = [] :=
    fun h0 => absurd (h0 ▸ hcmem) (List.not_mem_nil _)
  have hseed : seedClusters st.clusters (reclusterPartition st.clusters).1
      (verifiedCentroids (reclusterPartition st.clusters).1) =
      st.clusters.filterMap (fun c =>
        if (alGet (verifiedCentroids (reclusterPartition st.clusters).1)
            c.cluster_id).isSome then
          some (c.cluster_id,
            { cluster_id := c.cluster_id, name := c.name,
              faces := alGetD (reclusterPartition st.clusters).1
                c.cluster_id [] : FaceCluster })
        else none) := by
    unfold seedClusters
    exact seedClusters_go _ _ st.clusters [] hnd
      (fun p hp => absurd hp (List.not_mem_nil p))
  have hseedmem : (c.cluster_id,
      (⟨c.cluster_id, c.name,
        alGetD (reclusterPartition st.clusters).1 c.cluster_id []⟩ :
          FaceCluster)) ∈
      seedClusters st.clusters (reclusterPartition st.clusters).1
        (verifiedCentroids (reclusterPartition st.clusters).1) := by
    rw [hseed]
    exact List.mem_filterMap.mpr ⟨c, hc, by rw [if_pos hcsome]⟩
  have hseedkeys : ((seedClusters st.clusters (reclusterPartition st.clusters).1
      (verifiedCentroids (reclusterPartition st.clusters).1)).map
        (fun p => p.1)).Nodup := by
    rw [hseed, map_fst_filterMap_guard]
    exact List.Nodup.sublist (filterMap_guard_sublist _ _ _) hnd
  have hseedget : alGet (seedClusters st.clusters
      (reclusterPartition st.clusters).1
      (verifiedCentroids (reclusterPartition st.clusters).1)) c.cluster_id =
      some ⟨c.cluster_id, c.name,
        alGetD (reclusterPartition st.clusters).1 c.cluster_id []⟩ :=
    alGet_of_mem_nodup _ hseedkeys _ _ hseedmem
  have hbfaces : alGetD (reclusterPartition st.clusters).1 c.cluster_id [] =
      c.faces.filter (fun f => f.verified) := by
    unfold alGetD
    rw [hbget]
    rfl
  have h4ex : ∃ ex, alGet (assignUnverified cosSim
      (verifiedCentroids (reclusterPartition st.clusters).1)
      st.negative_constraints t (reclusterPartition st.clusters).2
      (seedClusters st.clusters (reclusterPartition st.clusters).1
        (verifiedCentroids (reclusterPartition st.clusters).1))
      st.orphaned_faces).1 c.cluster_id =
      some ⟨c.cluster_id, c.name,
        alGetD (reclusterPartition st.clusters).1 c.cluster_id [] ++ ex⟩ := by
    unfold assignUnverified
    exact assignUnverified_extends cosSim
      (verifiedCentroids (reclusterPartition st.clusters).1)
      st.negative_constraints t (reclusterPartition st.clusters).2
      (seedClusters st.clusters (reclusterPartition st.clusters).1
        (verifiedCentroids (reclusterPartition st.clusters).1),
       st.orphaned_faces, 0) c.cluster_id _ hseedget
  obtain ⟨ex4, h4⟩ := h4ex
  have h5ex : ∃ ex, alGet (placeOrphans cosSim
      (verifiedCentroids (reclusterPartition st.clusters).1)
      st.negative_constraints t
      (assignUnverified cosSim
        (verifiedCentroids (reclusterPartition st.clusters).1)
        st.negative_constraints t (reclusterPartition st.clusters).2
        (seedClusters st.clusters (reclusterPartition st.clusters).1
          (verifiedCentroids (reclusterPartition st.clusters).1))
        st.orphaned_faces).2.1
      (assignUnverified cosSim
        (verifiedCentroids (reclusterPartition st.clusters).1)
        st.negative_constraints t (reclusterPartition st.clusters).2
        (seedClusters st.clusters (reclusterPartition st.clusters).1
          (verifiedCentroids (reclusterPartition st.clusters).1))
        st.orphaned_faces).1).1 c.cluster_id =
      some ⟨c.cluster_id, c.name,
        (alGetD (reclusterPartition st.clusters).1 c.cluster_id [] ++ ex4)
          ++ ex⟩ := by
    unfold placeOrphans
    exact placeOrphans_extends cosSim
      (verifiedCentroids (reclusterPartition st.clusters).1)
      st.negative_constraints t
      (assignUnverified cosSim
        (verifiedCentroids (reclusterPartition st.clusters).1)
        st.negative_constraints t (reclusterPartition st.clusters).2
        (seedClusters st.clusters (reclusterPartition st.clusters).1
          (verifiedCentroids (reclusterPartition st.clusters).1))
        st.orphaned_faces).2.1
      ((assignUnverified cosSim
        (verifiedCentroids (reclusterPartition st.clusters).1)
        st.negative_constraints t (reclusterPartition st.clusters).2
        (seedClusters st.clusters (reclusterPartition st.clusters).1
          (verifiedCentroids (reclusterPartition st.clusters).1))
        st.orphaned_faces).1, ([] : List FaceData)) c.cluster_id _ h4
  obtain ⟨ex5, h5⟩ := h5ex
  unfold recluster_with_constraints
  rw [if_neg hne]
  simp only []
  rw [if_neg hcne]
  simp only []
  refine ⟨⟨c.cluster_id, c.name,
    (alGetD (reclusterPartition st.clusters).1 c.cluster_id [] ++ ex4) ++ ex5⟩,
    ?_, rfl, ?_⟩
  · rw [mem_sortByCountDesc, List.mem_filter]
    constructor
    · exact List.mem_map.mpr ⟨(c.cluster_id, _), alGet_mem _ _ _ h5, rfl⟩
    · have hfin : f ∈ (alGetD (reclusterPartition st.clusters).1 c.cluster_id []
          ++ ex4) ++ ex5 := by
        rw [hbfaces]
        exact List.mem_append_left _ (List.mem_append_left _ hfverified)
      have hemp : ((alGetD (reclusterPartition st.clusters).1 c.cluster_id []
          ++ ex4) ++ ex5).isEmpty = false := by
        cases hcase : (alGetD (reclusterPartition st.clusters).1 c.cluster_id []
            ++ ex4) ++ ex5 with
        | nil =>
          rw [hcase] at hfin
          exact absurd hfin (List.not_mem_nil f)
        | cons x xs => rfl
      simp [hemp]
      exact Or.inl (by rw [hbfaces]; exact hbne)
  · intro g hg hgv
    rw [hbfaces]
    refine List.mem_append_left _ (List.mem_append_left _ ?_)
    exact List.mem_filter.mpr ⟨hg, by simp [hgv]⟩

/-- Witness for C2 at a concrete state: the verified member of the anchor
cluster stays in the surviving cluster of the same id. -/
theorem claim_C2_witness :
    ∃ c' ∈ (recluster_with_constraints (fun _ _ => 0) stDrop
        (mkRat 3 5)).2.clusters,
      c'.cluster_id = wClusterV.cluster_id ∧
      ∀ g ∈ wClusterV.faces, g.verified = true → g ∈ c'.faces :=
  claim_C2_verified_pinning (fun _ _ => 0) stDrop (mkRat 3 5) (by decide)
    wClusterV (by decide) wV (by decide) (by decide)

/-- The best-anchor loop is the selection fold over the unconstrained
centroids. -/
lemma bestAnchor_eq_selFold (cosSim : List ℚ → List ℚ → ℚ)
    (centroids : List (String × List ℚ))
    (ncs : List (String × List String)) (face : FaceData) (t : ℚ) :
    bestAnchor cosSim centroids ncs face t =
      ((centroids.filter
        (fun p => decide (p.1 ∉ alGetD ncs face.face_id []))).foldl
        (selStep (fun p => p.1) (fun p => cosSim face.embedding p.2))
        (none, t)).1 := by
  unfold bestAnchor
  show (centroids.foldl (fun (acc : Option String × ℚ) p =>
    if p.1 ∈ alGetD ncs face.face_id [] then acc
    else if cosSim face.embedding p.2 > acc.2 then
      (some p.1, cosSim face.embedding p.2)
    else acc) (none, t)).1 = _
  have hstep : (fun (acc : Option String × ℚ) (p : String × List ℚ) =>
      if p.1 ∈ alGetD ncs face.face_id [] then acc
      else if cosSim face.embedding p.2 > acc.2 then
        (some p.1, cosSim face.embedding p.2)
      else acc) =
      fun (acc : Option String × ℚ) p =>
        if !(decide (p.1 ∉ alGetD ncs face.face_id [])) then acc
        else selStep (fun p => p.1) (fun p => cosSim face.embedding p.2)
          acc p := by
    funext acc p
    by_cases h : p.1 ∈ alGetD ncs face.face_id []
    · simp [h]
    · simp [h, selStep]
  rw [hstep, foldl_skip_filter]
  simp only [Bool.not_not]

/-- A successful best-anchor search returns an unconstrained centroid key. -/
lemma bestAnchor_some_facts (cosSim : List ℚ → List ℚ → ℚ)
    (centroids : List (String × List ℚ))
    (ncs : List (String × List String)) (face : FaceData) (t : ℚ)
    (cid : String) (h : bestAnchor cosSim centroids ncs face t = some cid) :
    cid ∉ alGetD ncs face.face_id [] ∧ ∃ v, (cid, v) ∈ centroids := by
  rw [bestAnchor_eq_selFold] at h
  rw [selFold_char] at h
  rcases h with ⟨h0, _⟩ | ⟨pre, p, post, heq, hcid, _, _, _⟩
  · cases h0
  · have hp : p ∈ centroids.filter
        (fun p => decide (p.1 ∉ alGetD ncs face.face_id [])) := by
      rw [heq]
      exact List.mem_append_right _ (List.mem_cons_self _ _)
    rw [List.mem_filter] at hp
    subst hcid
    exact ⟨of_decide_eq_true hp.2, p.2, hp.1⟩

/-- A successful re-homing search returns a non-excluded, unconstrained,
existing cluster id. -/
lemma find_best_some_facts (cosSim : List ℚ → List ℚ → ℚ)
    (clusters : List FaceCluster) (ncs : List (String × List String))
    (face : FaceData) (excl : List String) (t : ℚ) (cid : String)
    (h : find_best_cluster_for_face cosSim clusters ncs face excl t = some cid) :
    cid ∉ excl ∧ cid ∉ alGetD ncs face.face_id [] ∧
      ∃ c ∈ clusters, c.cluster_id = cid := by
  rw [find_best_eq_selFold] at h
  rw [selFold_char] at h
  rcases h with ⟨h0, _⟩ | ⟨pre, c, post, heq, hcid, _, _, _⟩
  · cases h0
  · have hc : c ∈ allowedCandidates clusters ncs face excl := by
      rw [heq]
      exact List.mem_append_right _ (List.mem_cons_self _ _)
    unfold allowedCandidates at hc
    rw [List.mem_filter] at hc
    obtain ⟨hmem, hprop⟩ := hc
    rw [Bool.and_assoc, Bool.and_eq_true, Bool.and_eq_true] at hprop
    subst hcid
    exact ⟨of_decide_eq_true hprop.1, of_decide_eq_true hprop.2.1,
      c, hmem, rfl⟩

/-- Every entry after an in-place update is an untouched entry or the updated
binding. -/
lemma mem_alModify {α : Type} (m : List (String × α)) (k : String) (f : α → α)
    (p : String × α) (hp : p ∈ alModify m k f) :
    p ∈ m ∨ ∃ v, (k, v) ∈ m ∧ p = (k, f v) := by
  induction m with
  | nil => cases hp
  | cons q m ih =>
    obtain ⟨a, b⟩ := q
    by_cases hq : a = k
    · rw [show alModify ((a, b) :: m) k f = (a, f b) :: m from by
        simp [alModify, hq]] at hp
      rcases List.mem_cons.mp hp with rfl | hp
      · exact Or.inr ⟨b, by rw [hq]; exact ⟨List.mem_cons_self _ _, rfl⟩⟩
      · exact Or.inl (List.mem_cons_of_mem _ hp)
    · rw [show alModify ((a, b) :: m) k f = (a, b) :: alModify m k f from by
        simp [alModify, hq]] at hp
      rcases List.mem_cons.mp hp with rfl | hp
      · exact Or.inl (List.mem_cons_self _ _)
      · rcases ih hp with h | ⟨v, hv, rfl⟩
        · exact Or.inl (List.mem_cons_of_mem _ h)
        · exact Or.inr ⟨v, List.mem_cons_of_mem _ hv, rfl⟩

/-- Every cluster after a first-match update is an untouched cluster or the
updated image of a matching cluster. -/
lemma mem_updateFirstCluster (l : List FaceCluster) (k : String)
    (F : FaceCluster → FaceCluster) (c' : FaceCluster)
    (hc' : c' ∈ updateFirstCluster l k F) :
    c' ∈ l ∨ ∃ c0, c0 ∈ l ∧ c0.cluster_id = k ∧ c' = F c0 := by
  induction l with
  | nil => cases hc'
  | cons c l ih =>
    unfold updateFirstCluster at hc'
    by_cases hck : c.cluster_id = k
    · rw [if_pos hck] at hc'
      rcases List.mem_cons.mp hc' with rfl | hc'
      · exact Or.inr ⟨c, List.mem_cons_self _ _, hck, rfl⟩
      · exact Or.inl (List.mem_cons_of_mem _ hc')
    · rw [if_neg hck] at hc'
      rcases List.mem_cons.mp hc' with rfl | hc'
      · exact Or.inl (List.mem_cons_self _ _)
      · rcases ih hc' with h | ⟨c0, h0, hk, rfl⟩
        · exact Or.inl (List.mem_cons_of_mem _ h)
        · exact Or.inr ⟨c0, List.mem_cons_of_mem _ h0, hk, rfl⟩

/-- With distinct ids and an id-preserving update, the only result cluster
carrying the updated id is the image of the unique matching cluster. -/
lemma updateFirstCluster_id_unique (l : List FaceCluster) (k : String)
    (F : FaceCluster → FaceCluster)
    (hnd : (l.map (fun c => c.cluster_id)).Nodup)
    (c' : FaceCluster) (hc' : c' ∈ updateFirstCluster l k F)
    (hid : c'.cluster_id = k) :
    ∃ c0, c0 ∈ l ∧ c0.cluster_id = k ∧ c' = F c0 := by
  induction l with
  | nil => cases hc'
  | cons c l ih =>
    rw [List.map_cons, List.nodup_cons] at hnd
    unfold updateFirstCluster at hc'
    by_cases hck : c.cluster_id = k
    · rw [if_pos hck] at hc'
      rcases List.mem_cons.mp hc' with rfl | hc'
      · exact ⟨c, List.mem_cons_self _ _, hck, rfl⟩
      · exact absurd (List.mem_map.mpr ⟨c', hc', hid.trans hck.symm⟩) hnd.1
    · rw [if_neg hck] at hc'
      rcases List.mem_cons.mp hc' with rfl | hc'
      · exact absurd hid hck
      · obtain ⟨c0, h0, hk, heq⟩ := ih hnd.2 hc'
        exact ⟨c0, List.mem_cons_of_mem _ h0, hk, heq⟩

/-- Every bucket member produced by step 1 is verified. -/
lemma reclusterPartition_buckets_verified (clusters : List FaceCluster) :
    ∀ p ∈ (reclusterPartition clusters).1, ∀ g ∈ p.2, g.verified = true := by
  unfold reclusterPartition
  suffices h : ∀ (cs : List FaceCluster)
      (m : List (String × List FaceData)) (u : List (FaceData × String)),
      (∀ p ∈ m, ∀ g ∈ p.2, g.verified = true) →
      ∀ p ∈ (cs.foldl (fun acc c =>
        c.faces.foldl (fun a f =>
          if f.verified then (alModify a.1 c.cluster_id (fun l => l ++ [f]), a.2)
          else (a.1, a.2 ++ [(f, c.cluster_id)]))
          (alInsert acc.1 c.cluster_id [], acc.2)) (m, u)).1,
        ∀ g ∈ p.2, g.verified = true by
    exact h clusters [] [] (fun p hp => absurd hp (List.not_mem_nil p))
  intro cs
  induction cs with
  | nil =>
    intro m u hm
    exact hm
  | cons c cs ih =>
    intro m u hm
    simp only [List.foldl_cons]
    rw [reclusterPartition_inner]
    refine ih _ _ ?_
    intro p hp g hg
    rcases mem_alModify _ _ _ _ hp with hp | ⟨v, hv, rfl⟩
    · rcases mem_alInsert _ _ _ _ hp with hp | rfl
      · exact hm p hp g hg
      · cases hg
    · rcases List.mem_append.mp hg with hg | hg
      · rcases mem_alInsert _ _ _ _ hv with hv | heq
        · exact hm _ hv g hg
        · rw [(Prod.mk.injEq _ _ _ _).mp heq |>.2] at hg
          cases hg
      · exact (List.mem_filter.mp hg).2

/-- Every seed entry is keyed by a cluster's id and holds that cluster
reduced to its (verified) bucket. -/
lemma seedClusters_mem (clusters : List FaceCluster)
    (buckets : List (String × List FaceData))
    (centroids : List (String × List ℚ)) (p : String × FaceCluster)
    (hp : p ∈ seedClusters clusters buckets centroids) :
    ∃ c ∈ clusters, p = (c.cluster_id,
      ⟨c.cluster_id, c.name, alGetD buckets c.cluster_id []⟩) := by
  unfold seedClusters at hp
  suffices h : ∀ (cs : List FaceCluster) (m : List (String × FaceCluster)),
      (∀ q ∈ m, ∃ c ∈ clusters, q = (c.cluster_id,
        ⟨c.cluster_id, c.name, alGetD buckets c.cluster_id []⟩)) →
      (∀ c ∈ cs, c ∈ clusters) →
      ∀ q ∈ cs.foldl (fun m c =>
        if (alGet centroids c.cluster_id).isSome then
          alInsert m c.cluster_id
            { cluster_id := c.cluster_id, name := c.name,
              faces := alGetD buckets c.cluster_id [] }
          else m) m,
        ∃ c ∈ clusters, q = (c.cluster_id,
          ⟨c.cluster_id, c.name, alGetD buckets c.cluster_id []⟩) by
    exact h clusters []
      (fun q hq => absurd hq (List.not_mem_nil q)) (fun c hc => hc) p hp
  intro cs
  induction cs with
  | nil =>
    intro m hm _
    exact hm
  | cons c cs ih =>
    intro m hm hsub
    rw [List.foldl_cons]
    by_cases hs : (alGet centroids c.cluster_id).isSome
    · rw [if_pos hs]
      refine ih _ ?_ (fun c' hc' => hsub c' (List.mem_cons_of_mem _ hc'))
      intro q hq
      rcases mem_alInsert _ _ _ _ hq with hq | rfl
      · exact hm q hq
      · exact ⟨c, hsub c (List.mem_cons_self _ _), rfl⟩
    · rw [if_neg hs]
      exact ih _ hm (fun c' hc' => hsub c' (List.mem_cons_of_mem _ hc'))

/-- The routing invariant carried by the working `new_clusters` dict during
steps 3-5 of the re-clustering pass: every binding keys a cluster by its own
id, and every member is either verified (seeded from the original cluster) or
was placed by a best-anchor search that returned this cluster's id. -/
def routedInv (cosSim : List ℚ → List ℚ → ℚ)
    (centroids : List (String × List ℚ))
    (ncs : List (String × List String)) (t : ℚ)
    (m : List (String × FaceCluster)) : Prop :=
  ∀ p ∈ m, p.2.cluster_id = p.1 ∧ ∀ g ∈ p.2.faces,
    g.verified = true ∨ bestAnchor cosSim centroids ncs g t = some p.1

/-- The seed dict satisfies the routing invariant: every seeded member comes
from a verified bucket. -/
lemma seedClusters_routedInv (cosSim : List ℚ → List ℚ → ℚ)
    (centroids : List (String × List ℚ))
    (ncs : List (String × List String)) (t : ℚ)
    (clusters : List FaceCluster) :
    routedInv cosSim centroids ncs t
      (seedClusters clusters (reclusterPartition clusters).1 centroids) := by
  intro p hp
  obtain ⟨c, hc, rfl⟩ := seedClusters_mem _ _ _ _ hp
  refine ⟨rfl, ?_⟩
  intro g hg
  left
  have hg' : g ∈ alGetD (reclusterPartition clusters).1 c.cluster_id [] := hg
  unfold alGetD at hg'
  cases hget : alGet (reclusterPartition clusters).1 c.cluster_id with
  | none =>
    rw [hget] at hg'
    cases hg'
  | some v =>
    rw [hget] at hg'
    exact reclusterPartition_buckets_verified clusters _
      (alGet_mem _ _ _ hget) g hg'

/-- Step 4 preserves the routing invariant: every face it appends was routed
by a successful best-anchor search to exactly the key it is appended under. -/
lemma assignUnverified_routedInv (cosSim : List ℚ → List ℚ → ℚ)
    (centroids : List (String × List ℚ))
    (ncs : List (String × List String)) (t : ℚ)
    (unverified : List (FaceData × String)) (m0 : List (String × FaceCluster))
    (orphans0 : List FaceData) (h : routedInv cosSim centroids ncs t m0) :
    routedInv cosSim centroids ncs t
      (assignUnverified cosSim centroids ncs t unverified m0 orphans0).1 := by
  unfold assignUnverified
  suffices hs : ∀ (acc : List (String × FaceCluster) × List FaceData × Nat),
      routedInv cosSim centroids ncs t acc.1 →
      routedInv cosSim centroids ncs t ((unverified.foldl (fun acc p =>
        match bestAnchor cosSim centroids ncs p.1 t with
        | some best =>
          (alModify acc.1 best (fun c => { c with faces := c.faces ++ [p.1] }),
           acc.2.1, acc.2.2 + (if best ≠ p.2 then 1 else 0))
        | none =>
          (acc.1, if p.1 ∈ acc.2.1 then acc.2.1 else acc.2.1 ++ [p.1], acc.2.2))
        acc).1) by
    exact hs (m0, orphans0, 0) h
  induction unverified with
  | nil =>
    intro acc hacc
    rw [List.foldl_nil]
    exact hacc
  | cons p ps ih =>
    intro acc hacc
    rw [List.foldl_cons]
    cases hba : bestAnchor cosSim centroids ncs p.1 t with
    | some best =>
      refine ih (alModify acc.1 best
          (fun c => { c with faces := c.faces ++ [p.1] }),
        acc.2.1, acc.2.2 + (if best ≠ p.2 then 1 else 0)) ?_
      intro q hq
      rcases mem_alModify _ _ _ _ hq with hq | ⟨v, hv, rfl⟩
      · exact hacc q hq
      · obtain ⟨hid, hfaces⟩ := hacc (best, v) hv
        refine ⟨hid, ?_⟩
        intro g hg
        rcases List.mem_append.mp hg with hg | hg
        · exact hfaces g hg
        · rcases List.mem_singleton.mp hg with rfl
          right
          rw [hba]
    | none =>
      exact ih (acc.1,
        if p.1 ∈ acc.2.1 then acc.2.1 else acc.2.1 ++ [p.1], acc.2.2) hacc

/-- Step 5 preserves the routing invariant for the same reason. -/
lemma placeOrphans_routedInv (cosSim : List ℚ → List ℚ → ℚ)
    (centroids : List (String × List ℚ))
    (ncs : List (String × List String)) (t : ℚ)
    (orphans : List FaceData) (m0 : List (String × FaceCluster))
    (h : routedInv cosSim centroids ncs t m0) :
    routedInv cosSim centroids ncs t
      (placeOrphans cosSim centroids ncs t orphans m0).1 := by
  unfold placeOrphans
  suffices hs : ∀ (acc : List (String × FaceCluster) × List FaceData),
      routedInv cosSim centroids ncs t acc.1 →
      routedInv cosSim centroids ncs t ((orphans.foldl (fun acc f =>
        match bestAnchor cosSim centroids ncs f t with
        | some best =>
          (alModify acc.1 best (fun c => { c with faces := c.faces ++ [f] }),
           acc.2 ++ [f])
        | none => acc) acc).1) by
    exact hs (m0, []) h
  induction orphans with
  | nil =>
    intro acc hacc
    rw [List.foldl_nil]
    exact hacc
  | cons f fs ih =>
    intro acc hacc
    rw [List.foldl_cons]
    cases hba : bestAnchor cosSim centroids ncs f t with
    | some best =>
      refine ih (alModify acc.1 best
          (fun c => { c with faces := c.faces ++ [f] }), acc.2 ++ [f]) ?_
      intro q hq
      rcases mem_alModify _ _ _ _ hq with hq | ⟨v, hv, rfl⟩
      · exact hacc q hq
      · obtain ⟨hid, hfaces⟩ := hacc (best, v) hv
        refine ⟨hid, ?_⟩
        intro g hg
        rcases List.mem_append.mp hg with hg | hg
        · exact hfaces g hg
        · rcases List.mem_singleton.mp hg with rfl
          right
          rw [hba]
    | none =>
      exact ih acc hacc

/-- On the successful branch of the re-clustering pass, every member of every
result cluster is verified or was routed there by the best-anchor search. -/
lemma recluster_clusters_routed (cosSim : List ℚ → List ℚ → ℚ)
    (st : ServiceState) (t : ℚ)
    (h1 : ¬ st.clusters = [])
    (h2 : ¬ verifiedCentroids (reclusterPartition st.clusters).1 = []) :
    ∀ c' ∈ (recluster_with_constraints cosSim st t).2.clusters,
      ∀ g ∈ c'.faces, g.verified = true ∨
        bestAnchor cosSim (verifiedCentroids (reclusterPartition st.clusters).1)
          st.negative_constraints g t = some c'.cluster_id := by
  intro c' hc' g hg
  unfold recluster_with_constraints at hc'
  rw [if_neg h1] at hc'
  simp only [] at hc'
  rw [if_neg h2] at hc'
  rw [mem_sortByCountDesc] at hc'
  rcases List.mem_filter.mp hc' with ⟨hmem, _⟩
  rcases List.mem_map.mp hmem with ⟨p, hp, rfl⟩
  have hinv := placeOrphans_routedInv cosSim
    (verifiedCentroids (reclusterPartition st.clusters).1)
    st.negative_constraints t
    (assignUnverified cosSim (verifiedCentroids (reclusterPartition st.clusters).1)
      st.negative_constraints t (reclusterPartition st.clusters).2
      (seedClusters st.clusters (reclusterPartition st.clusters).1
        (verifiedCentroids (reclusterPartition st.clusters).1))
      st.orphaned_faces).2.1
    (assignUnverified cosSim (verifiedCentroids (reclusterPartition st.clusters).1)
      st.negative_constraints t (reclusterPartition st.clusters).2
      (seedClusters st.clusters (reclusterPartition st.clusters).1
        (verifiedCentroids (reclusterPartition st.clusters).1))
      st.orphaned_faces).1
    (assignUnverified_routedInv cosSim
      (verifiedCentroids (reclusterPartition st.clusters).1)
      st.negative_constraints t (reclusterPartition st.clusters).2
      (seedClusters st.clusters (reclusterPartition st.clusters).1
        (verifiedCentroids (reclusterPartition st.clusters).1))
      st.orphaned_faces
      (seedClusters_routedInv cosSim
        (verifiedCentroids (reclusterPartition st.clusters).1)
        st.negative_constraints t st.clusters))
  obtain ⟨hid, hfaces⟩ := hinv p hp
  rcases hfaces g hg with hv | hbest
  · exact Or.inl hv
  · exact Or.inr (hid ▸ hbest)

/-- C1 (amended): the constraint-respecting operations are the re-clustering
pass and the rejection re-homing.  (a) On the successful branch of
`recluster_with_constraints`, no unverified face ends up in a cluster listed
in its negative-constraint set — every unverified placement goes through the
best-anchor search, which skips constrained ids.  (b) When a rejection
re-homes a face, the new home is never the origin cluster and never a cluster
in the face's (updated) constraint set.  The claim's universal form over all
engine operations is false: `merge_clusters` and `cluster_faces` never
consult the constraint store (see the counterexample). -/
theorem claim_C1_constraint_respect (cosSim : List ℚ → List ℚ → ℚ)
    (st : ServiceState) (t : ℚ) :
    (∀ fm op orr cb ca,
      (recluster_with_constraints cosSim st t).1 =
        ReclusterResult.ok fm op orr cb ca →
      ∀ c' ∈ (recluster_with_constraints cosSim st t).2.clusters,
        ∀ g ∈ c'.faces, g.verified = false →
          c'.cluster_id ∉ alGetD st.negative_constraints g.face_id []) ∧
    (∀ fid cid a b ce nid orph,
      (verify_face cosSim st fid cid false).1 =
        VerifyResult.rejected a b ce (some nid) orph →
      nid ≠ cid ∧
        nid ∉ alGetD
          (verify_face cosSim st fid cid false).2.negative_constraints fid []) := by
  constructor
  · intro fm op orr cb ca hok c' hc' g hg hunv
    by_cases h1 : st.clusters = []
    · exfalso
      unfold recluster_with_constraints at hok
      rw [if_pos h1] at hok
      exact absurd hok (by simp)
    by_cases h2 : verifiedCentroids (reclusterPartition st.clusters).1 = []
    · exfalso
      unfold recluster_with_constraints at hok
      rw [if_neg h1] at hok
      simp only [] at hok
      rw [if_pos h2] at hok
      exact absurd hok (by simp)
    rcases recluster_clusters_routed cosSim st t h1 h2 c' hc' g hg with hv | hbest
    · rw [hunv] at hv
      cases hv
    · exact (bestAnchor_some_facts cosSim _ _ _ _ _ hbest).1
  · intro fid cid a b ce nid orph hr
    unfold verify_face at hr ⊢
    simp only [] at hr ⊢
    cases hc1 : (ensureClusters cosSim st).clusters.find?
        (fun c => c.cluster_id = cid) with
    | none =>
      rw [hc1] at hr
      exact absurd hr (by simp)
    | some cluster =>
      simp only [hc1] at hr ⊢
      cases hc2 : cluster.faces.find? (fun f => f.face_id = fid) with
      | none =>
        simp only [hc2] at hr
        exact absurd hr (by simp)
      | some face =>
        simp only [hc2] at hr ⊢
        simp only [Bool.false_eq_true, if_false] at hr ⊢
        cases hb : find_best_cluster_for_face cosSim
            (removeFaceFromCluster (ensureClusters cosSim st).clusters fid cid)
            (rejectNcs (ensureClusters cosSim st).negative_constraints fid cid)
            face [cid] (mkRat 3 5) with
        | some nid' =>
          try simp only [hb] at hr
          try simp only [hc1, hc2, hb]
          injection hr with h1 h2 h3 h4 h5
          injection h4 with h4
          subst h4
          obtain ⟨hex, hcon, _⟩ := find_best_some_facts cosSim _ _ _ _ _ _ hb
          have hfid0 := List.find?_some hc2
          have hfid : face.face_id = fid := of_decide_eq_true hfid0
          rw [hfid] at hcon
          refine ⟨fun he => hex (List.mem_singleton.mpr he), ?_⟩
          by_cases hcemp :
              (cluster.faces.filter (fun f => f.face_id ≠ fid)).isEmpty = true
          · rw [if_pos hcemp]
            exact hcon
          · rw [if_neg hcemp]
            exact hcon
        | none =>
          try simp only [hb] at hr
          injection hr with h1 h2 h3 h4 h5
          cases h4

/-- Fixtures for C1: a state with a face constrained against cluster "T",
which a merge nevertheless moves into "T"; a two-anchor state whose
constrained unverified face is re-routed to the allowed anchor; a state whose
rejected face is re-homed away from its origin. -/
def stMergeC1 : ServiceState :=
  ⟨[], [⟨"S", "S", [⟨"a", [1], false⟩]⟩, ⟨"T", "T", [⟨"b", [2], false⟩]⟩],
   [], [("a", ["T"])], []⟩

/-- Constrained unverified face `fu` with two verified anchors. -/
def stRouteC1 : ServiceState :=
  ⟨[], [⟨"W", "W", [⟨"va", [10], true⟩]⟩,
        ⟨"X", "X", [⟨"vb", [11], true⟩, ⟨"fu", [2], false⟩]⟩],
   [], [("fu", ["X"])], []⟩

/-- Similarity kernel for the routing fixture: the probe `[2]` matches every
centroid perfectly, everything else matches nothing. -/
def wCosRoute : List ℚ → List ℚ → ℚ := fun u _ => if u = [2] then 1 else 0

/-- Rejection fixture: cluster "C1" holds the face to reject, "C2" a verified
alternative home. -/
def stHomeC1 : ServiceState :=
  ⟨[], [⟨"C1", "C1", [⟨"p", [3], false⟩]⟩, ⟨"C2", "C2", [⟨"q", [4], true⟩]⟩],
   [], [], []⟩

/-- Similarity kernel for the rejection fixture. -/
def wCosHome : List ℚ → List ℚ → ℚ := fun u _ => if u = [3] then 1 else 0

/-- Counterexample to C1 as stated: merging "S" into "T" moves face "a" into
cluster "T" even though "T" is recorded in "a"'s constraint set —
`merge_clusters` never consults `negative_constraints`. -/
theorem claim_C1_counterexample :
    ∃ c' ∈ (merge_clusters (fun _ _ => 0) stMergeC1 "S" "T").2.clusters,
      ∃ g ∈ c'.faces,
        c'.cluster_id ∈ alGetD stMergeC1.negative_constraints g.face_id [] := by
  decide

/-- Witness for C1 (amended): (a) a successful re-clustering routes the
constrained unverified face "fu" into the allowed anchor "W", not into the
forbidden "X"; (b) rejecting face "p" from "C1" re-homes it to "C2", which is
neither the origin nor constrained. -/
theorem claim_C1_witness :
    ((⟨"W", "W", [⟨"va", [10], true⟩, ⟨"fu", [2], false⟩]⟩ : FaceCluster) ∈
        (recluster_with_constraints wCosRoute stRouteC1 (mkRat 1 2)).2.clusters ∧
      "W" ∉ alGetD stRouteC1.negative_constraints "fu" []) ∧
    ((verify_face wCosHome stHomeC1 "p" "C1" false).1 =
        VerifyResult.rejected "p" "C1" true (some "C2") false ∧
      "C2" ≠ "C1" ∧
        "C2" ∉ alGetD
          (verify_face wCosHome stHomeC1 "p" "C1" false).2.negative_constraints
          "p" []) := by
  refine ⟨⟨by decide, ?_⟩, by decide, ?_⟩
  · exact (claim_C1_constraint_respect wCosRoute stRouteC1 (mkRat 1 2)).1
      1 0 0 2 2 (by decide)
      ⟨"W", "W", [⟨"va", [10], true⟩, ⟨"fu", [2], false⟩]⟩ (by decide)
      ⟨"fu", [2], false⟩ (by decide) rfl
  · exact (claim_C1_constraint_respect wCosHome stHomeC1 (mkRat 1 2)).2
      "p" "C1" "p" "C1" true "C2" false (by decide)

/-- Total member count of a cluster list, `Σ(cluster sizes)`. -/
def clusterSizes (l : List FaceCluster) : Nat :=
  (l.map (fun c => c.faces.length)).sum

/-- Total member count over a `new_clusters` dict. -/
def clSum (m : List (String × FaceCluster)) : Nat :=
  (m.map (fun p => p.2.faces.length)).sum

/-- Sums of pointwise sums split. -/
lemma sum_map_add {α : Type} (l : List α) (f g : α → Nat) :
    (l.map (fun x => f x + g x)).sum = (l.map f).sum + (l.map g).sum := by
  induction l with
  | nil => rfl
  | cons x xs ih =>
    simp only [List.map_cons, List.sum_cons, ih]
    omega

/-- A filter and its complement split the length. -/
lemma length_filter_partition {α : Type} (l : List α) (p : α → Bool) :
    (l.filter p).length + (l.filter (fun x => !(p x))).length = l.length := by
  induction l with
  | nil => rfl
  | cons x xs ih =>
    cases hx : p x
    · rw [List.filter_cons_of_neg (by simp [hx]),
        List.filter_cons_of_pos (by simp [hx])]
      simp only [List.length_cons]
      omega
    · rw [List.filter_cons_of_pos (by simp [hx]),
        List.filter_cons_of_neg (by simp [hx])]
      simp only [List.length_cons]
      omega

/-- A filter and its complement split any mapped sum. -/
lemma sum_map_filter_partition {α : Type} (l : List α) (p : α → Bool)
    (g : α → Nat) :
    ((l.filter p).map g).sum + ((l.filter (fun x => !(p x))).map g).sum =
      (l.map g).sum := by
  induction l with
  | nil => rfl
  | cons x xs ih =>
    cases hx : p x
    · rw [List.filter_cons_of_neg (by simp [hx]),
        List.filter_cons_of_pos (by simp [hx])]
      simp only [List.map_cons, List.sum_cons]
      omega
    · rw [List.filter_cons_of_pos (by simp [hx]),
        List.filter_cons_of_neg (by simp [hx])]
      simp only [List.map_cons, List.sum_cons]
      omega

/-- An indicator summed over a list missing the point vanishes. -/
lemma sum_indicator_zero (K : List Nat) (a : Nat) (ha : a ∉ K) :
    (K.map (fun k => if a = k then 1 else 0)).sum = 0 := by
  induction K with
  | nil => rfl
  | cons k ks ih =>
    simp only [List.map_cons, List.sum_cons]
    rw [if_neg (fun h : a = k => ha (by rw [h]; exact List.mem_cons_self _ _)),
      ih (fun h => ha (List.mem_cons_of_mem _ h))]

/-- An indicator summed over a duplicate-free list containing the point is
one. -/
lemma sum_indicator_one (K : List Nat) (a : Nat) (hnd : K.Nodup)
    (ha : a ∈ K) : (K.map (fun k => if a = k then 1 else 0)).sum = 1 := by
  induction K with
  | nil => cases ha
  | cons k ks ih =>
    rw [List.nodup_cons] at hnd
    simp only [List.map_cons, List.sum_cons]
    rcases List.mem_cons.mp ha with rfl | ha
    · rw [if_pos rfl, sum_indicator_zero ks a hnd.1]
    · rw [if_neg (fun h : a = k => hnd.1 (by rw [← h]; exact ha)), ih hnd.2 ha]

/-- Grouping a list by key over a duplicate-free covering key list partitions
it: the group sizes sum to the list's length. -/
lemma sum_filter_partition {α : Type} (K : List Nat) (f : α → Nat)
    (l : List α) (hK : K.Nodup) (hcov : ∀ x ∈ l, f x ∈ K) :
    (K.map (fun k => (l.filter (fun x => f x = k)).length)).sum = l.length := by
  induction l with
  | nil => simp
  | cons x xs ih =>
    have hstep : ∀ k : Nat, ((x :: xs).filter (fun y => f y = k)).length =
        (if f x = k then 1 else 0) + (xs.filter (fun y => f y = k)).length := by
      intro k
      by_cases hx : f x = k
      · rw [List.filter_cons_of_pos (by simp [hx]), if_pos hx]
        simp only [List.length_cons]
        omega
      · rw [List.filter_cons_of_neg (by simp [hx]), if_neg hx]
        omega
    rw [List.map_congr_left (fun k _ => hstep k), sum_map_add,
      sum_indicator_one K (f x) hK (hcov x (List.mem_cons_self _ _)),
      ih (fun y hy => hcov y (List.mem_cons_of_mem _ hy))]
    simp [Nat.add_comm]

/-- The dict-key extraction keeps keys duplicate-free. -/
lemma firstOccurrences_nodup (l : List Nat) : (firstOccurrences l).Nodup := by
  unfold firstOccurrences
  suffices h : ∀ (acc : List Nat), acc.Nodup →
      (l.foldl (fun acc x => if x ∈ acc then acc else acc ++ [x]) acc).Nodup by
    exact h [] List.nodup_nil
  induction l with
  | nil =>
    intro acc hacc
    exact hacc
  | cons x xs ih =>
    intro acc hacc
    rw [List.foldl_cons]
    by_cases hx : x ∈ acc
    · rw [if_pos hx]
      exact ih acc hacc
    · rw [if_neg hx]
      exact ih (acc ++ [x]) (by simp [List.nodup_append, hacc, hx])

/-- The size-descending sort does not change the total member count. -/
lemma clusterSizes_sortByCountDesc (l : List FaceCluster) :
    clusterSizes (sortByCountDesc l) = clusterSizes l := by
  unfold clusterSizes
  exact ((sortByCountDesc_perm l).map (fun c => c.faces.length)).sum_eq

/-- Dropping empty clusters does not change the total member count. -/
lemma clusterSizes_filter_nonempty (l : List FaceCluster) :
    clusterSizes (l.filter (fun c => ¬ c.faces.isEmpty)) = clusterSizes l := by
  unfold clusterSizes
  induction l with
  | nil => rfl
  | cons c cs ih =>
    by_cases hc : c.faces.isEmpty = true
    · rw [List.filter_cons_of_neg (by simp [hc])]
      rw [List.map_cons, List.sum_cons, List.isEmpty_iff.mp hc]
      simp only [List.length_nil, Nat.zero_add]
      exact ih
    · rw [List.filter_cons_of_pos (by simp [hc])]
      simp only [List.map_cons, List.sum_cons]
      omega

/-- The initial clustering covers every entity exactly once: the cluster
sizes sum to the total entity count (the orphan list is not consulted). -/
lemma cluster_faces_sizes (cosSim : List ℚ → List ℚ → ℚ)
    (faces : List FaceData) (custom_names : List (String × String)) (t : ℚ) :
    clusterSizes (cluster_faces cosSim faces custom_names t) = faces.length := by
  unfold cluster_faces
  simp only []
  rw [clusterSizes_sortByCountDesc]
  unfold clusterSizes
  rw [List.map_map]
  have hlen : ((clusterIndexGroups cosSim faces t).enum.map
      ((fun c => c.faces.length) ∘ (fun p : Nat × List Nat =>
        ({ cluster_id := "cluster_" ++
            ((p.2.map (fun i => faces.getD i dummyFace)).headD dummyFace).face_id,
           name := alGetD custom_names
            ("cluster_" ++
              ((p.2.map (fun i => faces.getD i dummyFace)).headD dummyFace).face_id)
            ("Person " ++ toString (p.1 + 1)),
           faces := p.2.map (fun i => faces.getD i dummyFace) } : FaceCluster)))) =
      (clusterIndexGroups cosSim faces t).enum.map (fun p => p.2.length) := by
    refine List.map_congr_left ?_
    intro p _
    simp [Function.comp]
  rw [hlen]
  have henum : (clusterIndexGroups cosSim faces t).enum.map (fun p => p.2.length) =
      (clusterIndexGroups cosSim faces t).map (fun g => g.length) := by
    rw [show (fun p : Nat × List Nat => p.2.length) =
      (fun g : List Nat => g.length) ∘ Prod.snd from rfl]
    rw [← List.map_map, List.enum_map_snd]
  rw [henum]
  unfold clusterIndexGroups
  simp only []
  rw [List.map_map]
  have hpart := sum_filter_partition
    (firstOccurrences ((List.range faces.length).map (clusterRoot cosSim faces t)))
    (clusterRoot cosSim faces t) (List.range faces.length)
    (firstOccurrences_nodup _)
    (fun x hx => (mem_firstOccurrences _ _).mpr (List.mem_map.mpr ⟨x, hx, rfl⟩))
  rw [List.length_range] at hpart
  exact hpart

/-- Updating the first cluster matching a found id trades its old size for
the new one in the total. -/
lemma clusterSizes_updateFirstCluster_found (l : List FaceCluster)
    (cid : String) (F : FaceCluster → FaceCluster) (cluster : FaceCluster)
    (hf : l.find? (fun c => c.cluster_id = cid) = some cluster) :
    clusterSizes (updateFirstCluster l cid F) + cluster.faces.length =
      clusterSizes l + (F cluster).faces.length := by
  induction l with
  | nil => cases hf
  | cons c cs ih =>
    by_cases hc : c.cluster_id = cid
    · rw [List.find?_cons_of_pos _ (by simp [hc])] at hf
      injection hf with hf
      subst hf
      unfold updateFirstCluster
      rw [if_pos hc]
      unfold clusterSizes
      simp only [List.map_cons, List.sum_cons]
      omega
    · rw [List.find?_cons_of_neg _ (by simp [hc])] at hf
      unfold updateFirstCluster
      rw [if_neg hc]
      have := ih hf
      unfold clusterSizes at this ⊢
      simp only [List.map_cons, List.sum_cons]
      omega

/-- An id-preserving first-match update commutes with filtering on a
different id. -/
lemma filter_updateFirstCluster_other (l : List FaceCluster)
    (tid sid : String) (F : FaceCluster → FaceCluster)
    (hFid : ∀ c, (F c).cluster_id = c.cluster_id) (hne : tid ≠ sid) :
    (updateFirstCluster l tid F).filter (fun c => c.cluster_id = sid) =
      l.filter (fun c => c.cluster_id = sid) := by
  induction l with
  | nil => rfl
  | cons c cs ih =>
    unfold updateFirstCluster
    by_cases hc : c.cluster_id = tid
    · rw [if_pos hc]
      rw [List.filter_cons_of_neg (by simp [hFid c, hc, hne]),
        List.filter_cons_of_neg (by
          simp only [decide_eq_true_eq, hc]
          exact hne)]
    · rw [if_neg hc]
      by_cases hcs : c.cluster_id = sid
      · rw [List.filter_cons_of_pos (by simp [hcs]),
          List.filter_cons_of_pos (by simp [hcs]), ih]
      · rw [List.filter_cons_of_neg (by simp [hcs]),
          List.filter_cons_of_neg (by simp [hcs]), ih]

/-- Under distinct ids the clusters matching a found id are exactly the found
one. -/
lemma filter_id_eq_of_find? (l : List FaceCluster) (sid : String)
    (src : FaceCluster)
    (hnd : (l.map (fun c => c.cluster_id)).Nodup)
    (hf : l.find? (fun c => c.cluster_id = sid) = some src) :
    l.filter (fun c => c.cluster_id = sid) = [src] := by
  induction l with
  | nil => cases hf
  | cons c cs ih =>
    rw [List.map_cons, List.nodup_cons] at hnd
    by_cases hc : c.cluster_id = sid
    · rw [List.find?_cons_of_pos _ (by simp [hc])] at hf
      injection hf with hf
      subst hf
      rw [List.filter_cons_of_pos (by simp [hc])]
      have hnone : cs.filter (fun c' => c'.cluster_id = sid) = [] := by
        rw [List.filter_eq_nil_iff]
        intro c' hc' hdec
        exact hnd.1 (List.mem_map.mpr
          ⟨c', hc', (of_decide_eq_true hdec).trans hc.symm⟩)
      rw [hnone]
    · rw [List.find?_cons_of_neg _ (by simp [hc])] at hf
      rw [List.filter_cons_of_neg (by simp [hc])]
      exact ih hnd.2 hf

/-- Splitting a cluster list on an id splits the total member count. -/
lemma clusterSizes_filter_split (l : List FaceCluster) (sid : String) :
    clusterSizes (l.filter (fun c => c.cluster_id ≠ sid)) +
      clusterSizes (l.filter (fun c => c.cluster_id = sid)) =
      clusterSizes l := by
  unfold clusterSizes
  have hcongr : l.filter (fun c => c.cluster_id ≠ sid) =
      l.filter (fun c => !(decide (c.cluster_id = sid))) := by
    refine List.filter_congr ?_
    intro c _
    simp
  rw [hcongr, Nat.add_comm]
  exact sum_map_filter_partition l (fun c => c.cluster_id = sid)
    (fun c => c.faces.length)

/-- A merge conserves the entity count: the target gains exactly the members
of the dropped source, and the orphan list is untouched (this covers the
error branches trivially, since they leave the state unchanged). -/
lemma merge_conservation (cosSim : List ℚ → List ℚ → ℚ) (st : ServiceState)
    (sid tid : String)
    (hnd : ((ensureClusters cosSim st).clusters.map
      (fun c => c.cluster_id)).Nodup) :
    clusterSizes (merge_clusters cosSim st sid tid).2.clusters +
      (merge_clusters cosSim st sid tid).2.orphaned_faces.length =
      clusterSizes (ensureClusters cosSim st).clusters +
        (ensureClusters cosSim st).orphaned_faces.length := by
  unfold merge_clusters
  simp only []
  cases hs : (ensureClusters cosSim st).clusters.find?
      (fun c => c.cluster_id = sid) with
  | none => rfl
  | some source =>
    simp only [hs]
    cases ht : (ensureClusters cosSim st).clusters.find?
        (fun c => c.cluster_id = tid) with
    | none => rfl
    | some target =>
      simp only [ht]
      by_cases heq : sid = tid
      · rw [if_pos heq]
      · rw [if_neg heq]
        have hA := clusterSizes_updateFirstCluster_found
          (ensureClusters cosSim st).clusters tid
          (fun c => { c with faces := c.faces ++ source.faces }) target ht
        have hsplit := clusterSizes_filter_split
          (updateFirstCluster (ensureClusters cosSim st).clusters tid
            (fun c => { c with faces := c.faces ++ source.faces })) sid
        have hcomm := filter_updateFirstCluster_other
          (ensureClusters cosSim st).clusters tid sid
          (fun c => { c with faces := c.faces ++ source.faces })
          (fun c => rfl) (fun h => heq h.symm)
        have hone := filter_id_eq_of_find? (ensureClusters cosSim st).clusters
          sid source hnd hs
        rw [hcomm, hone] at hsplit
        show clusterSizes ((updateFirstCluster (ensureClusters cosSim st).clusters
            tid (fun c => { c with faces := c.faces ++ source.faces })).filter
            (fun c => c.cluster_id ≠ sid)) +
          (ensureClusters cosSim st).orphaned_faces.length = _
        unfold clusterSizes at hA hsplit ⊢
        simp only [List.map_cons, List.sum_cons, List.map_nil, List.sum_nil,
          List.length_append] at hA hsplit ⊢
        omega

/-- An id-preserving first-match update keeps the id sequence. -/
lemma updateFirstCluster_map_id (l : List FaceCluster) (k : String)
    (F : FaceCluster → FaceCluster)
    (hFid : ∀ c, (F c).cluster_id = c.cluster_id) :
    (updateFirstCluster l k F).map (fun c => c.cluster_id) =
      l.map (fun c => c.cluster_id) := by
  induction l with
  | nil => rfl
  | cons c cs ih =>
    unfold updateFirstCluster
    by_cases hc : c.cluster_id = k
    · rw [if_pos hc]
      simp only [List.map_cons, hFid c]
    · rw [if_neg hc]
      simp only [List.map_cons, ih]

/-- An id-preserving first-match update is found where its target was. -/
lemma find?_updateFirstCluster_self (l : List FaceCluster) (k : String)
    (F : FaceCluster → FaceCluster) (cluster : FaceCluster)
    (hFid : ∀ c, (F c).cluster_id = c.cluster_id)
    (hf : l.find? (fun c => c.cluster_id = k) = some cluster) :
    (updateFirstCluster l k F).find? (fun c => c.cluster_id = k) =
      some (F cluster) := by
  induction l with
  | nil => cases hf
  | cons c cs ih =>
    unfold updateFirstCluster
    by_cases hc : c.cluster_id = k
    · rw [List.find?_cons_of_pos _ (by simp [hc])] at hf
      injection hf with hf
      subst hf
      rw [if_pos hc]
      rw [List.find?_cons_of_pos _ (by simp [hFid c, hc])]
    · rw [List.find?_cons_of_neg _ (by simp [hc])] at hf
      rw [if_neg hc]
      rw [List.find?_cons_of_neg _ (by simp [hc])]
      exact ih hf

/-- Removing one face's id from a cluster whose members carry distinct ids
removes exactly one member. -/
lemma length_filter_ne_of_nodup (faces : List FaceData) (fid : String)
    (hnd : (faces.map (fun f => f.face_id)).Nodup) (face : FaceData)
    (hmem : face ∈ faces) (hfid : face.face_id = fid) :
    (faces.filter (fun f => f.face_id ≠ fid)).length + 1 = faces.length := by
  induction faces with
  | nil => cases hmem
  | cons g gs ih =>
    rw [List.map_cons, List.nodup_cons] at hnd
    by_cases hg : g.face_id = fid
    · rw [List.filter_cons_of_neg (by simp [hg])]
      have hall : gs.filter (fun f => f.face_id ≠ fid) = gs := by
        rw [List.filter_eq_self]
        intro f hf
        simp only [ne_eq, decide_eq_true_eq]
        intro hfeq
        exact hnd.1 (List.mem_map.mpr ⟨f, hf, hfeq.trans hg.symm⟩)
      rw [hall]
      simp
    · have hface : face ∈ gs := by
        rcases List.mem_cons.mp hmem with rfl | h
        · exact absurd hfid hg
        · exact h
      rw [List.filter_cons_of_pos (by simp [hg])]
      simp only [List.length_cons]
      have := ih hnd.2 hface
      omega

/-- The total size of a one-cluster list is that cluster's size. -/
lemma clusterSizes_singleton (c : FaceCluster) : clusterSizes [c] = c.faces.length := by
  unfold clusterSizes
  simp

/-- A verification (accept or reject) conserves the entity count whenever
cluster ids are distinct and each cluster's members carry distinct face ids:
an accepted face is marked in place, a rejected face leaves its origin and
lands in exactly one new home or on the orphan list, and only an emptied
cluster is deleted. -/
lemma verify_conservation (cosSim : List ℚ → List ℚ → ℚ) (st : ServiceState)
    (fid cid : String) (correct : Bool)
    (hndid : ((ensureClusters cosSim st).clusters.map
      (fun c => c.cluster_id)).Nodup)
    (hndf : ∀ c ∈ (ensureClusters cosSim st).clusters,
      (c.faces.map (fun f => f.face_id)).Nodup) :
    clusterSizes (verify_face cosSim st fid cid correct).2.clusters +
      (verify_face cosSim st fid cid correct).2.orphaned_faces.length =
      clusterSizes (ensureClusters cosSim st).clusters +
        (ensureClusters cosSim st).orphaned_faces.length := by
  unfold verify_face
  simp only []
  cases hc1 : (ensureClusters cosSim st).clusters.find?
      (fun c => c.cluster_id = cid) with
  | none => rfl
  | some cluster =>
    simp only [hc1]
    cases hc2 : cluster.faces.find? (fun f => f.face_id = fid) with
    | none => rfl
    | some face =>
      simp only [hc2]
      have hclmem : cluster ∈ (ensureClusters cosSim st).clusters :=
        List.mem_of_find?_eq_some hc1
      have hcid0 := List.find?_some hc1
      have hcid : cluster.cluster_id = cid := of_decide_eq_true hcid0
      have hfmem : face ∈ cluster.faces := List.mem_of_find?_eq_some hc2
      have hffid0 := List.find?_some hc2
      have hffid : face.face_id = fid := of_decide_eq_true hffid0
      cases correct with
      | true =>
        simp only [if_true]
        have hA := clusterSizes_updateFirstCluster_found
          (ensureClusters cosSim st).clusters cid
          (fun c => { c with faces := c.faces.map (fun f => if f.face_id = fid then { f with verified := true } else f) })
          cluster hc1
        simp only [] at hA
        simp only [List.length_map] at hA
        omega
      | false =>
        simp only [Bool.false_eq_true, if_false]
        have hrem := length_filter_ne_of_nodup cluster.faces fid
          (hndf cluster hclmem) face hfmem hffid
        have hC1 : clusterSizes (removeFaceFromCluster
            (ensureClusters cosSim st).clusters fid cid) +
            cluster.faces.length =
            clusterSizes (ensureClusters cosSim st).clusters +
            (cluster.faces.filter (fun f => f.face_id ≠ fid)).length := by
          unfold removeFaceFromCluster
          exact clusterSizes_updateFirstCluster_found
            (ensureClusters cosSim st).clusters cid
            (fun c => { c with faces := c.faces.filter (fun f => f.face_id ≠ fid) })
            cluster hc1
        have hfind1 : (removeFaceFromCluster (ensureClusters cosSim st).clusters
            fid cid).find? (fun c => c.cluster_id = cid) =
            some { cluster with faces := cluster.faces.filter (fun f => f.face_id ≠ fid) } := by
          unfold removeFaceFromCluster
          exact find?_updateFirstCluster_self
            (ensureClusters cosSim st).clusters cid
            (fun c => { c with faces := c.faces.filter (fun f => f.face_id ≠ fid) })
            cluster (fun c => rfl) hc1
        have hnd1 : ((removeFaceFromCluster (ensureClusters cosSim st).clusters
            fid cid).map (fun c => c.cluster_id)).Nodup := by
          unfold removeFaceFromCluster
          rw [updateFirstCluster_map_id (ensureClusters cosSim st).clusters cid
            (fun c => { c with faces := c.faces.filter (fun f => f.face_id ≠ fid) })
            (fun c => rfl)]
          exact hndid
        cases hb : find_best_cluster_for_face cosSim
            (removeFaceFromCluster (ensureClusters cosSim st).clusters fid cid)
            (rejectNcs (ensureClusters cosSim st).negative_constraints fid cid)
            face [cid] (mkRat 3 5) with
        | some nid =>
          simp only [hb]
          obtain ⟨hex, hcon, c1, hc1mem, hc1id⟩ :=
            find_best_some_facts cosSim _ _ _ _ _ _ hb
          have hnidcid : nid ≠ cid := fun h => hex (List.mem_singleton.mpr h)
          have hfindnid : ((removeFaceFromCluster
              (ensureClusters cosSim st).clusters fid cid).find?
              (fun c => c.cluster_id = nid)).isSome = true := by
            rw [List.find?_isSome]
            exact ⟨c1, hc1mem, by simp [hc1id]⟩
          obtain ⟨c0, hc0⟩ := Option.isSome_iff_exists.mp hfindnid
          have hC2 : clusterSizes (updateFirstCluster
              (removeFaceFromCluster (ensureClusters cosSim st).clusters fid cid)
              nid
              (fun c => { c with faces := c.faces ++ [{ face with verified := false }] })) +
              c0.faces.length =
              clusterSizes (removeFaceFromCluster
                (ensureClusters cosSim st).clusters fid cid) +
              (c0.faces.length + 1) := by
            have h := clusterSizes_updateFirstCluster_found
              (removeFaceFromCluster (ensureClusters cosSim st).clusters fid cid)
              nid
              (fun c => { c with faces := c.faces ++ [{ face with verified := false }] })
              c0 hc0
            simp only [] at h
            simp only [List.length_append, List.length_cons, List.length_nil] at h
            exact h
          by_cases hcemp :
              (cluster.faces.filter (fun f => f.face_id ≠ fid)).isEmpty = true
          · rw [if_pos hcemp]
            have hremnil : cluster.faces.filter (fun f => f.face_id ≠ fid) = [] :=
              List.isEmpty_iff.mp hcemp
            have hcomm : (updateFirstCluster
                (removeFaceFromCluster (ensureClusters cosSim st).clusters fid cid)
                nid
                (fun c => { c with faces := c.faces ++ [{ face with verified := false }] })).filter
                (fun c => c.cluster_id = cid) =
                (removeFaceFromCluster (ensureClusters cosSim st).clusters
                  fid cid).filter (fun c => c.cluster_id = cid) :=
              filter_updateFirstCluster_other _ nid cid _ (fun c => rfl) hnidcid
            have hone := filter_id_eq_of_find?
              (removeFaceFromCluster (ensureClusters cosSim st).clusters fid cid)
              cid _ hnd1 hfind1
            have hsplit := clusterSizes_filter_split
              (updateFirstCluster
                (removeFaceFromCluster (ensureClusters cosSim st).clusters fid cid)
                nid
                (fun c => { c with faces := c.faces ++ [{ face with verified := false }] })) cid
            rw [hcomm, hone] at hsplit
            have hone_sz : clusterSizes [{ cluster with faces := cluster.faces.filter (fun f => f.face_id ≠ fid) }] = 0 := by
              rw [clusterSizes_singleton]
              show (cluster.faces.filter (fun f => f.face_id ≠ fid)).length = 0
              rw [hremnil]
              rfl
            rw [hone_sz] at hsplit
            simp only []
            omega
          · rw [if_neg hcemp]
            simp only []
            omega
        | none =>
          simp only [hb]
          by_cases hcemp :
              (cluster.faces.filter (fun f => f.face_id ≠ fid)).isEmpty = true
          · rw [if_pos hcemp]
            have hremnil : cluster.faces.filter (fun f => f.face_id ≠ fid) = [] :=
              List.isEmpty_iff.mp hcemp
            have hone := filter_id_eq_of_find?
              (removeFaceFromCluster (ensureClusters cosSim st).clusters fid cid)
              cid _ hnd1 hfind1
            have hsplit := clusterSizes_filter_split
              (removeFaceFromCluster (ensureClusters cosSim st).clusters fid cid)
              cid
            rw [hone] at hsplit
            have hone_sz : clusterSizes [{ cluster with faces := cluster.faces.filter (fun f => f.face_id ≠ fid) }] = 0 := by
              rw [clusterSizes_singleton]
              show (cluster.faces.filter (fun f => f.face_id ≠ fid)).length = 0
              rw [hremnil]
              rfl
            rw [hone_sz] at hsplit
            simp only []
            simp only [List.length_append, List.length_cons, List.length_nil]
            omega
          · rw [if_neg hcemp]
            simp only []
            simp only [List.length_append, List.length_cons, List.length_nil]
            omega

/-- Head lookup hit. -/
lemma alGet_cons_self {α : Type} (a : String) (b : α) (m : List (String × α)) :
    alGet ((a, b) :: m) a = some b := by
  unfold alGet
  rw [List.find?_cons_of_pos _ (by simp)]
  rfl

/-- Head lookup miss. -/
lemma alGet_cons_ne {α : Type} (a : String) (b : α) (k : String)
    (m : List (String × α)) (h : a ≠ k) :
    alGet ((a, b) :: m) k = alGet m k := by
  unfold alGet
  rw [List.find?_cons_of_neg _ (by simp [h])]

/-- An in-place modification does not change which keys are bound. -/
lemma alGet_alModify_isSome {α : Type} (m : List (String × α)) (k k' : String)
    (f : α → α) :
    (alGet (alModify m k' f) k).isSome = (alGet m k).isSome := by
  by_cases hkk : k' = k
  · subst hkk
    rw [alGet_alModify_self]
    cases alGet m k' <;> rfl
  · rw [alGet_alModify_other m k k' f hkk]

/-- Appending one member to a bound cluster adds one to the dict total. -/
lemma clSum_alModify_append (m : List (String × FaceCluster)) (k : String)
    (face : FaceData) (h : (alGet m k).isSome = true) :
    clSum (alModify m k (fun c => { c with faces := c.faces ++ [face] })) =
      clSum m + 1 := by
  induction m with
  | nil => simp [alGet] at h
  | cons q m ih =>
    obtain ⟨a, b⟩ := q
    by_cases hq : a = k
    · simp only [alModify, hq, if_true]
      unfold clSum
      simp only [List.map_cons, List.sum_cons, List.length_append,
        List.length_cons, List.length_nil]
      omega
    · simp only [alModify, hq, if_false]
      rw [alGet_cons_ne a b k m hq] at h
      unfold clSum at ih ⊢
      simp only [List.map_cons, List.sum_cons]
      rw [ih h]
      omega

/-- Lookup in an association table built by mapping a duplicate-free cluster
list over its ids. -/
lemma alGet_map_clusters {α : Type} (clusters : List FaceCluster)
    (g : FaceCluster → α) (c : FaceCluster)
    (hnd : (clusters.map (fun c => c.cluster_id)).Nodup)
    (hc : c ∈ clusters) :
    alGet (clusters.map (fun c => (c.cluster_id, g c))) c.cluster_id =
      some (g c) := by
  induction clusters with
  | nil => cases hc
  | cons c' cs ih =>
    rw [List.map_cons, List.nodup_cons] at hnd
    rw [List.map_cons]
    rcases List.mem_cons.mp hc with rfl | hc
    · exact alGet_cons_self _ _ _
    · have hne : c'.cluster_id ≠ c.cluster_id :=
        fun h => hnd.1 (List.mem_map.mpr ⟨c, hc, h.symm⟩)
      rw [alGet_cons_ne _ _ _ _ hne]
      exact ih hnd.2 hc

/-- Every centroid binding comes from a nonempty bucket binding. -/
lemma mem_verifiedCentroids (buckets : List (String × List FaceData))
    (k : String) (v : List ℚ) (h : (k, v) ∈ verifiedCentroids buckets) :
    ∃ w, (k, w) ∈ buckets ∧ w ≠ [] := by
  unfold verifiedCentroids at h
  rcases List.mem_filterMap.mp h with ⟨⟨p1, p2⟩, hp, hpe⟩
  by_cases hp2 : p2 = []
  · rw [if_pos hp2] at hpe
    cases hpe
  · rw [if_neg hp2] at hpe
    injection hpe with hpe
    have h1 : p1 = k := ((Prod.mk.injEq _ _ _ _).mp hpe).1
    exact ⟨p2, h1 ▸ hp, hp2⟩

/-- A cluster with a nonempty verified bucket has a centroid binding. -/
lemma centroids_isSome_of_nonempty (clusters : List FaceCluster)
    (c : FaceCluster) (hc : c ∈ clusters)
    (hne : c.faces.filter (fun f => f.verified) ≠ []) :
    (alGet (verifiedCentroids (clusters.map (fun c =>
      (c.cluster_id, c.faces.filter (fun f => f.verified))))) c.cluster_id).isSome =
      true := by
  rw [alGet_isSome]
  refine ⟨(c.cluster_id, meanVec ((c.faces.filter (fun f => f.verified)).map
    (fun f => f.embedding))), ?_, rfl⟩
  unfold verifiedCentroids
  exact List.mem_filterMap.mpr
    ⟨(c.cluster_id, c.faces.filter (fun f => f.verified)),
     List.mem_map.mpr ⟨c, hc, rfl⟩, by rw [if_neg hne]⟩

/-- Sum over a guarded `filterMap` as a sum of guarded terms. -/
lemma clSum_filterMap_guard (l : List FaceCluster) (P : FaceCluster → Bool)
    (G : FaceCluster → String × FaceCluster) :
    clSum (l.filterMap (fun c => if P c then some (G c) else none)) =
      (l.map (fun c => if P c then (G c).2.faces.length else 0)).sum := by
  induction l with
  | nil => rfl
  | cons c cs ih =>
    rw [List.filterMap_cons, List.map_cons, List.sum_cons]
    by_cases hP : P c = true
    · rw [if_pos hP, if_pos hP]
      unfold clSum at ih ⊢
      rw [List.map_cons, List.sum_cons, ih]
    · rw [if_neg hP, if_neg hP]
      rw [ih]
      omega

/-- The seed dict's total member count is the number of verified faces
(clusters without a verified member contribute an empty bucket, whether or
not they are seeded). -/
lemma clSum_seedClusters (clusters : List FaceCluster)
    (hnd : (clusters.map (fun c => c.cluster_id)).Nodup) :
    clSum (seedClusters clusters
      (clusters.map (fun c => (c.cluster_id, c.faces.filter (fun f => f.verified))))
      (verifiedCentroids (clusters.map (fun c =>
        (c.cluster_id, c.faces.filter (fun f => f.verified)))))) =
      (clusters.map (fun c =>
        (c.faces.filter (fun f => f.verified)).length)).sum := by
  unfold seedClusters
  rw [seedClusters_go _ _ clusters [] hnd
    (fun p hp => absurd hp (List.not_mem_nil p))]
  rw [List.nil_append]
  rw [clSum_filterMap_guard clusters _ (fun c => (c.cluster_id,
    { cluster_id := c.cluster_id, name := c.name,
      faces := alGetD (clusters.map (fun c =>
        (c.cluster_id, c.faces.filter (fun f => f.verified)))) c.cluster_id [] }))]
  refine congrArg List.sum (List.map_congr_left ?_)
  intro c hc
  have hget : alGetD (clusters.map (fun c =>
      (c.cluster_id, c.faces.filter (fun f => f.verified)))) c.cluster_id [] =
      c.faces.filter (fun f => f.verified) := by
    unfold alGetD
    rw [alGet_map_clusters clusters _ c hnd hc]
    rfl
  by_cases hne : c.faces.filter (fun f => f.verified) = []
  · simp only [hget, hne, List.length_nil]
    by_cases hs : (alGet (verifiedCentroids (clusters.map (fun c =>
        (c.cluster_id, c.faces.filter (fun f => f.verified))))) c.cluster_id).isSome = true
    · rw [if_pos hs]
    · rw [if_neg hs]
  · rw [if_pos (centroids_isSome_of_nonempty clusters c hc hne)]
    simp only [hget]

/-- A successful best-anchor key is bound in the seed dict. -/
lemma seeded_bound (cosSim : List ℚ → List ℚ → ℚ)
    (clusters : List FaceCluster)
    (hnd : (clusters.map (fun c => c.cluster_id)).Nodup)
    (ncs : List (String × List String)) (t : ℚ) (k : String) (f : FaceData)
    (h : bestAnchor cosSim (verifiedCentroids (clusters.map (fun c =>
      (c.cluster_id, c.faces.filter (fun f => f.verified))))) ncs f t = some k) :
    (alGet (seedClusters clusters
      (clusters.map (fun c => (c.cluster_id, c.faces.filter (fun f => f.verified))))
      (verifiedCentroids (clusters.map (fun c =>
        (c.cluster_id, c.faces.filter (fun f => f.verified)))))) k).isSome =
      true := by
  obtain ⟨_, v, hv⟩ := bestAnchor_some_facts cosSim _ _ _ _ _ h
  obtain ⟨w, hw, hwne⟩ := mem_verifiedCentroids _ _ _ hv
  rcases List.mem_map.mp hw with ⟨c, hc, heq⟩
  have hk : c.cluster_id = k := ((Prod.mk.injEq _ _ _ _).mp heq).1
  have hwv : c.faces.filter (fun f => f.verified) = w :=
    ((Prod.mk.injEq _ _ _ _).mp heq).2
  rw [alGet_isSome]
  refine ⟨(c.cluster_id,
    { cluster_id := c.cluster_id, name := c.name,
      faces := alGetD (clusters.map (fun c =>
        (c.cluster_id, c.faces.filter (fun f => f.verified)))) c.cluster_id [] }),
    ?_, hk⟩
  unfold seedClusters
  rw [seedClusters_go _ _ clusters [] hnd
    (fun p hp => absurd hp (List.not_mem_nil p))]
  rw [List.nil_append]
  refine List.mem_filterMap.mpr ⟨c, hc, ?_⟩
  have hne : c.faces.filter (fun f => f.verified) ≠ [] := by
    rw [hwv]
    exact hwne
  rw [if_pos (centroids_isSome_of_nonempty clusters c hc hne)]

/-- Step 4 counting: every unverified face adds exactly one — to a bound
anchor cluster when the search succeeds, to the orphan list otherwise (the
duplicate test never fires for pairwise-distinct faces that are not already
orphaned).  Key-boundness is preserved. -/
lemma assignUnverified_count (cosSim : List ℚ → List ℚ → ℚ)
    (centroids : List (String × List ℚ))
    (ncs : List (String × List String)) (t : ℚ)
    (unverified : List (FaceData × String)) :
    ∀ (acc : List (String × FaceCluster) × List FaceData × Nat),
    (∀ k f, bestAnchor cosSim centroids ncs f t = some k →
      (alGet acc.1 k).isSome = true) →
    (∀ p ∈ unverified, p.1 ∉ acc.2.1) →
    ((unverified.map (fun p => p.1)).Nodup) →
    (clSum ((unverified.foldl (fun acc p =>
      match bestAnchor cosSim centroids ncs p.1 t with
      | some best =>
        (alModify acc.1 best (fun c => { c with faces := c.faces ++ [p.1] }),
         acc.2.1, acc.2.2 + (if best ≠ p.2 then 1 else 0))
      | none =>
        (acc.1, if p.1 ∈ acc.2.1 then acc.2.1 else acc.2.1 ++ [p.1], acc.2.2))
      acc).1) +
      ((unverified.foldl (fun acc p =>
      match bestAnchor cosSim centroids ncs p.1 t with
      | some best =>
        (alModify acc.1 best (fun c => { c with faces := c.faces ++ [p.1] }),
         acc.2.1, acc.2.2 + (if best ≠ p.2 then 1 else 0))
      | none =>
        (acc.1, if p.1 ∈ acc.2.1 then acc.2.1 else acc.2.1 ++ [p.1], acc.2.2))
      acc).2.1).length =
      clSum acc.1 + acc.2.1.length + unverified.length) ∧
    (∀ k f, bestAnchor cosSim centroids ncs f t = some k →
      (alGet ((unverified.foldl (fun acc p =>
      match bestAnchor cosSim centroids ncs p.1 t with
      | some best =>
        (alModify acc.1 best (fun c => { c with faces := c.faces ++ [p.1] }),
         acc.2.1, acc.2.2 + (if best ≠ p.2 then 1 else 0))
      | none =>
        (acc.1, if p.1 ∈ acc.2.1 then acc.2.1 else acc.2.1 ++ [p.1], acc.2.2))
      acc).1) k).isSome = true) := by
  induction unverified with
  | nil =>
    intro acc hkb _ _
    rw [List.foldl_nil]
    exact ⟨by rw [List.length_nil]; omega, hkb⟩
  | cons p ps ih =>
    intro acc hkb hfresh hnd
    rw [List.map_cons, List.nodup_cons] at hnd
    rw [List.foldl_cons]
    cases hba : bestAnchor cosSim centroids ncs p.1 t with
    | some best =>
      have hb : (alGet acc.1 best).isSome = true := hkb best p.1 hba
      have hkb' : ∀ k f, bestAnchor cosSim centroids ncs f t = some k →
          (alGet (alModify acc.1 best
            (fun c => { c with faces := c.faces ++ [p.1] })) k).isSome = true := by
        intro k f hkf
        rw [alGet_alModify_isSome]
        exact hkb k f hkf
      obtain ⟨hsum, hkb''⟩ := ih (alModify acc.1 best
          (fun c => { c with faces := c.faces ++ [p.1] }),
        acc.2.1, acc.2.2 + (if best ≠ p.2 then 1 else 0)) hkb'
        (fun q hq => hfresh q (List.mem_cons_of_mem _ hq)) hnd.2
      refine ⟨?_, hkb''⟩
      rw [hsum, clSum_alModify_append acc.1 best p.1 hb]
      simp only [List.length_cons]
      omega
    | none =>
      have hni : p.1 ∉ acc.2.1 := hfresh p (List.mem_cons_self _ _)
      rw [if_neg hni]
      have hfresh' : ∀ q ∈ ps, q.1 ∉ acc.2.1 ++ [p.1] := by
        intro q hq hqmem
        rcases List.mem_append.mp hqmem with hm | hm
        · exact hfresh q (List.mem_cons_of_mem _ hq) hm
        · exact hnd.1 (List.mem_map.mpr ⟨q, hq, List.mem_singleton.mp hm⟩)
      obtain ⟨hsum, hkb''⟩ := ih (acc.1, acc.2.1 ++ [p.1], acc.2.2) hkb
        hfresh' hnd.2
      refine ⟨?_, hkb''⟩
      rw [hsum]
      simp only [List.length_append, List.length_cons, List.length_nil]
      omega

/-- Step 5 counting: the placed faces are exactly the orphans whose anchor
search succeeds, each appended to its (bound) anchor cluster. -/
lemma placeOrphans_count (cosSim : List ℚ → List ℚ → ℚ)
    (centroids : List (String × List ℚ))
    (ncs : List (String × List String)) (t : ℚ) (orphans : List FaceData) :
    ∀ (acc : List (String × FaceCluster) × List FaceData),
    (∀ k f, bestAnchor cosSim centroids ncs f t = some k →
      (alGet acc.1 k).isSome = true) →
    clSum ((orphans.foldl (fun acc f =>
      match bestAnchor cosSim centroids ncs f t with
      | some best =>
        (alModify acc.1 best (fun c => { c with faces := c.faces ++ [f] }),
         acc.2 ++ [f])
      | none => acc) acc).1) =
      clSum acc.1 + (orphans.filter (fun f =>
        (bestAnchor cosSim centroids ncs f t).isSome)).length ∧
    (orphans.foldl (fun acc f =>
      match bestAnchor cosSim centroids ncs f t with
      | some best =>
        (alModify acc.1 best (fun c => { c with faces := c.faces ++ [f] }),
         acc.2 ++ [f])
      | none => acc) acc).2 =
      acc.2 ++ orphans.filter (fun f =>
        (bestAnchor cosSim centroids ncs f t).isSome) := by
  induction orphans with
  | nil =>
    intro acc _
    rw [List.foldl_nil, List.filter_nil, List.append_nil]
    exact ⟨by rw [List.length_nil]; omega, rfl⟩
  | cons f fs ih =>
    intro acc hkb
    rw [List.foldl_cons]
    cases hba : bestAnchor cosSim centroids ncs f t with
    | some best =>
      have hb : (alGet acc.1 best).isSome = true := hkb best f hba
      have hkb' : ∀ k g, bestAnchor cosSim centroids ncs g t = some k →
          (alGet (alModify acc.1 best
            (fun c => { c with faces := c.faces ++ [f] })) k).isSome = true := by
        intro k g hkg
        rw [alGet_alModify_isSome]
        exact hkb k g hkg
      obtain ⟨hsum, hpl⟩ := ih (alModify acc.1 best
          (fun c => { c with faces := c.faces ++ [f] }), acc.2 ++ [f]) hkb'
      rw [List.filter_cons_of_pos (by rw [hba]; rfl)]
      constructor
      · rw [hsum, clSum_alModify_append acc.1 best f hb]
        simp only [List.length_cons]
        omega
      · rw [hpl, List.append_assoc]
        rfl
    | none =>
      obtain ⟨hsum, hpl⟩ := ih acc hkb
      rw [List.filter_cons_of_neg (by rw [hba]; exact Bool.false_ne_true)]
      exact ⟨hsum, hpl⟩

/-- Step 4 counting, stated on `assignUnverified`. -/
lemma assignUnverified_count2 (cosSim : List ℚ → List ℚ → ℚ)
    (centroids : List (String × List ℚ))
    (ncs : List (String × List String)) (t : ℚ)
    (unverified : List (FaceData × String))
    (m0 : List (String × FaceCluster)) (orphans0 : List FaceData)
    (hkb : ∀ k f, bestAnchor cosSim centroids ncs f t = some k →
      (alGet m0 k).isSome = true)
    (hfresh : ∀ p ∈ unverified, p.1 ∉ orphans0)
    (hnd : (unverified.map (fun p => p.1)).Nodup) :
    (clSum (assignUnverified cosSim centroids ncs t unverified m0 orphans0).1 +
      (assignUnverified cosSim centroids ncs t unverified m0 orphans0).2.1.length =
      clSum m0 + orphans0.length + unverified.length) ∧
    (∀ k f, bestAnchor cosSim centroids ncs f t = some k →
      (alGet (assignUnverified cosSim centroids ncs t unverified m0
        orphans0).1 k).isSome = true) := by
  unfold assignUnverified
  exact assignUnverified_count cosSim centroids ncs t unverified
    (m0, orphans0, 0) hkb hfresh hnd

/-- Step 5 counting, stated on `placeOrphans`. -/
lemma placeOrphans_count2 (cosSim : List ℚ → List ℚ → ℚ)
    (centroids : List (String × List ℚ))
    (ncs : List (String × List String)) (t : ℚ) (orphans : List FaceData)
    (m0 : List (String × FaceCluster))
    (hkb : ∀ k f, bestAnchor cosSim centroids ncs f t = some k →
      (alGet m0 k).isSome = true) :
    clSum (placeOrphans cosSim centroids ncs t orphans m0).1 =
      clSum m0 + (orphans.filter (fun f =>
        (bestAnchor cosSim centroids ncs f t).isSome)).length ∧
    (placeOrphans cosSim centroids ncs t orphans m0).2 =
      orphans.filter (fun f =>
        (bestAnchor cosSim centroids ncs f t).isSome) := by
  unfold placeOrphans
  have h := placeOrphans_count cosSim centroids ncs t orphans (m0, []) hkb
  rw [List.nil_append] at h
  exact h

/-- Dict totals agree with cluster-list totals after dropping the keys. -/
lemma clusterSizes_map_snd (m : List (String × FaceCluster)) :
    clusterSizes (m.map (fun p => p.2)) = clSum m := by
  unfold clusterSizes clSum
  rw [List.map_map]
  rfl

/-- Dropping the attached origin ids recovers the unverified faces. -/
lemma map_fst_unv (clusters : List FaceCluster) :
    ((clusters.flatMap (fun c => (c.faces.filter (fun f => !f.verified)).map
      (fun f => (f, c.cluster_id)))).map (fun p => p.1)) =
      clusters.flatMap (fun c => c.faces.filter (fun f => !f.verified)) := by
  induction clusters with
  | nil => rfl
  | cons c cs ih =>
    rw [List.flatMap_cons, List.flatMap_cons, List.map_append, ih, List.map_map]
    congr 1
    exact List.map_id' _

/-- Filtering each cluster's members keeps a sublist of all members. -/
lemma flatMap_filter_sublist (clusters : List FaceCluster) (p : FaceData → Bool) :
    (clusters.flatMap (fun c => c.faces.filter p)).Sublist
      (clusters.flatMap (fun c => c.faces)) := by
  induction clusters with
  | nil => exact List.Sublist.refl _
  | cons c cs ih =>
    rw [List.flatMap_cons, List.flatMap_cons]
    exact List.Sublist.append (List.filter_sublist _) ih

/-- Verified bucket sizes plus the unverified list length give the total. -/
lemma verified_partition_sizes (clusters : List FaceCluster) :
    (clusters.map (fun c => (c.faces.filter (fun f => f.verified)).length)).sum +
      (clusters.flatMap (fun c => (c.faces.filter (fun f => !f.verified)).map
        (fun f => (f, c.cluster_id)))).length =
      clusterSizes clusters := by
  rw [List.length_flatMap]
  unfold clusterSizes
  have hmap : clusters.map (List.length ∘ fun c =>
      (c.faces.filter (fun f => !f.verified)).map (fun f => (f, c.cluster_id))) =
      clusters.map (fun c => (c.faces.filter (fun f => !f.verified)).length) :=
    List.map_congr_left (fun c _ => List.length_map _ _)
  rw [hmap, ← sum_map_add]
  exact congrArg List.sum (List.map_congr_left
    (fun c _ => length_filter_partition c.faces (fun f => f.verified)))

/-- On the successful branch the re-clustering pass conserves the entity
count: cluster sizes plus orphans before equals cluster sizes plus orphans
after, given distinct cluster ids and pairwise-distinct stored faces. -/
lemma recluster_conservation_branch (cosSim : List ℚ → List ℚ → ℚ)
    (st : ServiceState) (t : ℚ)
    (h1 : ¬ st.clusters = [])
    (h2 : ¬ verifiedCentroids (reclusterPartition st.clusters).1 = [])
    (hndid : (st.clusters.map (fun c => c.cluster_id)).Nodup)
    (hfnd : (st.clusters.flatMap (fun c => c.faces) ++ st.orphaned_faces).Nodup) :
    clusterSizes (recluster_with_constraints cosSim st t).2.clusters +
      (recluster_with_constraints cosSim st t).2.orphaned_faces.length =
      clusterSizes st.clusters + st.orphaned_faces.length := by
  unfold recluster_with_constraints
  rw [if_neg h1]
  simp only []
  rw [if_neg h2]
  simp only []
  rw [reclusterPartition_eq st.clusters hndid]
  simp only []
  have hkb0 : ∀ k f, bestAnchor cosSim
      (verifiedCentroids (st.clusters.map (fun c =>
        (c.cluster_id, c.faces.filter (fun f => f.verified)))))
      st.negative_constraints f t = some k →
      (alGet (seedClusters st.clusters
        (st.clusters.map (fun c =>
          (c.cluster_id, c.faces.filter (fun f => f.verified))))
        (verifiedCentroids (st.clusters.map (fun c =>
          (c.cluster_id, c.faces.filter (fun f => f.verified)))))) k).isSome =
        true :=
    fun k f h => seeded_bound cosSim st.clusters hndid st.negative_constraints
      t k f h
  have hnd0 : ((st.clusters.flatMap (fun c =>
      (c.faces.filter (fun f => !f.verified)).map
        (fun f => (f, c.cluster_id)))).map (fun p => p.1)).Nodup := by
    rw [map_fst_unv]
    exact ((flatMap_filter_sublist st.clusters (fun f => !f.verified)).nodup
      (List.nodup_append.mp hfnd).1)
  have hfresh0 : ∀ p ∈ st.clusters.flatMap (fun c =>
      (c.faces.filter (fun f => !f.verified)).map (fun f => (f, c.cluster_id))),
      p.1 ∉ st.orphaned_faces := by
    intro p hp
    have hp1 : p.1 ∈ st.clusters.flatMap (fun c =>
        c.faces.filter (fun f => !f.verified)) := by
      rw [← map_fst_unv]
      exact List.mem_map.mpr ⟨p, hp, rfl⟩
    exact (List.nodup_append.mp hfnd).2.2
      ((flatMap_filter_sublist st.clusters (fun f => !f.verified)).subset hp1)
  have h4 := assignUnverified_count2 cosSim
    (verifiedCentroids (st.clusters.map (fun c =>
      (c.cluster_id, c.faces.filter (fun f => f.verified)))))
    st.negative_constraints t
    (st.clusters.flatMap (fun c => (c.faces.filter (fun f => !f.verified)).map
      (fun f => (f, c.cluster_id))))
    (seedClusters st.clusters
      (st.clusters.map (fun c =>
        (c.cluster_id, c.faces.filter (fun f => f.verified))))
      (verifiedCentroids (st.clusters.map (fun c =>
        (c.cluster_id, c.faces.filter (fun f => f.verified))))))
    st.orphaned_faces hkb0 hfresh0 hnd0
  obtain ⟨h4sum, h4kb⟩ := h4
  have h5 := placeOrphans_count2 cosSim
    (verifiedCentroids (st.clusters.map (fun c =>
      (c.cluster_id, c.faces.filter (fun f => f.verified)))))
    st.negative_constraints t
    (assignUnverified cosSim
      (verifiedCentroids (st.clusters.map (fun c =>
        (c.cluster_id, c.faces.filter (fun f => f.verified)))))
      st.negative_constraints t
      (st.clusters.flatMap (fun c => (c.faces.filter (fun f => !f.verified)).map
        (fun f => (f, c.cluster_id))))
      (seedClusters st.clusters
        (st.clusters.map (fun c =>
          (c.cluster_id, c.faces.filter (fun f => f.verified))))
        (verifiedCentroids (st.clusters.map (fun c =>
          (c.cluster_id, c.faces.filter (fun f => f.verified))))))
      st.orphaned_faces).2.1
    (assignUnverified cosSim
      (verifiedCentroids (st.clusters.map (fun c =>
        (c.cluster_id, c.faces.filter (fun f => f.verified)))))
      st.negative_constraints t
      (st.clusters.flatMap (fun c => (c.faces.filter (fun f => !f.verified)).map
        (fun f => (f, c.cluster_id))))
      (seedClusters st.clusters
        (st.clusters.map (fun c =>
          (c.cluster_id, c.faces.filter (fun f => f.verified))))
        (verifiedCentroids (st.clusters.map (fun c =>
          (c.cluster_id, c.faces.filter (fun f => f.verified))))))
      st.orphaned_faces).1 h4kb
  obtain ⟨h5sum, h5placed⟩ := h5
  have hseed := clSum_seedClusters st.clusters hndid
  have hpart := verified_partition_sizes st.clusters
  rw [clusterSizes_sortByCountDesc, clusterSizes_filter_nonempty,
    clusterSizes_map_snd]
  have hcongr : (assignUnverified cosSim
      (verifiedCentroids (st.clusters.map (fun c =>
        (c.cluster_id, c.faces.filter (fun f => f.verified)))))
      st.negative_constraints t
      (st.clusters.flatMap (fun c => (c.faces.filter (fun f => !f.verified)).map
        (fun f => (f, c.cluster_id))))
      (seedClusters st.clusters
        (st.clusters.map (fun c =>
          (c.cluster_id, c.faces.filter (fun f => f.verified))))
        (verifiedCentroids (st.clusters.map (fun c =>
          (c.cluster_id, c.faces.filter (fun f => f.verified))))))
      st.orphaned_faces).2.1.filter (fun f => f ∉ (placeOrphans cosSim
        (verifiedCentroids (st.clusters.map (fun c =>
          (c.cluster_id, c.faces.filter (fun f => f.verified)))))
        st.negative_constraints t
        (assignUnverified cosSim
          (verifiedCentroids (st.clusters.map (fun c =>
            (c.cluster_id, c.faces.filter (fun f => f.verified)))))
          st.negative_constraints t
          (st.clusters.flatMap (fun c =>
            (c.faces.filter (fun f => !f.verified)).map
              (fun f => (f, c.cluster_id))))
          (seedClusters st.clusters
            (st.clusters.map (fun c =>
              (c.cluster_id, c.faces.filter (fun f => f.verified))))
            (verifiedCentroids (st.clusters.map (fun c =>
              (c.cluster_id, c.faces.filter (fun f => f.verified))))))
          st.orphaned_faces).2.1
        (assignUnverified cosSim
          (verifiedCentroids (st.clusters.map (fun c =>
            (c.cluster_id, c.faces.filter (fun f => f.verified)))))
          st.negative_constraints t
          (st.clusters.flatMap (fun c =>
            (c.faces.filter (fun f => !f.verified)).map
              (fun f => (f, c.cluster_id))))
          (seedClusters st.clusters
            (st.clusters.map (fun c =>
              (c.cluster_id, c.faces.filter (fun f => f.verified))))
            (verifiedCentroids (st.clusters.map (fun c =>
              (c.cluster_id, c.faces.filter (fun f => f.verified))))))
          st.orphaned_faces).1).2) =
      (assignUnverified cosSim
        (verifiedCentroids (st.clusters.map (fun c =>
          (c.cluster_id, c.faces.filter (fun f => f.verified)))))
        st.negative_constraints t
        (st.clusters.flatMap (fun c =>
          (c.faces.filter (fun f => !f.verified)).map
            (fun f => (f, c.cluster_id))))
        (seedClusters st.clusters
          (st.clusters.map (fun c =>
            (c.cluster_id, c.faces.filter (fun f => f.verified))))
          (verifiedCentroids (st.clusters.map (fun c =>
            (c.cluster_id, c.faces.filter (fun f => f.verified))))))
        st.orphaned_faces).2.1.filter (fun f => !(bestAnchor cosSim
          (verifiedCentroids (st.clusters.map (fun c =>
            (c.cluster_id, c.faces.filter (fun f => f.verified)))))
          st.negative_constraints f t).isSome) := by
    refine List.filter_congr ?_
    intro f hf
    by_cases hp : (bestAnchor cosSim
        (verifiedCentroids (st.clusters.map (fun c =>
          (c.cluster_id, c.faces.filter (fun f => f.verified)))))
        st.negative_constraints f t).isSome = true
    · have hmem : f ∈ (placeOrphans cosSim
          (verifiedCentroids (st.clusters.map (fun c =>
            (c.cluster_id, c.faces.filter (fun f => f.verified)))))
          st.negative_constraints t
          (assignUnverified cosSim
            (verifiedCentroids (st.clusters.map (fun c =>
              (c.cluster_id, c.faces.filter (fun f => f.verified)))))
            st.negative_constraints t
            (st.clusters.flatMap (fun c =>
              (c.faces.filter (fun f => !f.verified)).map
                (fun f => (f, c.cluster_id))))
            (seedClusters st.clusters
              (st.clusters.map (fun c =>
                (c.cluster_id, c.faces.filter (fun f => f.verified))))
              (verifiedCentroids (st.clusters.map (fun c =>
                (c.cluster_id, c.faces.filter (fun f => f.verified))))))
            st.orphaned_faces).2.1
          (assignUnverified cosSim
            (verifiedCentroids (st.clusters.map (fun c =>
              (c.cluster_id, c.faces.filter (fun f => f.verified)))))
            st.negative_constraints t
            (st.clusters.flatMap (fun c =>
              (c.faces.filter (fun f => !f.verified)).map
                (fun f => (f, c.cluster_id))))
            (seedClusters st.clusters
              (st.clusters.map (fun c =>
                (c.cluster_id, c.faces.filter (fun f => f.verified))))
              (verifiedCentroids (st.clusters.map (fun c =>
                (c.cluster_id, c.faces.filter (fun f => f.verified))))))
            st.orphaned_faces).1).2 := by
        rw [h5placed]
        exact List.mem_filter.mpr ⟨hf, hp⟩
      simp [hmem, hp]
    · have hmem : f ∉ (placeOrphans cosSim
          (verifiedCentroids (st.clusters.map (fun c =>
            (c.cluster_id, c.faces.filter (fun f => f.verified)))))
          st.negative_constraints t
          (assignUnverified cosSim
            (verifiedCentroids (st.clusters.map (fun c =>
              (c.cluster_id, c.faces.filter (fun f => f.verified)))))
            st.negative_constraints t
            (st.clusters.flatMap (fun c =>
              (c.faces.filter (fun f => !f.verified)).map
                (fun f => (f, c.cluster_id))))
            (seedClusters st.clusters
              (st.clusters.map (fun c =>
                (c.cluster_id, c.faces.filter (fun f => f.verified))))
              (verifiedCentroids (st.clusters.map (fun c =>
                (c.cluster_id, c.faces.filter (fun f => f.verified))))))
            st.orphaned_faces).2.1
          (assignUnverified cosSim
            (verifiedCentroids (st.clusters.map (fun c =>
              (c.cluster_id, c.faces.filter (fun f => f.verified)))))
            st.negative_constraints t
            (st.clusters.flatMap (fun c =>
              (c.faces.filter (fun f => !f.verified)).map
                (fun f => (f, c.cluster_id))))
            (seedClusters st.clusters
              (st.clusters.map (fun c =>
                (c.cluster_id, c.faces.filter (fun f => f.verified))))
              (verifiedCentroids (st.clusters.map (fun c =>
                (c.cluster_id, c.faces.filter (fun f => f.verified))))))
            st.orphaned_faces).1).2 := by
        rw [h5placed]
        intro hmem
        exact absurd (List.mem_filter.mp hmem).2 (by simp [hp])
      simp [hmem, hp]
  rw [hcongr]
  have hlenpart := length_filter_partition
    (assignUnverified cosSim
      (verifiedCentroids (st.clusters.map (fun c =>
        (c.cluster_id, c.faces.filter (fun f => f.verified)))))
      st.negative_constraints t
      (st.clusters.flatMap (fun c => (c.faces.filter (fun f => !f.verified)).map
        (fun f => (f, c.cluster_id))))
      (seedClusters st.clusters
        (st.clusters.map (fun c =>
          (c.cluster_id, c.faces.filter (fun f => f.verified))))
        (verifiedCentroids (st.clusters.map (fun c =>
          (c.cluster_id, c.faces.filter (fun f => f.verified))))))
      st.orphaned_faces).2.1
    (fun f => (bestAnchor cosSim
      (verifiedCentroids (st.clusters.map (fun c =>
        (c.cluster_id, c.faces.filter (fun f => f.verified)))))
      st.negative_constraints f t).isSome)
  omega

/-- C6 (amended): conservation holds for merge, verification and the
successful re-clustering pass (each under the data model's uniqueness
assumptions), and the initial clustering always covers every entity exactly
once — but it never consults or clears the orphan list, so running it with a
stale nonempty orphan list leaves a state where `Σ(cluster sizes) +
|orphans|` exceeds the entity total and an entity sits both in a cluster and
in the orphan set (see the counterexample). -/
theorem claim_C6_conservation (cosSim : List ℚ → List ℚ → ℚ)
    (st : ServiceState) :
    (∀ (faces : List FaceData) (cns : List (String × String)) (t : ℚ),
      clusterSizes (cluster_faces cosSim faces cns t) = faces.length) ∧
    (∀ sid tid,
      ((ensureClusters cosSim st).clusters.map (fun c => c.cluster_id)).Nodup →
      clusterSizes (merge_clusters cosSim st sid tid).2.clusters +
        (merge_clusters cosSim st sid tid).2.orphaned_faces.length =
        clusterSizes (ensureClusters cosSim st).clusters +
          (ensureClusters cosSim st).orphaned_faces.length) ∧
    (∀ fid cid correct,
      ((ensureClusters cosSim st).clusters.map (fun c => c.cluster_id)).Nodup →
      (∀ c ∈ (ensureClusters cosSim st).clusters,
        (c.faces.map (fun f => f.face_id)).Nodup) →
      clusterSizes (verify_face cosSim st fid cid correct).2.clusters +
        (verify_face cosSim st fid cid correct).2.orphaned_faces.length =
        clusterSizes (ensureClusters cosSim st).clusters +
          (ensureClusters cosSim st).orphaned_faces.length) ∧
    (∀ (t : ℚ) fm op orr cb ca,
      (recluster_with_constraints cosSim st t).1 =
        ReclusterResult.ok fm op orr cb ca →
      (st.clusters.map (fun c => c.cluster_id)).Nodup →
      (st.clusters.flatMap (fun c => c.faces) ++ st.orphaned_faces).Nodup →
      clusterSizes (recluster_with_constraints cosSim st t).2.clusters +
        (recluster_with_constraints cosSim st t).2.orphaned_faces.length =
        clusterSizes st.clusters + st.orphaned_faces.length) := by
  refine ⟨cluster_faces_sizes cosSim, fun sid tid hnd =>
    merge_conservation cosSim st sid tid hnd,
    fun fid cid correct hndid hndf =>
      verify_conservation cosSim st fid cid correct hndid hndf, ?_⟩
  intro t fm op orr cb ca hok hndid hfnd
  by_cases h1 : st.clusters = []
  · exfalso
    unfold recluster_with_constraints at hok
    rw [if_pos h1] at hok
    exact absurd hok (by simp)
  by_cases h2 : verifiedCentroids (reclusterPartition st.clusters).1 = []
  · exfalso
    unfold recluster_with_constraints at hok
    rw [if_neg h1] at hok
    simp only [] at hok
    rw [if_pos h2] at hok
    exact absurd hok (by simp)
  exact recluster_conservation_branch cosSim st t h1 h2 hndid hfnd

/-- Fixtures for C6: a stale-orphan state (the orphan is also among the
entities), and small states exercising each conserving operation. -/
def stOrphC6 : ServiceState :=
  ⟨[⟨"f1", [1], false⟩], [], [], [], [⟨"f1", [1], false⟩]⟩

/-- Constant similarity kernel. -/
def wOne : List ℚ → List ℚ → ℚ := fun _ _ => 1

/-- Merge fixture for the C6 witness. -/
def stMergeC6 : ServiceState :=
  ⟨[], [⟨"S", "S", [⟨"a6", [1], false⟩]⟩, ⟨"T", "T", [⟨"b6", [2], false⟩]⟩],
   [], [], []⟩

/-- Rejection fixture for the C6 witness. -/
def stHomeC6 : ServiceState :=
  ⟨[], [⟨"D1", "D1", [⟨"p6", [3], false⟩]⟩, ⟨"D2", "D2", [⟨"q6", [4], true⟩]⟩],
   [], [], []⟩

/-- Re-clustering fixture for the C6 witness. -/
def stRouteC6 : ServiceState :=
  ⟨[], [⟨"W6", "W6", [⟨"va6", [10], true⟩]⟩,
        ⟨"X6", "X6", [⟨"vb6", [11], true⟩, ⟨"fu6", [2], false⟩]⟩],
   [], [("fu6", ["X6"])], []⟩

/-- Counterexample to C6 as stated: on a state satisfying conservation (one
entity, sitting only in the orphan list), the "no clusters" branch of the
re-clustering operation runs the initial clustering over all entities
without clearing the orphan list; afterwards the sums double-count the
entity. -/
theorem claim_C6_counterexample :
    (clusterSizes stOrphC6.clusters + stOrphC6.orphaned_faces.length =
      stOrphC6.faces.length) ∧
    ¬ (clusterSizes
        (recluster_with_constraints (fun _ _ => 0) stOrphC6 (mkRat 3 5)).2.clusters +
      (recluster_with_constraints (fun _ _ => 0) stOrphC6 (mkRat 3 5)).2.orphaned_faces.length =
      (recluster_with_constraints (fun _ _ => 0) stOrphC6 (mkRat 3 5)).2.faces.length) := by
  exact ⟨by decide, by decide⟩

/-- Witness for C6 (amended): each conserving operation verified on a small
concrete state — initial clustering of one face yields total one; a merge, a
rejection and a successful re-clustering each preserve
`Σ(cluster sizes) + |orphans|`. -/
theorem claim_C6_witness :
    (clusterSizes (cluster_faces wOne [⟨"w6", [1], false⟩] [] (mkRat 13 20)) = 1) ∧
    (clusterSizes (merge_clusters wOne stMergeC6 "S" "T").2.clusters +
      (merge_clusters wOne stMergeC6 "S" "T").2.orphaned_faces.length =
      clusterSizes (ensureClusters wOne stMergeC6).clusters +
        (ensureClusters wOne stMergeC6).orphaned_faces.length) ∧
    (clusterSizes (verify_face wOne stHomeC6 "p6" "D1" false).2.clusters +
      (verify_face wOne stHomeC6 "p6" "D1" false).2.orphaned_faces.length =
      clusterSizes (ensureClusters wOne stHomeC6).clusters +
        (ensureClusters wOne stHomeC6).orphaned_faces.length) ∧
    (clusterSizes (recluster_with_constraints wOne stRouteC6 (mkRat 1 2)).2.clusters +
      (recluster_with_constraints wOne stRouteC6 (mkRat 1 2)).2.orphaned_faces.length =
      clusterSizes stRouteC6.clusters + stRouteC6.orphaned_faces.length) := by
  refine ⟨(claim_C6_conservation wOne stMergeC6).1 [⟨"w6", [1], false⟩] [] (mkRat 13 20),
    (claim_C6_conservation wOne stMergeC6).2.1 "S" "T" (by decide),
    (claim_C6_conservation wOne stHomeC6).2.2.1 "p6" "D1" false (by decide) (by decide),
    (claim_C6_conservation wOne stRouteC6).2.2.2 (mkRat 1 2) 1 0 0 2 2
      (by decide) (by decide) (by decide)⟩
